import Mathlib

/-!
# arpi-gl core: `GeoSceneManager`

A shallow embedding of the two `GeoSceneManager` variants of the repository

* `src/core/src/geo/GeoSceneManager.cpp` (C++ namespace `dma`), embedded in the
  Lean namespace `dma.GeoSceneManager`;
* `src/core/src/engine/geo/GeoSceneManager.cpp` (C++ namespace `dma::geo`),
  embedded in the Lean namespace `dma.geo.GeoSceneManager`.

Conventions.

* `D` stands for the C++ `double` and `float` types.  It is a parameter: the
  members only compare such values, add, multiply and halve them, and pass them
  on, so every statement holds for any linearly ordered field (rounding,
  infinities and NaN are outside the model).
* A `std::shared_ptr<GeoEntity>` is a `GeoEntityPtr`: `none` is `nullptr`, and
  `some e` points to the object stored at address `e` of the heap (`heap e`).
* Dereferencing `nullptr` and stepping an invalidated iterator are undefined
  behaviour: a member that can do so returns an `Option`, and `none` is that case.
* Calls made on the collaborators (scene, camera, entities, materials, tile map,
  callbacks), and the calls of the manager's member `setOrigin`, are appended to
  `trace` in program order.  `Log::` calls are not recorded.
* A `std::shared_ptr<Material>` is the address of a material in `materials`; it
  is never null.
* The classes `Scene`, `Camera`, `GeoEntity`, `Poi`, `Material`, `Tile`, `TileMap`
  and `GeoUtils` are not among the source files.  Their pure functions are the fields of `Env`
  (parameters of every member); the few stateful operations the manager calls
  are modelled from the specification and marked so.
-/

namespace dma

/-- `LatLng`: a geographic coordinate in degrees. -/
structure LatLng (D : Type) where
  lat : D
  lng : D
deriving DecidableEq, Repr

/-- `LatLngAlt`: a geographic coordinate with an altitude in metres. -/
structure LatLngAlt (D : Type) where
  lat : D
  lng : D
  alt : D
deriving DecidableEq, Repr

/-- `glm::vec3`: a position of the local rendering space. -/
structure Vec3 (D : Type) where
  x : D
  y : D
  z : D
deriving DecidableEq, Repr

/-- `TranslationAnimation::Function`: the enumeration is declared in a header that
is not among the sources; these are the two members the sources name. -/
inductive TranslationFunction where
  | LINEAR
  | EASE
deriving DecidableEq, Repr

/-- `std::shared_ptr<GeoEntity>`: `none` is `nullptr`, `some e` is the address `e`. -/
abbrev GeoEntityPtr := Option Nat

/-- `#define ORIGIN_SHIFTING_TRESHOLD 8000 // 8km` -/
def ORIGIN_SHIFTING_TRESHOLD : Nat := 8000

/-- `#define ZOOM_LEVEL 20` -/
def ZOOM_LEVEL : Int := 20

/-! ## The registry `mGeoEntities`

The member is declared in `GeoSceneManager.hpp`, which is not among the sources.
It is used as a `std::map<std::string, std::shared_ptr<GeoEntity>>`: `find`,
`operator[]`, `erase(key)`, `clear()` and iteration over `(key, value)` pairs.
The embedding is the list of its pairs in iteration order, that is, in strictly
increasing key order. -/

namespace Registry

/-- `find(sid)`: the value stored under `sid`, `none` for `end()`. -/
def findRaw (sid : String) : List (String × GeoEntityPtr) → Option GeoEntityPtr
  | [] => none
  | (k, v) :: rest => if k = sid then some v else findRaw sid rest

/-- `erase(sid)` on the list of pairs. -/
def eraseRaw (sid : String) (l : List (String × GeoEntityPtr)) :
    List (String × GeoEntityPtr) :=
  l.filter (fun kv => decide (kv.1 ≠ sid))

/-- `operator[](sid) = v` on the list of pairs: the value of an existing key is
replaced, a new key is inserted at its place in key order. -/
def assignRaw (sid : String) (v : GeoEntityPtr) :
    List (String × GeoEntityPtr) → List (String × GeoEntityPtr)
  | [] => [(sid, v)]
  | (k, w) :: rest =>
    if sid < k then (sid, v) :: (k, w) :: rest
    else if sid = k then (sid, v) :: rest
    else (k, w) :: assignRaw sid v rest

end Registry

/-- `std::map<std::string, std::shared_ptr<GeoEntity>>`: the pairs in iteration
order, keys strictly increasing. -/
structure Registry where
  entries : List (String × GeoEntityPtr)
  sorted : (entries.map Prod.fst).Pairwise (fun a b => a < b)

namespace Registry

theorem mem_keys_assignRaw (sid : String) (v : GeoEntityPtr) :
    ∀ (l : List (String × GeoEntityPtr)) (x : String),
      x ∈ (assignRaw sid v l).map Prod.fst → x = sid ∨ x ∈ l.map Prod.fst := by
  intro l
  induction l with
  | nil => intro x hx; simpa [assignRaw] using hx
  | cons kv rest ih =>
    obtain ⟨k, w⟩ := kv
    intro x hx
    unfold assignRaw at hx
    split_ifs at hx with h1 h2
    · simp only [List.map_cons, List.mem_cons] at hx ⊢
      exact hx
    · simp only [List.map_cons, List.mem_cons] at hx ⊢
      rcases hx with hx | hx
      · exact Or.inl hx
      · exact Or.inr (Or.inr hx)
    · simp only [List.map_cons, List.mem_cons] at hx ⊢
      rcases hx with hx | hx
      · exact Or.inr (Or.inl hx)
      · rcases ih x hx with h | h
        · exact Or.inl h
        · exact Or.inr (Or.inr h)

theorem pairwise_assignRaw (sid : String) (v : GeoEntityPtr) :
    ∀ (l : List (String × GeoEntityPtr)),
      (l.map Prod.fst).Pairwise (fun a b => a < b) →
      ((assignRaw sid v l).map Prod.fst).Pairwise (fun a b => a < b) := by
  intro l
  induction l with
  | nil => intro _; simp [assignRaw]
  | cons kv rest ih =>
    obtain ⟨k, w⟩ := kv
    intro hs
    simp only [List.map_cons, List.pairwise_cons] at hs
    obtain ⟨hk, hrest⟩ := hs
    unfold assignRaw
    split_ifs with h1 h2
    · simp only [List.map_cons, List.pairwise_cons, List.mem_cons]
      refine ⟨?_, hk, hrest⟩
      intro a ha
      rcases ha with ha | ha
      · exact ha ▸ h1
      · exact lt_trans h1 (hk a ha)
    · simp only [List.map_cons, List.pairwise_cons]
      exact ⟨fun a ha => h2 ▸ hk a ha, hrest⟩
    · simp only [List.map_cons, List.pairwise_cons]
      refine ⟨?_, ih hrest⟩
      intro a ha
      rcases mem_keys_assignRaw sid v rest a ha with h | h
      · rw [h]
        exact lt_of_le_of_ne (not_lt.mp h1) (fun e => h2 e.symm)
      · exact hk a h

theorem pairwise_eraseRaw (sid : String) (l : List (String × GeoEntityPtr))
    (hs : (l.map Prod.fst).Pairwise (fun a b => a < b)) :
    ((eraseRaw sid l).map Prod.fst).Pairwise (fun a b => a < b) :=
  List.Pairwise.sublist (List.Sublist.map Prod.fst (List.filter_sublist l)) hs

end Registry

namespace Registry

/-- The empty map of a freshly constructed manager, and of `clear()`. -/
def empty : Registry := ⟨[], List.Pairwise.nil⟩

/-- `find(sid)`: `none` is `end()`, `some p` is an entry whose value is `p`. -/
def find (r : Registry) (sid : String) : Option GeoEntityPtr :=
  findRaw sid r.entries

/-- `find(sid) != end()` -/
def contains (r : Registry) (sid : String) : Bool :=
  (r.find sid).isSome

/-- `erase(sid)` -/
def erase (r : Registry) (sid : String) : Registry :=
  ⟨eraseRaw sid r.entries, pairwise_eraseRaw sid r.entries r.sorted⟩

/-- `operator[](sid) = v`: the assignment through the reference `operator[]` returns. -/
def assign (r : Registry) (sid : String) (v : GeoEntityPtr) : Registry :=
  ⟨assignRaw sid v r.entries, pairwise_assignRaw sid v r.entries r.sorted⟩

/-- `operator[](sid)` read as a value: the stored pointer when `sid` is a key;
otherwise `std::map` inserts `sid` with a value-initialised `shared_ptr`
(`nullptr`) and returns that.  The result is the pointer read and the map after
the call. -/
def index (r : Registry) (sid : String) : GeoEntityPtr × Registry :=
  match r.find sid with
  | some p => (p, r)
  | none => (none, r.assign sid none)

/-- `size()`: the number of entries. -/
def size (r : Registry) : Nat :=
  r.entries.length

end Registry

/-! ## Collaborators -/

/-- `GeoEntity`: the geographic coordinates (`getCoords`) and the derived local
position of its transform; whether the object is a `Poi`
(`std::dynamic_pointer_cast<Poi>` succeeds), the identifier a `Poi` carries
(`getSid()`), and the address of its material (`getMaterial()`, a
`std::shared_ptr<Material>`: two entities may hold the same material). -/
structure GeoEntity (D : Type) where
  mCoords : LatLngAlt D
  mPosition : Vec3 D
  isPoi : Bool
  mSid : String
  mMaterial : Nat

/-- `Material`: the diffuse colour of its pass 0 (`getPass(0)`). -/
structure Material (D : Type) where
  mDiffuseColor : Vec3 D
deriving DecidableEq

/-- `Tile`: its coordinates, the dirty flag, the local position and the size of
its quad (`getQuad().getWidth()`, `getQuad().getHeight()`). -/
structure Tile (D : Type) where
  mCoords : LatLngAlt D
  mDirty : Bool
  mPosition : Vec3 D
  width : D
  height : D
deriving DecidableEq

/-- `TileMap`: the resident tiles (`getTiles()`). -/
structure TileMap (D : Type) where
  mTiles : List (Tile D)
deriving DecidableEq

/-- `Camera`: the local position (`getPosition()`). -/
structure Camera (D : Type) where
  mPosition : Vec3 D
deriving DecidableEq

/-- `Scene`: the entities it draws (`getEntities()`) and its camera.  The manager
only ever hands the scene a pointer it has dereferenced before, so the list holds
addresses. -/
structure Scene (D : Type) where
  mEntities : List Nat
  mCamera : Camera D
deriving DecidableEq

/-- A call the manager makes on a collaborator. -/
inductive Call (D : Type) where
  /-- `mScene.addEntity(e)` -/
  | addEntity (e : Nat)
  /-- `mScene.removeEntity(p)` -/
  | removeEntity (p : GeoEntityPtr)
  /-- `ge->setCoords(coords)` on the entity at address `e` -/
  | setCoords (e : Nat) (coords : LatLngAlt D)
  /-- `camera.setPosition(pos)` when `animation` is `none`,
  `camera.setPosition(pos, duration, function)` when it is `some (duration, function)` -/
  | setPosition (pos : Vec3 D) (animation : Option (D × TranslationFunction))
  /-- `mTileMap.update(x0, y0)` -/
  | update (x0 y0 : Int)
  /-- `setOrigin(lat, lng)`, the manager's own member -/
  | setOrigin (lat lng : D)
  /-- `getMaterial()->getPass(0).setDiffuseColor(color)` on the material at address
  `material` -/
  | setDiffuseColor (material : Nat) (color : Vec3 D)
  /-- `mTileMap.getCallbacks()->onPoiSelected(sid)` -/
  | onPoiSelected (sid : String)
  /-- `mTileMap.getCallbacks()->onPoiDeselected(sid)` -/
  | onPoiDeselected (sid : String)
deriving DecidableEq

/-- The functions of `GeoUtils`, `TileMap`, `Scene`, `Poi` and `glm` the manager
calls; none of them is among the sources, so they are parameters. -/
structure Env (D : Type) where
  /-- `GeoUtils::lng2tilex(lng, zoom)` -/
  lng2tilex : D → Int → Int
  /-- `GeoUtils::lat2tiley(lat, zoom)` -/
  lat2tiley : D → Int → Int
  /-- `GeoUtils::slc(a, b)`: the great-circle distance in metres -/
  slc : LatLng D → LatLng D → D
  /-- `GeoUtils::bearing(a, b)` -/
  bearing : LatLng D → LatLng D → D
  /-- `GeoUtils::vector(origin, target)` -/
  vector : LatLngAlt D → LatLngAlt D → Vec3 D
  /-- `TileMap::isInRange(x, y, x0, y0)` -/
  isInRange : Int → Int → Int → Int → Bool
  /-- `TileMap::update(x0, y0)`, as a function of the tile map before the call -/
  update : TileMap D → Int → Int → TileMap D
  /-- `glm::half_pi<double>()` -/
  half_pi : D
  /-- `glm::radians(degrees)` -/
  radians : D → D
  /-- `cos` -/
  cos : D → D
  /-- `sin` -/
  sin : D → D
  /-- `Scene::castRay(screenX, screenY)` -/
  castRay : Scene D → Int → Int → Vec3 D
  /-- `Poi::intersects(ray, cameraPosition)` on the given object -/
  intersects : GeoEntity D → Vec3 D → Vec3 D → Bool
  /-- `Scene::distanceFromCamera(entity)` for the given object -/
  distanceFromCamera : Scene D → GeoEntity D → D

namespace Scene

variable {D : Type}

/-- Modelled from the spec: `Scene::addEntity(ref)` (class `Scene` is not among the
sources).  The scene holds a reference to the entity from this call on. -/
def addEntity (s : Scene D) (e : Nat) : Scene D :=
  { s with mEntities := s.mEntities ++ [e] }

/-- Modelled from the spec: `Scene::removeEntity(ref)` (class `Scene` is not among
the sources).  The reference is invalidated on removal: the scene holds no
reference to the entity after the call.  Removing `nullptr` removes nothing. -/
def removeEntity (s : Scene D) (p : GeoEntityPtr) : Scene D :=
  match p with
  | none => s
  | some e => { s with mEntities := s.mEntities.filter (fun x => decide (x ≠ e)) }

end Scene

namespace Camera

variable {D : Type} [LinearOrderedField D]

/-- Modelled from the spec: `Camera::setPosition(pos)` and
`Camera::setPosition(pos, duration, function)` (class `Camera` is not among the
sources).  Without a duration, or with a negative one (the "no animation"
sentinel), the position is set at once; otherwise the move is handed to the
animation subsystem, which is outside the model, and the position is not yet
changed by the call. -/
def setPosition (c : Camera D) (pos : Vec3 D)
    (animation : Option (D × TranslationFunction)) : Camera D :=
  match animation with
  | none => { c with mPosition := pos }
  | some (duration, _) => if duration < 0 then { c with mPosition := pos } else c

end Camera

/-! ## The manager state -/

/-- The members of `GeoSceneManager` (both variants), the heap its pointers point
into (entities and materials), and the calls made on collaborators so far. -/
structure GeoSceneManager (D : Type) where
  mOrigin : LatLng D
  mGeoEntities : Registry
  mScene : Scene D
  mTileMap : TileMap D
  mCameraCoords : LatLngAlt D
  mLastX : Int
  mLastY : Int
  mSelected : GeoEntityPtr
  heap : Nat → GeoEntity D
  materials : Nat → Material D
  trace : List (Call D)

namespace GeoSceneManager

variable {D : Type} [LinearOrderedField D]

/-- The constructor of both variants: `mLastX(-1), mLastY(-1)`, an empty
registry, nothing selected.  What the constructor leaves to default constructors
or receives from outside (origin, camera coordinates, the scene with its default
camera, the tile map, the heap of entities and of materials) is a parameter. -/
def construct (origin : LatLng D) (cameraCoords : LatLngAlt D) (scene : Scene D)
    (tileMap : TileMap D) (heap : Nat → GeoEntity D) (materials : Nat → Material D) :
    GeoSceneManager D :=
  { mOrigin := origin
    mGeoEntities := Registry.empty
    mScene := scene
    mTileMap := tileMap
    mCameraCoords := cameraCoords
    mLastX := -1
    mLastY := -1
    mSelected := none
    heap := heap
    materials := materials
    trace := [] }

/-- The statement `mScene.addEntity(geoEntity);` -/
def sceneAddEntity (m : GeoSceneManager D) (e : Nat) : GeoSceneManager D :=
  { m with mScene := m.mScene.addEntity e, trace := m.trace ++ [Call.addEntity e] }

/-- The statement `mScene.removeEntity(geoEntity);` -/
def sceneRemoveEntity (m : GeoSceneManager D) (p : GeoEntityPtr) : GeoSceneManager D :=
  { m with mScene := m.mScene.removeEntity p, trace := m.trace ++ [Call.removeEntity p] }

/-- The statement `camera.setPosition(...)` on `mScene.getCamera()`. -/
def cameraSetPosition (m : GeoSceneManager D) (pos : Vec3 D)
    (animation : Option (D × TranslationFunction)) : GeoSceneManager D :=
  { m with
    mScene := { m.mScene with mCamera := m.mScene.mCamera.setPosition pos animation }
    trace := m.trace ++ [Call.setPosition pos animation] }

/-- The statement `mTileMap.update(x0, y0);` -/
def tileMapUpdate (env : Env D) (m : GeoSceneManager D) (x0 y0 : Int) : GeoSceneManager D :=
  { m with mTileMap := env.update m.mTileMap x0 y0, trace := m.trace ++ [Call.update x0 y0] }

/-- The tile index of the entity at address `e`:
`lng2tilex(coords.lng, ZOOM_LEVEL)`, `lat2tiley(coords.lat, ZOOM_LEVEL)`. -/
def tileIndex (env : Env D) (m : GeoSceneManager D) (e : Nat) : Int × Int :=
  (env.lng2tilex (m.heap e).mCoords.lng ZOOM_LEVEL,
   env.lat2tiley (m.heap e).mCoords.lat ZOOM_LEVEL)

/-- `TileMap::isInRange(x, y, x0, y0)` for the tile index `(x, y)` of the entity at
address `e`. -/
def inRange (env : Env D) (m : GeoSceneManager D) (e : Nat) (x0 y0 : Int) : Bool :=
  env.isInRange (tileIndex env m e).1 (tileIndex env m e).2 x0 y0

/-- What no statement of `placeCamera` before its last three lines writes to: the
registry, the recorded camera coordinates, the last-known centre, the selection
and the coordinates of every entity. -/
structure Keeps (m m' : GeoSceneManager D) : Prop where
  mGeoEntities : m'.mGeoEntities = m.mGeoEntities
  mCameraCoords : m'.mCameraCoords = m.mCameraCoords
  mLastX : m'.mLastX = m.mLastX
  mLastY : m'.mLastY = m.mLastY
  mSelected : m'.mSelected = m.mSelected
  coords : ∀ e, (m'.heap e).mCoords = (m.heap e).mCoords

/-- The calls the body of the loop of `placeCamera` makes on the scene for the
entity at `e` when the centre moves from `(mLastX, mLastY)` to `(x0, y0)`. -/
def transitionCalls (env : Env D) (m : GeoSceneManager D) (x0 y0 : Int) (e : Nat) :
    List (Call D) :=
  if inRange env m e m.mLastX m.mLastY && !inRange env m e x0 y0 then
    [Call.removeEntity (some e)]
  else if !inRange env m e m.mLastX m.mLastY && inRange env m e x0 y0 then
    [Call.addEntity e]
  else
    []

/-! ### `src/core/src/geo/GeoSceneManager.cpp` -/

/-- `GeoSceneManager::mapPosition(lat, lng, alt)` -/
def mapPosition (env : Env D) (m : GeoSceneManager D) (lat lng alt : D) : Vec3 D :=
  env.vector ⟨m.mOrigin.lat, m.mOrigin.lng, 0⟩ ⟨lat, lng, alt⟩

/-- `GeoSceneManager::mapPosition(coords)` -/
def mapPositionCoords (env : Env D) (m : GeoSceneManager D) (coords : LatLngAlt D) : Vec3 D :=
  mapPosition env m coords.lat coords.lng coords.alt

/-- Modelled from the spec: `GeoEntity::setCoords(coords)` (class `GeoEntity` is not
among the sources; the entity is constructed with a reference to `mOrigin`).  The
coordinates are stored and the local position is recomputed from them and the
current Origin. -/
def setCoords (env : Env D) (m : GeoSceneManager D) (e : Nat) (coords : LatLngAlt D) :
    GeoSceneManager D :=
  { m with
    heap := Function.update m.heap e
      { m.heap e with mCoords := coords, mPosition := mapPositionCoords env m coords }
    trace := m.trace ++ [Call.setCoords e coords] }

/-- `GeoSceneManager::addGeoEntity(sid, geoEntity)` -/
def addGeoEntity (env : Env D) (m : GeoSceneManager D) (sid : String)
    (geoEntity : GeoEntityPtr) : Option (GeoSceneManager D) :=
  let m₁ :=
    if m.mGeoEntities.contains sid then
      let r := m.mGeoEntities.index sid
      let m' := ({ m with mGeoEntities := r.2 }).sceneRemoveEntity r.1
      { m' with mGeoEntities := m'.mGeoEntities.erase sid }
    else m
  match geoEntity with
  | none => none
  | some e =>
    let x := (tileIndex env m₁ e).1
    let y := (tileIndex env m₁ e).2
    let m₂ := { m₁ with mGeoEntities := m₁.mGeoEntities.assign sid (some e) }
    if env.isInRange x y m₂.mLastX m₂.mLastY then
      some (m₂.sceneAddEntity e)
    else
      some m₂

/-- `GeoSceneManager::removeGeoEntity(sid)` -/
def removeGeoEntity (m : GeoSceneManager D) (sid : String) : GeoSceneManager D :=
  let r := m.mGeoEntities.index sid
  let m₁ := { m with mGeoEntities := r.2 }
  match r.1 with
  | none => m₁
  | some e =>
    let m₂ := m₁.sceneRemoveEntity (some e)
    { m₂ with mGeoEntities := m₂.mGeoEntities.erase sid }

/-- `GeoSceneManager::getGeoEntity(sid)`: the pointer returned and the manager
after the call. -/
def getGeoEntity (m : GeoSceneManager D) (sid : String) : GeoEntityPtr × GeoSceneManager D :=
  if m.mGeoEntities.contains sid = false then
    (none, m)
  else
    let r := m.mGeoEntities.index sid
    (r.1, { m with mGeoEntities := r.2 })

/-- `GeoSceneManager::hasGeoEntity(sid)` -/
def hasGeoEntity (m : GeoSceneManager D) (sid : String) : Bool :=
  m.mGeoEntities.contains sid

/-- `GeoSceneManager::setOrigin(lat, lng)` -/
def setOrigin (env : Env D) (m : GeoSceneManager D) (lat lng : D) : GeoSceneManager D :=
  let m₁ := { m with mOrigin := ⟨lat, lng⟩, trace := m.trace ++ [Call.setOrigin lat lng] }
  m₁.mScene.mEntities.foldl (fun s e => setCoords env s e (s.heap e).mCoords) m₁

/-- The body of the loop `for (auto &kv : mGeoEntities)` of `placeCamera` for one
entry whose value points to `e`. -/
def placeCameraEntity (env : Env D) (x0 y0 : Int) (m : GeoSceneManager D) (e : Nat) :
    GeoSceneManager D :=
  let x := (tileIndex env m e).1
  let y := (tileIndex env m e).2
  let isInRange := env.isInRange x y x0 y0
  let wasInRange := env.isInRange x y m.mLastX m.mLastY
  if wasInRange && !isInRange then
    m.sceneRemoveEntity (some e)
  else if !wasInRange && isInRange then
    m.sceneAddEntity e
  else
    m

/-- The loop `for (auto &kv : mGeoEntities)` of `placeCamera` over the entries
still to visit.  `geoEntity->getCoords()` dereferences the value: `none` when it
is `nullptr`. -/
def placeCameraEntities (env : Env D) (x0 y0 : Int) :
    List (String × GeoEntityPtr) → GeoSceneManager D → Option (GeoSceneManager D)
  | [], m => some m
  | (_, none) :: _, _ => none
  | (_, some e) :: rest, m => placeCameraEntities env x0 y0 rest (placeCameraEntity env x0 y0 m e)

/-- The block `if (GeoUtils::slc(LatLng(coords.lat, coords.lng), mOrigin) >
ORIGIN_SHIFTING_TRESHOLD) { ... }` of `placeCamera`: the origin shift and the
re-set of the camera with no translation. -/
def placeCameraShift (env : Env D) (m : GeoSceneManager D) (coords : LatLngAlt D) :
    GeoSceneManager D :=
  if env.slc ⟨coords.lat, coords.lng⟩ m.mOrigin > (ORIGIN_SHIFTING_TRESHOLD : D) then
    let s := setOrigin env m coords.lat coords.lng
    s.cameraSetPosition (mapPositionCoords env s s.mCameraCoords) none
  else m

/-- The block `if (x0 != mLastX or y0 != mLastY) { ... }` of `placeCamera`. -/
def placeCameraMove (env : Env D) (m : GeoSceneManager D) (coords : LatLngAlt D)
    (x0 y0 : Int) : Option (GeoSceneManager D) :=
  if x0 ≠ m.mLastX ∨ y0 ≠ m.mLastY then
    let m₁ := placeCameraShift env m coords
    let m₂ := tileMapUpdate env m₁ x0 y0
    placeCameraEntities env x0 y0 m₂.mGeoEntities.entries m₂
  else some m

/-- `GeoSceneManager::placeCamera(coords, translationDuration, translationFunction)` -/
def placeCamera (env : Env D) (m : GeoSceneManager D) (coords : LatLngAlt D)
    (translationDuration : D) (translationFunction : TranslationFunction) :
    Option (GeoSceneManager D) :=
  let x0 := env.lng2tilex coords.lng ZOOM_LEVEL
  let y0 := env.lat2tiley coords.lat ZOOM_LEVEL
  match placeCameraMove env m coords x0 y0 with
  | none => none
  | some m₃ =>
    let pos := mapPosition env m₃ coords.lat coords.lng coords.alt
    let m₄ := m₃.cameraSetPosition pos (some (translationDuration, translationFunction))
    some { m₄ with mCameraCoords := coords, mLastX := x0, mLastY := y0 }

/-- `GeoSceneManager::placeCamera(const LatLngAlt& coords)` -/
def placeCameraLatLngAlt (env : Env D) (m : GeoSceneManager D) (coords : LatLngAlt D) :
    Option (GeoSceneManager D) :=
  placeCamera env m coords (-1) TranslationFunction.LINEAR

/-- `GeoSceneManager::placeCamera(const LatLng& coords)` -/
def placeCameraLatLng (env : Env D) (m : GeoSceneManager D) (coords : LatLng D) :
    Option (GeoSceneManager D) :=
  placeCameraLatLngAlt env m ⟨coords.lat, coords.lng, m.mScene.mCamera.mPosition.y⟩

/-- The statement `p->getMaterial()->getPass(0).setDiffuseColor(color);` for the
object `p` at address `e`. -/
def setDiffuseColor (m : GeoSceneManager D) (e : Nat) (color : Vec3 D) : GeoSceneManager D :=
  { m with
    materials := Function.update m.materials (m.heap e).mMaterial ⟨color⟩
    trace := m.trace ++ [Call.setDiffuseColor (m.heap e).mMaterial color] }

/-- The statement `mTileMap.getCallbacks()->onPoiDeselected(p->getSid());` for the
object `p` at address `e`. -/
def onPoiDeselected (m : GeoSceneManager D) (e : Nat) : GeoSceneManager D :=
  { m with trace := m.trace ++ [Call.onPoiDeselected (m.heap e).mSid] }

/-- The statement `mTileMap.getCallbacks()->onPoiSelected(p->getSid());` for the
object `p` at address `e`. -/
def onPoiSelected (m : GeoSceneManager D) (e : Nat) : GeoSceneManager D :=
  { m with trace := m.trace ++ [Call.onPoiSelected (m.heap e).mSid] }

/-- The test of the first loop of `pick` on a non-null registry value: the
`dynamic_pointer_cast<Poi>` succeeds and
`poi->intersects(ray, mScene.getCamera().getPosition())`. -/
def isHit (env : Env D) (m : GeoSceneManager D) (ray : Vec3 D) (e : Nat) : Bool :=
  (m.heap e).isPoi && env.intersects (m.heap e) ray m.mScene.mCamera.mPosition

/-- The loop `for (auto& kv : mGeoEntities)` of `pick` over the entries still to
visit: what it pushes to the back of `intersected`, front first.  The cast of a
null pointer is null, and the loop continues. -/
def pickIntersected (env : Env D) (m : GeoSceneManager D) (ray : Vec3 D) :
    List (String × GeoEntityPtr) → List Nat
  | [] => []
  | (_, none) :: rest => pickIntersected env m ray rest
  | (_, some e) :: rest =>
    if isHit env m ray e then e :: pickIntersected env m ray rest
    else pickIntersected env m ray rest

/-- The loop `while (!intersected.empty())` of `pick`.  The first argument is
`intersected` read from its back (`back()`, then `pop_back()`). -/
def pickClosest (env : Env D) (m : GeoSceneManager D) : List Nat → Nat → D → Nat
  | [], closest, _ => closest
  | back :: rest, closest, distance =>
    let d := env.distanceFromCamera m.mScene (m.heap back)
    if d < distance then pickClosest env m rest back d
    else pickClosest env m rest closest distance

/-- The block `if (intersected.empty()) { ... return nullptr; }` of `pick`, entered
when nothing was hit. -/
def pickNone (m : GeoSceneManager D) : GeoEntityPtr × GeoSceneManager D :=
  match m.mSelected with
  | some s =>
    let m₁ := (m.setDiffuseColor s ⟨0, 0, 0⟩).onPoiDeselected s
    (none, { m₁ with mSelected := none })
  | none => (none, m)

/-- The statements of `pick` after the `while` loop, for the object `closest` the
loop has left. -/
def pickSelect (m : GeoSceneManager D) (closest : Nat) : GeoEntityPtr × GeoSceneManager D :=
  let m₁ := m.setDiffuseColor closest ⟨0.8, 0.1, 0.3⟩
  let m₂ :=
    match m₁.mSelected with
    | some s =>
      if (m₁.heap s).mSid ≠ (m₁.heap closest).mSid then
        (m₁.setDiffuseColor s ⟨0, 0, 0⟩).onPoiDeselected s
      else m₁
    | none => m₁
  let m₃ := { m₂ with mSelected := some closest }
  (some closest, m₃.onPoiSelected closest)

/-- `GeoSceneManager::pick(screenX, screenY)`: the pointer returned and the manager
after the call. -/
def pick (env : Env D) (m : GeoSceneManager D) (screenX screenY : Int) :
    GeoEntityPtr × GeoSceneManager D :=
  let ray := env.castRay m.mScene screenX screenY
  let intersected := pickIntersected env m ray m.mGeoEntities.entries
  match intersected.reverse with
  | [] => pickNone m
  | back :: rest =>
    let distance := env.distanceFromCamera m.mScene (m.heap back)
    pickSelect m (pickClosest env m rest back distance)

/-- The render scene holds exactly the registered entities whose tile index is in
range of the last-known centre. -/
def SceneShowsWindow (env : Env D) (m : GeoSceneManager D) : Prop :=
  ∀ e, e ∈ m.mScene.mEntities ↔
    (∃ k, m.mGeoEntities.find k = some (some e)) ∧ inRange env m e m.mLastX m.mLastY = true

/-- No entity is registered under two keys. -/
def Unshared (m : GeoSceneManager D) : Prop :=
  ∀ k₁ k₂ e, m.mGeoEntities.find k₁ = some (some e) → m.mGeoEntities.find k₂ = some (some e) →
    k₁ = k₂

/-- The states the manager (geo variant) reaches from `m₀` by calls of
`addGeoEntity`, `removeGeoEntity` and `placeCamera` that return.  No call writes
to the coordinates of an entity. -/
inductive Reachable (env : Env D) (m₀ : GeoSceneManager D) : GeoSceneManager D → Prop where
  | start : Reachable env m₀ m₀
  | addGeoEntity {m m' : GeoSceneManager D} (sid : String) (geoEntity : GeoEntityPtr) :
      Reachable env m₀ m → addGeoEntity env m sid geoEntity = some m' → Reachable env m₀ m'
  | removeGeoEntity {m : GeoSceneManager D} (sid : String) :
      Reachable env m₀ m → Reachable env m₀ (removeGeoEntity m sid)
  | placeCamera {m m' : GeoSceneManager D} (coords : LatLngAlt D) (translationDuration : D)
      (translationFunction : TranslationFunction) :
      Reachable env m₀ m →
      placeCamera env m coords translationDuration translationFunction = some m' →
      Reachable env m₀ m'

/-- The states reached as in `Reachable`, by calls in which `addGeoEntity` is never
given an entity that is registered under another key at the time of the call. -/
inductive ReachableUnshared (env : Env D) (m₀ : GeoSceneManager D) :
    GeoSceneManager D → Prop where
  | start : ReachableUnshared env m₀ m₀
  | addGeoEntity {m m' : GeoSceneManager D} (sid : String) (e : Nat) :
      ReachableUnshared env m₀ m →
      (∀ k, m.mGeoEntities.find k = some (some e) → k = sid) →
      addGeoEntity env m sid (some e) = some m' → ReachableUnshared env m₀ m'
  | removeGeoEntity {m : GeoSceneManager D} (sid : String) :
      ReachableUnshared env m₀ m → ReachableUnshared env m₀ (removeGeoEntity m sid)
  | placeCamera {m m' : GeoSceneManager D} (coords : LatLngAlt D) (translationDuration : D)
      (translationFunction : TranslationFunction) :
      ReachableUnshared env m₀ m →
      placeCamera env m coords translationDuration translationFunction = some m' →
      ReachableUnshared env m₀ m'

/-- The states the manager (geo variant) reaches from `m₀` by calls of
`addGeoEntity`, `removeGeoEntity`, `placeCamera` and `pick` that return. -/
inductive ReachablePick (env : Env D) (m₀ : GeoSceneManager D) : GeoSceneManager D → Prop where
  | start : ReachablePick env m₀ m₀
  | addGeoEntity {m m' : GeoSceneManager D} (sid : String) (geoEntity : GeoEntityPtr) :
      ReachablePick env m₀ m → addGeoEntity env m sid geoEntity = some m' →
      ReachablePick env m₀ m'
  | removeGeoEntity {m : GeoSceneManager D} (sid : String) :
      ReachablePick env m₀ m → ReachablePick env m₀ (removeGeoEntity m sid)
  | placeCamera {m m' : GeoSceneManager D} (coords : LatLngAlt D) (translationDuration : D)
      (translationFunction : TranslationFunction) :
      ReachablePick env m₀ m →
      placeCamera env m coords translationDuration translationFunction = some m' →
      ReachablePick env m₀ m'
  | pick {m : GeoSceneManager D} (screenX screenY : Int) :
      ReachablePick env m₀ m → ReachablePick env m₀ (pick env m screenX screenY).2

end GeoSceneManager

/-! ### `src/core/src/engine/geo/GeoSceneManager.cpp` -/

namespace geo

namespace GeoSceneManager

variable {D : Type} [LinearOrderedField D]

/-- `GeoSceneManager::destinationPoint(bearing, distance)` -/
def destinationPoint (env : Env D) (bearing distance : D) : Vec3 D :=
  let theta := env.half_pi - env.radians bearing
  ⟨distance * env.cos theta, 0, -distance * env.sin theta⟩

/-- `GeoSceneManager::mapPosition(lat, lon, alt)` -/
def mapPosition (env : Env D) (m : dma.GeoSceneManager D) (lat lon alt : D) : Vec3 D :=
  let bearing := env.bearing ⟨lat, lon⟩ m.mOrigin
  let distance := env.slc ⟨lat, lon⟩ m.mOrigin
  let dest := destinationPoint env bearing distance
  { dest with y := alt }

/-- `GeoSceneManager::mapPosition(coords)` -/
def mapPositionCoords (env : Env D) (m : dma.GeoSceneManager D) (coords : LatLngAlt D) :
    Vec3 D :=
  mapPosition env m coords.lat coords.lng coords.alt

/-- Modelled from the spec: `GeoEntity::setCoords(coords)` (class `GeoEntity` is not
among the sources; the entity is constructed with a reference to the manager).
The coordinates are stored and the local position is recomputed from them and the
current Origin. -/
def setCoords (env : Env D) (m : dma.GeoSceneManager D) (e : Nat) (coords : LatLngAlt D) :
    dma.GeoSceneManager D :=
  { m with
    heap := Function.update m.heap e
      { m.heap e with mCoords := coords, mPosition := mapPositionCoords env m coords }
    trace := m.trace ++ [Call.setCoords e coords] }

/-- `GeoSceneManager::addGeoEntity(sid, geoEntity)` -/
def addGeoEntity (env : Env D) (m : dma.GeoSceneManager D) (sid : String)
    (geoEntity : GeoEntityPtr) : Option (dma.GeoSceneManager D) :=
  let m₁ :=
    if m.mGeoEntities.contains sid then
      let r := m.mGeoEntities.index sid
      let m' := ({ m with mGeoEntities := r.2 }).sceneRemoveEntity r.1
      { m' with mGeoEntities := m'.mGeoEntities.erase sid }
    else m
  match geoEntity with
  | none => none
  | some e =>
    let x := (dma.GeoSceneManager.tileIndex env m₁ e).1
    let y := (dma.GeoSceneManager.tileIndex env m₁ e).2
    if env.isInRange x y m₁.mLastX m₁.mLastY = false then
      some m₁
    else
      let m₂ := { m₁ with mGeoEntities := m₁.mGeoEntities.assign sid (some e) }
      some (m₂.sceneAddEntity e)

/-- `GeoSceneManager::removeGeoEntity(sid)` -/
def removeGeoEntity (m : dma.GeoSceneManager D) (sid : String) : dma.GeoSceneManager D :=
  let r := m.mGeoEntities.index sid
  let m₁ := { m with mGeoEntities := r.2 }
  match r.1 with
  | none => m₁
  | some e =>
    let m₂ := m₁.sceneRemoveEntity (some e)
    { m₂ with mGeoEntities := m₂.mGeoEntities.erase sid }

/-- `GeoSceneManager::setOrigin(lat, lng)` -/
def setOrigin (env : Env D) (m : dma.GeoSceneManager D) (lat lng : D) :
    dma.GeoSceneManager D :=
  let m₁ := { m with mOrigin := ⟨lat, lng⟩, trace := m.trace ++ [Call.setOrigin lat lng] }
  let m₂ := m₁.mScene.mEntities.foldl (fun s e => setCoords env s e (s.heap e).mCoords) m₁
  { m₂ with mTileMap := ⟨m₂.mTileMap.mTiles.map (fun tile => { tile with mDirty := true })⟩ }

/-- The loop `for (auto &kv : mGeoEntities)` of `placeCamera` over the entries
still to visit.  `geoEntity->getCoords()` dereferences the value: `none` when it
is `nullptr`.  For an entity out of range of `(x0, y0)` the body calls
`mScene.removeEntity(geoEntity)` and `mGeoEntities.erase(sid)`; the erased entry
is the one the loop's iterator points to, and the loop then increments that
invalidated iterator: `none`. -/
def placeCameraEntities (env : Env D) (x0 y0 : Int) :
    List (String × GeoEntityPtr) → dma.GeoSceneManager D → Option (dma.GeoSceneManager D)
  | [], m => some m
  | (_, none) :: _, _ => none
  | (_, some e) :: rest, m =>
    let x := (dma.GeoSceneManager.tileIndex env m e).1
    let y := (dma.GeoSceneManager.tileIndex env m e).2
    if env.isInRange x y x0 y0 = false then
      none
    else
      placeCameraEntities env x0 y0 rest m

/-- The block `if (GeoUtils::slc(LatLng(coords.lat, coords.lng), mOrigin) >
ORIGIN_SHIFTING_TRESHOLD) { ... }` of `placeCamera`: the origin shift and the
re-set of the camera with no translation. -/
def placeCameraShift (env : Env D) (m : dma.GeoSceneManager D) (coords : LatLngAlt D) :
    dma.GeoSceneManager D :=
  if env.slc ⟨coords.lat, coords.lng⟩ m.mOrigin > (ORIGIN_SHIFTING_TRESHOLD : D) then
    let s := setOrigin env m coords.lat coords.lng
    s.cameraSetPosition
      (mapPosition env s s.mCameraCoords.lat s.mCameraCoords.lng s.mCameraCoords.alt) none
  else m

/-- The block `if (x0 != mLastX or y0 != mLastY) { ... }` of `placeCamera`. -/
def placeCameraMove (env : Env D) (m : dma.GeoSceneManager D) (coords : LatLngAlt D)
    (x0 y0 : Int) : Option (dma.GeoSceneManager D) :=
  if x0 ≠ m.mLastX ∨ y0 ≠ m.mLastY then
    let m₁ := placeCameraShift env m coords
    let m₂ := dma.GeoSceneManager.tileMapUpdate env m₁ x0 y0
    placeCameraEntities env x0 y0 m₂.mGeoEntities.entries m₂
  else some m

/-- `GeoSceneManager::placeCamera(coords, translationDuration, translationFunction)` -/
def placeCamera (env : Env D) (m : dma.GeoSceneManager D) (coords : LatLngAlt D)
    (translationDuration : D) (translationFunction : TranslationFunction) :
    Option (dma.GeoSceneManager D) :=
  let x0 := env.lng2tilex coords.lng ZOOM_LEVEL
  let y0 := env.lat2tiley coords.lat ZOOM_LEVEL
  match placeCameraMove env m coords x0 y0 with
  | none => none
  | some m₃ =>
    let pos := mapPosition env m₃ coords.lat coords.lng coords.alt
    let duration := if env.isInRange m₃.mLastX m₃.mLastY x0 y0 = false then -1
      else translationDuration
    let m₄ := m₃.cameraSetPosition pos (some (duration, translationFunction))
    some { m₄ with mCameraCoords := coords, mLastX := x0, mLastY := y0 }

/-- `GeoSceneManager::placeCamera(const LatLngAlt& coords)` -/
def placeCameraLatLngAlt (env : Env D) (m : dma.GeoSceneManager D) (coords : LatLngAlt D) :
    Option (dma.GeoSceneManager D) :=
  placeCamera env m ⟨coords.lat, coords.lng, coords.alt⟩ (-1) TranslationFunction.LINEAR

/-- `GeoSceneManager::placeCamera(const LatLng& coords)` -/
def placeCameraLatLng (env : Env D) (m : dma.GeoSceneManager D) (coords : LatLng D) :
    Option (dma.GeoSceneManager D) :=
  placeCameraLatLngAlt env m ⟨coords.lat, coords.lng, m.mScene.mCamera.mPosition.y⟩

/-- The body of the loop of `step` for one tile of `mTileMap.getTiles()`. -/
def stepTile (env : Env D) (m : dma.GeoSceneManager D) (tile : Tile D) : Tile D :=
  if tile.mDirty then
    let coords := tile.mCoords
    let lat := coords.lat
    let lon := coords.lng
    let dest := mapPosition env m lat lon 0
    let dest := { dest with x := dest.x + tile.width / 2 }
    let dest := { dest with z := dest.z + tile.height / 2 }
    { tile with mPosition := dest, mDirty := false }
  else tile

/-- `GeoSceneManager::step()`.  The tiles are held by value in `mTileMap`: the
setters `setPosition` and `setDirty` of a tile are updates of that value. -/
def step (env : Env D) (m : dma.GeoSceneManager D) : dma.GeoSceneManager D :=
  { m with mTileMap := ⟨m.mTileMap.mTiles.map (stepTile env m)⟩ }

end GeoSceneManager

end geo

/-! ## Concrete collaborators and states used to evaluate the members -/

namespace Example

/-- A tile window of half-width 2 around the centre (Chebyshev distance at most 2). -/
def isInRange (x y x0 y0 : Int) : Bool :=
  decide (x0 - 2 ≤ x ∧ x ≤ x0 + 2 ∧ y0 - 2 ≤ y ∧ y ≤ y0 + 2)

/-- Collaborators over the rationals: one tile per degree, the distance between
two points is 1000 metres per degree of latitude and of longitude (taxicab), and
the local position of a target is its offset from the origin.  The camera looks
along the z axis: the ray of the screen point `(x, y)` meets the objects whose
position has these `x` and `y`, and the distance of an object from the camera is
the difference of their `z`. -/
def env : Env ℚ :=
  { lng2tilex := fun lng _ => lng.floor
    lat2tiley := fun lat _ => lat.floor
    slc := fun a b => 1000 * (|a.lat - b.lat| + |a.lng - b.lng|)
    bearing := fun _ _ => 0
    vector := fun o t => ⟨t.lng - o.lng, t.alt - o.alt, t.lat - o.lat⟩
    isInRange := isInRange
    update := fun t _ _ => t
    half_pi := 0
    radians := fun d => d
    cos := fun _ => 1
    sin := fun _ => 0
    castRay := fun _ x y => ⟨x, y, 0⟩
    intersects := fun g ray _ => decide (g.mPosition.x = ray.x ∧ g.mPosition.y = ray.y)
    distanceFromCamera := fun s g => |g.mPosition.z - s.mCamera.mPosition.z| }

/-- A heap in which the entity at address `n` lies at latitude `n`, longitude `n`;
none is a `Poi`. -/
def heap : Nat → GeoEntity ℚ :=
  fun n => ⟨⟨n, n, 0⟩, ⟨0, 0, 0⟩, false, "", 0⟩

/-- Materials that are all black. -/
def materials : Nat → Material ℚ :=
  fun _ => ⟨⟨0, 0, 0⟩⟩

/-- The freshly constructed manager over `heap`: origin and camera at `(0, 0)`, an
empty scene and no tile. -/
def fresh : GeoSceneManager ℚ :=
  GeoSceneManager.construct ⟨0, 0⟩ ⟨0, 0, 0⟩ ⟨[], ⟨⟨0, 0, 0⟩⟩⟩ ⟨[]⟩ heap materials


/-- The manager after the camera was placed on tile `(50, 50)`: origin, camera
and last-known centre there, nothing registered. -/
def placed : GeoSceneManager ℚ :=
  { fresh with
    mOrigin := ⟨50, 50⟩
    mCameraCoords := ⟨50, 50, 0⟩
    mLastX := 50
    mLastY := 50 }

/-- The manager `placed` with the entity at address `50` (tile `(50, 50)`, in
range) registered under `"a"` and present in the scene. -/
def registered : GeoSceneManager ℚ :=
  { placed with
    mGeoEntities := ⟨[("a", some 50)], by decide⟩
    mScene := ⟨[50], ⟨⟨0, 0, 0⟩⟩⟩ }

/-- A heap of objects at the screen point `(7, 7)`: the `Poi`s `"p1"` at distance 5,
`"p2"` and `"p3"` at distance 3, `"p4"` at distance 4, which holds the material of
`"p1"`, and at address `5` an entity at distance 1 that is not a `Poi`. -/
def poiHeap : Nat → GeoEntity ℚ
  | 1 => ⟨⟨50, 50, 0⟩, ⟨7, 7, 5⟩, true, "p1", 1⟩
  | 2 => ⟨⟨50, 50, 0⟩, ⟨7, 7, 3⟩, true, "p2", 2⟩
  | 3 => ⟨⟨50, 50, 0⟩, ⟨7, 7, 3⟩, true, "p3", 3⟩
  | 4 => ⟨⟨50, 50, 0⟩, ⟨7, 7, 4⟩, true, "p4", 1⟩
  | 5 => ⟨⟨50, 50, 0⟩, ⟨7, 7, 1⟩, false, "", 5⟩
  | _ => ⟨⟨0, 0, 0⟩, ⟨0, 0, 0⟩, false, "", 0⟩

/-- The manager `placed` over `poiHeap` with `"p1"` and `"p2"` registered, nothing
selected. -/
def twoPois : GeoSceneManager ℚ :=
  { placed with
    heap := poiHeap
    mGeoEntities := ⟨[("a", some 1), ("b", some 2)], by decide!⟩ }

/-- The manager `placed` over `poiHeap` with `"p2"`, `"p3"`, `"p1"` and the entity
that is not a `Poi` registered in this order, nothing selected. -/
def tiedPois : GeoSceneManager ℚ :=
  { placed with
    heap := poiHeap
    mGeoEntities :=
      ⟨[("a", some 2), ("b", some 3), ("c", some 1), ("d", some 5)], by decide!⟩ }

/-- The manager `placed` over `poiHeap` with `"p1"` and `"p4"`, which hold the same
material, registered, and `"p1"` selected. -/
def sharedMaterial : GeoSceneManager ℚ :=
  { placed with
    heap := poiHeap
    mGeoEntities := ⟨[("a", some 1), ("d", some 4)], by decide!⟩
    mSelected := some 1 }

/-- The manager `placed` with one tile that is not dirty. -/
def oneTile : GeoSceneManager ℚ :=
  { placed with mTileMap := ⟨[⟨⟨51, 52, 0⟩, false, ⟨9, 9, 9⟩, 4, 6⟩]⟩ }

/-- Collaborators over any field whose trigonometric functions are the given ones
and whose other functions are constant. -/
def trig {D : Type} [LinearOrderedField D] (half_pi : D) (radians cos sin : D → D) : Env D :=
  { lng2tilex := fun _ _ => 0
    lat2tiley := fun _ _ => 0
    slc := fun _ _ => 0
    bearing := fun _ _ => 0
    vector := fun _ _ => ⟨0, 0, 0⟩
    isInRange := fun _ _ _ _ => true
    update := fun t _ _ => t
    half_pi := half_pi
    radians := radians
    cos := cos
    sin := sin
    castRay := fun _ _ _ => ⟨0, 0, 0⟩
    intersects := fun _ _ _ => false
    distanceFromCamera := fun _ _ => 0 }

/-- The freshly constructed manager over `poiHeap`. -/
def freshPois : GeoSceneManager ℚ :=
  GeoSceneManager.construct ⟨0, 0⟩ ⟨0, 0, 0⟩ ⟨[], ⟨⟨0, 0, 0⟩⟩⟩ ⟨[]⟩ poiHeap materials

/-- The manager `freshPois` after `addGeoEntity("a", p)` for the `Poi` `p` at
address `1` and `pick(7, 7)`, which selects `p`. -/
def poiPicked : GeoSceneManager ℚ :=
  (GeoSceneManager.pick env
    ((GeoSceneManager.addGeoEntity env freshPois "a" (some 1)).getD freshPois) 7 7).2

/-- The manager `poiPicked` after `removeGeoEntity("a")`. -/
def poiRemoved : GeoSceneManager ℚ :=
  GeoSceneManager.removeGeoEntity poiPicked "a"

/-- The manager of the engine/geo variant after `placeCamera((50, 50, 0))` on the
freshly constructed one and `addGeoEntity("a", e)` for the entity `e` at address
`50`, which is in range of the centre `(50, 50)`. -/
def engineCentredA : GeoSceneManager ℚ :=
  (geo.GeoSceneManager.addGeoEntity env
    ((geo.GeoSceneManager.placeCamera env fresh ⟨50, 50, 0⟩ (-1)
      TranslationFunction.LINEAR).getD fresh) "a" (some 50)).getD fresh

/-- The collaborators `env` with a tile map whose `update(x0, y0)` leaves one
resident tile, the one of the new centre, marked dirty. -/
def recentring : Env ℚ :=
  { env with update := fun _ x0 y0 => ⟨[⟨⟨y0, x0, 0⟩, true, ⟨0, 0, 0⟩, 1, 1⟩]⟩ }

/-- The manager after `placeCamera((50, 50, 0))` on the freshly constructed one. -/
def centred : GeoSceneManager ℚ :=
  (GeoSceneManager.placeCamera env fresh ⟨50, 50, 0⟩ (-1) TranslationFunction.LINEAR).getD fresh

/-- The manager `centred` after `addGeoEntity("a", e)` for the entity `e` at address
`50`. -/
def centredA : GeoSceneManager ℚ :=
  (GeoSceneManager.addGeoEntity env centred "a" (some 50)).getD fresh

/-- The manager `centredA` after `addGeoEntity("b", e)` for the same entity `e`. -/
def centredAB : GeoSceneManager ℚ :=
  (GeoSceneManager.addGeoEntity env centredA "b" (some 50)).getD fresh

/-- The manager `centredAB` after `removeGeoEntity("a")`. -/
def centredB : GeoSceneManager ℚ :=
  GeoSceneManager.removeGeoEntity centredAB "a"

/-- The manager `centred` after `setCoords((100, 100, 0))` on the entity `e` at
address `100`, which brings its local position up to date, and then
`addGeoEntity("a", e)`: the entity is out of range of the centre `(50, 50)`. -/
def withheld : GeoSceneManager ℚ :=
  (GeoSceneManager.addGeoEntity env
    (GeoSceneManager.setCoords env centred 100 ⟨100, 100, 0⟩) "a" (some 100)).getD fresh

end Example

end dma

/-! ## Properties of the registry -/

namespace dma

namespace Registry

theorem findRaw_eq_none_iff (sid : String) (l : List (String × GeoEntityPtr)) :
    findRaw sid l = none ↔ sid ∉ l.map Prod.fst := by
  induction l with
  | nil => simp [findRaw]
  | cons kv rest ih =>
    obtain ⟨k, w⟩ := kv
    unfold findRaw
    by_cases h : k = sid
    · simp [h]
    · simp only [h, if_false, ih, List.map_cons, List.mem_cons, not_or]
      exact ⟨fun h' => ⟨fun e => h e.symm, h'⟩, fun h' => h'.2⟩

theorem findRaw_eraseRaw_self (sid : String) (l : List (String × GeoEntityPtr)) :
    findRaw sid (eraseRaw sid l) = none := by
  rw [findRaw_eq_none_iff]
  simp [eraseRaw, List.mem_filter]

theorem eraseRaw_cons (sid k : String) (w : GeoEntityPtr) (rest : List (String × GeoEntityPtr)) :
    eraseRaw sid ((k, w) :: rest) =
      if k = sid then eraseRaw sid rest else (k, w) :: eraseRaw sid rest := by
  by_cases h : k = sid <;> simp [eraseRaw, List.filter, h]

theorem findRaw_eraseRaw_ne {sid k : String} (h : k ≠ sid) (l : List (String × GeoEntityPtr)) :
    findRaw k (eraseRaw sid l) = findRaw k l := by
  induction l with
  | nil => rfl
  | cons kv rest ih =>
    obtain ⟨k', w⟩ := kv
    rw [eraseRaw_cons]
    by_cases h' : k' = sid
    · have hk : ¬ k' = k := fun e => h (e ▸ h')
      simp [h', findRaw, ih, Ne.symm h]
    · simp [h', findRaw, ih]

theorem findRaw_assignRaw_self (sid : String) (v : GeoEntityPtr)
    (l : List (String × GeoEntityPtr)) : findRaw sid (assignRaw sid v l) = some v := by
  induction l with
  | nil => simp [assignRaw, findRaw]
  | cons kv rest ih =>
    obtain ⟨k, w⟩ := kv
    unfold assignRaw
    split_ifs with h1 h2
    · simp [findRaw]
    · simp [findRaw]
    · have : ¬ k = sid := fun e => h2 e.symm
      simp [findRaw, this, ih]

theorem findRaw_assignRaw_ne {sid k : String} (h : k ≠ sid) (v : GeoEntityPtr)
    (l : List (String × GeoEntityPtr)) : findRaw k (assignRaw sid v l) = findRaw k l := by
  have hs : ¬ sid = k := fun e => h e.symm
  induction l with
  | nil => simp [assignRaw, findRaw, hs]
  | cons kv rest ih =>
    obtain ⟨k', w⟩ := kv
    unfold assignRaw
    split_ifs with h1 h2
    · simp [findRaw, hs]
    · have : ¬ k' = k := fun e => hs (h2.trans e)
      simp [findRaw, hs, this]
    · simp [findRaw, ih]

theorem length_assignRaw_of_absent (sid : String) (v : GeoEntityPtr)
    (l : List (String × GeoEntityPtr)) (h : findRaw sid l = none) :
    (assignRaw sid v l).length = l.length + 1 := by
  induction l with
  | nil => simp [assignRaw]
  | cons kv rest ih =>
    obtain ⟨k, w⟩ := kv
    unfold findRaw at h
    by_cases hk : k = sid
    · simp [hk] at h
    · simp only [hk, if_false] at h
      have hk' : ¬ sid = k := fun e => hk e.symm
      unfold assignRaw
      split_ifs with h1
      · simp
      · simp [ih h]

theorem eraseRaw_of_absent (sid : String) (l : List (String × GeoEntityPtr))
    (h : sid ∉ l.map Prod.fst) : eraseRaw sid l = l := by
  unfold eraseRaw
  rw [List.filter_eq_self]
  intro kv hkv
  have : kv.1 ≠ sid := fun e => h (e ▸ List.mem_map_of_mem Prod.fst hkv)
  simpa using this

theorem length_eraseRaw_of_present (sid : String) (p : GeoEntityPtr) :
    ∀ (l : List (String × GeoEntityPtr)),
      (l.map Prod.fst).Pairwise (fun a b => a < b) → findRaw sid l = some p →
      (eraseRaw sid l).length + 1 = l.length := by
  intro l
  induction l with
  | nil => intro _ h; simp [findRaw] at h
  | cons kv rest ih =>
    obtain ⟨k, w⟩ := kv
    intro hs h
    simp only [List.map_cons, List.pairwise_cons] at hs
    by_cases hk : k = sid
    · have habs : sid ∉ rest.map Prod.fst := fun hm => lt_irrefl sid (hk ▸ hs.1 sid hm)
      have : eraseRaw sid ((k, w) :: rest) = eraseRaw sid rest := by
        simp [eraseRaw_cons, hk]
      rw [this, eraseRaw_of_absent sid rest habs]
      simp
    · have hf : findRaw sid rest = some p := by simpa [findRaw, hk] using h
      have : eraseRaw sid ((k, w) :: rest) = (k, w) :: eraseRaw sid rest := by
        simp [eraseRaw_cons, hk]
      rw [this]
      simp [ih hs.2 hf]

theorem mem_of_findRaw {sid : String} {p : GeoEntityPtr} :
    ∀ {l : List (String × GeoEntityPtr)}, findRaw sid l = some p → (sid, p) ∈ l := by
  intro l
  induction l with
  | nil => intro h; simp [findRaw] at h
  | cons kv rest ih =>
    obtain ⟨k, w⟩ := kv
    intro h
    unfold findRaw at h
    split_ifs at h with hk
    · simp only [Option.some.injEq] at h
      simp [hk, h]
    · exact List.mem_cons_of_mem _ (ih h)

theorem findRaw_of_mem {sid : String} {p : GeoEntityPtr} :
    ∀ {l : List (String × GeoEntityPtr)}, (l.map Prod.fst).Pairwise (fun a b => a < b) →
      (sid, p) ∈ l → findRaw sid l = some p := by
  intro l
  induction l with
  | nil => intro _ h; simp at h
  | cons kv rest ih =>
    obtain ⟨k, w⟩ := kv
    intro hs h
    simp only [List.map_cons, List.pairwise_cons] at hs
    rcases List.mem_cons.mp h with h | h
    · simp only [Prod.mk.injEq] at h
      simp [findRaw, h.1, h.2]
    · have hlt : k < sid := hs.1 sid (List.mem_map_of_mem Prod.fst h)
      have hk : ¬ k = sid := ne_of_lt hlt
      simp [findRaw, hk, ih hs.2 h]

/-! Lemmas on the bundled map. -/

theorem ext_entries {r₁ r₂ : Registry} (h : r₁.entries = r₂.entries) : r₁ = r₂ := by
  cases r₁; cases r₂; cases h; rfl

theorem find_erase_self (r : Registry) (sid : String) : (r.erase sid).find sid = none :=
  findRaw_eraseRaw_self sid r.entries

theorem find_erase_ne (r : Registry) {sid k : String} (h : k ≠ sid) :
    (r.erase sid).find k = r.find k :=
  findRaw_eraseRaw_ne h r.entries

theorem find_assign_self (r : Registry) (sid : String) (v : GeoEntityPtr) :
    (r.assign sid v).find sid = some v :=
  findRaw_assignRaw_self sid v r.entries

theorem find_assign_ne (r : Registry) {sid k : String} (h : k ≠ sid) (v : GeoEntityPtr) :
    (r.assign sid v).find k = r.find k :=
  findRaw_assignRaw_ne h v r.entries

theorem find_assign (r : Registry) (sid k : String) (v : GeoEntityPtr) :
    (r.assign sid v).find k = if k = sid then some v else r.find k := by
  split_ifs with h
  · rw [h]; exact find_assign_self r sid v
  · exact find_assign_ne r h v

theorem find_erase (r : Registry) (sid k : String) :
    (r.erase sid).find k = if k = sid then none else r.find k := by
  split_ifs with h
  · rw [h]; exact find_erase_self r sid
  · exact find_erase_ne r h

theorem size_assign_of_absent (r : Registry) (sid : String) (v : GeoEntityPtr)
    (h : r.find sid = none) : (r.assign sid v).size = r.size + 1 :=
  length_assignRaw_of_absent sid v r.entries h

theorem size_erase_of_present (r : Registry) (sid : String) (p : GeoEntityPtr)
    (h : r.find sid = some p) : (r.erase sid).size + 1 = r.size :=
  length_eraseRaw_of_present sid p r.entries r.sorted h

theorem index_of_present (r : Registry) (sid : String) (p : GeoEntityPtr)
    (h : r.find sid = some p) : r.index sid = (p, r) := by
  simp [index, h]

theorem index_of_absent (r : Registry) (sid : String) (h : r.find sid = none) :
    r.index sid = (none, r.assign sid none) := by
  simp [index, h]

theorem contains_eq_true_iff (r : Registry) (sid : String) :
    r.contains sid = true ↔ ∃ p, r.find sid = some p := by
  simp [contains, Option.isSome_iff_exists]

theorem contains_eq_false_iff (r : Registry) (sid : String) :
    r.contains sid = false ↔ r.find sid = none := by
  simp [contains]

theorem mem_entries_iff (r : Registry) (sid : String) (p : GeoEntityPtr) :
    (sid, p) ∈ r.entries ↔ r.find sid = some p :=
  ⟨findRaw_of_mem r.sorted, mem_of_findRaw⟩

end Registry

end dma

/-! ## Properties of the scene and frame lemmas -/

namespace dma

namespace Scene

variable {D : Type}

theorem mem_addEntity (s : Scene D) (e x : Nat) :
    x ∈ (s.addEntity e).mEntities ↔ x ∈ s.mEntities ∨ x = e := by
  simp [addEntity]

theorem mem_removeEntity (s : Scene D) (p : GeoEntityPtr) (x : Nat) :
    x ∈ (s.removeEntity p).mEntities ↔ x ∈ s.mEntities ∧ p ≠ some x := by
  cases p with
  | none => simp [removeEntity]
  | some e =>
    simp only [removeEntity, List.mem_filter, decide_eq_true_eq, ne_eq, Option.some.injEq]
    exact ⟨fun h => ⟨h.1, fun e' => h.2 e'.symm⟩, fun h => ⟨h.1, fun e' => h.2 e'.symm⟩⟩

end Scene

namespace GeoSceneManager

variable {D : Type}

/-- The value of `addGeoEntity` for a key that is registered: the old entity
leaves the scene, the old entry is erased, the new one assigned, and the new
entity enters the scene when its tile index is in range. -/
theorem addGeoEntity_of_registered (env : Env D) (m : GeoSceneManager D) (k : String)
    (old : GeoEntityPtr) (e : Nat) (h : m.mGeoEntities.find k = some old) :
    addGeoEntity env m k (some e) =
      some (
        if env.isInRange (tileIndex env m e).1 (tileIndex env m e).2 m.mLastX m.mLastY then
          { m with
            mGeoEntities := (m.mGeoEntities.erase k).assign k (some e)
            mScene := (m.mScene.removeEntity old).addEntity e
            trace := m.trace ++ [Call.removeEntity old] ++ [Call.addEntity e] }
        else
          { m with
            mGeoEntities := (m.mGeoEntities.erase k).assign k (some e)
            mScene := m.mScene.removeEntity old
            trace := m.trace ++ [Call.removeEntity old] }) := by
  have hc : m.mGeoEntities.contains k = true := by simp [Registry.contains, h]
  simp only [addGeoEntity, hc, if_true, Registry.index_of_present _ _ _ h, sceneRemoveEntity,
    sceneAddEntity, tileIndex]
  split_ifs <;> rfl

/-- The value of `addGeoEntity` for a key that is not registered. -/
theorem addGeoEntity_of_unregistered (env : Env D) (m : GeoSceneManager D) (k : String)
    (e : Nat) (h : m.mGeoEntities.find k = none) :
    addGeoEntity env m k (some e) =
      some (
        if env.isInRange (tileIndex env m e).1 (tileIndex env m e).2 m.mLastX m.mLastY then
          { m with
            mGeoEntities := m.mGeoEntities.assign k (some e)
            mScene := m.mScene.addEntity e
            trace := m.trace ++ [Call.addEntity e] }
        else
          { m with mGeoEntities := m.mGeoEntities.assign k (some e) }) := by
  have hc : m.mGeoEntities.contains k = false := by simp [Registry.contains, h]
  simp only [addGeoEntity, hc, sceneAddEntity, tileIndex]
  split_ifs <;> simp_all

end GeoSceneManager

end dma

/-! ## Frame lemmas for `setOrigin` and `placeCamera` (geo variant) -/

namespace dma

namespace GeoSceneManager

variable {D : Type}

theorem Keeps.refl (m : GeoSceneManager D) : Keeps m m :=
  ⟨rfl, rfl, rfl, rfl, rfl, fun _ => rfl⟩

theorem Keeps.trans {m₁ m₂ m₃ : GeoSceneManager D} (h₁ : Keeps m₁ m₂) (h₂ : Keeps m₂ m₃) :
    Keeps m₁ m₃ :=
  ⟨h₂.mGeoEntities.trans h₁.mGeoEntities, h₂.mCameraCoords.trans h₁.mCameraCoords,
    h₂.mLastX.trans h₁.mLastX, h₂.mLastY.trans h₁.mLastY, h₂.mSelected.trans h₁.mSelected,
    fun e => (h₂.coords e).trans (h₁.coords e)⟩

theorem Keeps.tileIndex (env : Env D) {m m' : GeoSceneManager D} (h : Keeps m m') (e : Nat) :
    tileIndex env m' e = tileIndex env m e := by
  simp [GeoSceneManager.tileIndex, h.coords e]

theorem Keeps.inRange (env : Env D) {m m' : GeoSceneManager D} (h : Keeps m m') (e : Nat)
    (x0 y0 : Int) : inRange env m' e x0 y0 = inRange env m e x0 y0 := by
  simp [GeoSceneManager.inRange, h.tileIndex env e]

theorem Keeps.transitionCalls (env : Env D) {m m' : GeoSceneManager D} (h : Keeps m m')
    (x0 y0 : Int) (e : Nat) : transitionCalls env m' x0 y0 e = transitionCalls env m x0 y0 e := by
  simp [GeoSceneManager.transitionCalls, h.inRange env e, h.mLastX, h.mLastY]

section

variable [LinearOrderedField D]

theorem setCoords_own_keeps (env : Env D) (m : GeoSceneManager D) (e : Nat) :
    Keeps m (setCoords env m e (m.heap e).mCoords) := by
  refine ⟨rfl, rfl, rfl, rfl, rfl, fun x => ?_⟩
  by_cases hx : x = e
  · subst hx; simp [setCoords]
  · simp [setCoords, Function.update_noteq hx]

/-- The loop of `setOrigin` over the scene entities `l`. -/
theorem setOrigin_loop (env : Env D) :
    ∀ (l : List Nat) (s : GeoSceneManager D),
      Keeps s (l.foldl (fun s e => setCoords env s e (s.heap e).mCoords) s) ∧
      (l.foldl (fun s e => setCoords env s e (s.heap e).mCoords) s).mOrigin = s.mOrigin ∧
      (l.foldl (fun s e => setCoords env s e (s.heap e).mCoords) s).mScene = s.mScene ∧
      (l.foldl (fun s e => setCoords env s e (s.heap e).mCoords) s).mTileMap = s.mTileMap ∧
      (l.foldl (fun s e => setCoords env s e (s.heap e).mCoords) s).trace =
        s.trace ++ l.map (fun e => Call.setCoords e (s.heap e).mCoords) := by
  intro l
  induction l with
  | nil => intro s; exact ⟨Keeps.refl s, rfl, rfl, rfl, by simp⟩
  | cons e rest ih =>
    intro s
    obtain ⟨hk, ho, hs, ht, htr⟩ := ih (setCoords env s e (s.heap e).mCoords)
    have hk₁ := setCoords_own_keeps env s e
    simp only [List.foldl_cons]
    refine ⟨hk₁.trans hk, ho.trans rfl, hs.trans rfl, ht.trans rfl, ?_⟩
    have hmap : rest.map (fun x => Call.setCoords x
          ((setCoords env s e (s.heap e).mCoords).heap x).mCoords) =
        rest.map (fun x => Call.setCoords x (s.heap x).mCoords) :=
      List.map_congr_left (fun x _ => by rw [hk₁.coords x])
    rw [htr, hmap]
    simp [setCoords]

/-- What `setOrigin` does: the Origin becomes `(lat, lng)`; registry, scene, tile
map, camera coordinates, centre, selection and entity coordinates are kept; the
calls are `setOrigin` and one `setCoords` per scene entity, with its own
coordinates. -/
theorem setOrigin_spec (env : Env D) (m : GeoSceneManager D) (lat lng : D) :
    Keeps m (setOrigin env m lat lng) ∧
    (setOrigin env m lat lng).mOrigin = ⟨lat, lng⟩ ∧
    (setOrigin env m lat lng).mScene = m.mScene ∧
    (setOrigin env m lat lng).mTileMap = m.mTileMap ∧
    (setOrigin env m lat lng).trace =
      m.trace ++ Call.setOrigin lat lng ::
        m.mScene.mEntities.map (fun e => Call.setCoords e (m.heap e).mCoords) := by
  obtain ⟨hk, ho, hs, ht, htr⟩ := setOrigin_loop env m.mScene.mEntities
    { m with mOrigin := ⟨lat, lng⟩, trace := m.trace ++ [Call.setOrigin lat lng] }
  refine ⟨⟨hk.mGeoEntities, hk.mCameraCoords, hk.mLastX, hk.mLastY, hk.mSelected, hk.coords⟩,
    ho, hs, ht, ?_⟩
  simp only [setOrigin]
  rw [htr]
  simp

end

/-- The entities the loop of `placeCamera` visits: the values of the registry. -/
theorem placeCameraEntity_spec (env : Env D) (x0 y0 : Int) (m : GeoSceneManager D) (e : Nat) :
    Keeps m (placeCameraEntity env x0 y0 m e) ∧
    (placeCameraEntity env x0 y0 m e).mOrigin = m.mOrigin ∧
    (placeCameraEntity env x0 y0 m e).mTileMap = m.mTileMap ∧
    (placeCameraEntity env x0 y0 m e).mScene.mCamera = m.mScene.mCamera ∧
    (placeCameraEntity env x0 y0 m e).heap = m.heap ∧
    (placeCameraEntity env x0 y0 m e).trace = m.trace ++ transitionCalls env m x0 y0 e ∧
    (∀ x, x ∈ (placeCameraEntity env x0 y0 m e).mScene.mEntities ↔
      (x ∈ m.mScene.mEntities ∧
        ¬ (x = e ∧ inRange env m e m.mLastX m.mLastY = true ∧ inRange env m e x0 y0 = false)) ∨
      (x = e ∧ inRange env m e m.mLastX m.mLastY = false ∧ inRange env m e x0 y0 = true)) := by
  have hcam : ∀ p : GeoEntityPtr, (m.mScene.removeEntity p).mCamera = m.mScene.mCamera := by
    intro p; cases p <;> rfl
  have hk : ∀ (s : Scene D) (t : List (Call D)), Keeps m { m with mScene := s, trace := t } :=
    fun _ _ => ⟨rfl, rfl, rfl, rfl, rfl, fun _ => rfl⟩
  rcases Bool.eq_false_or_eq_true (inRange env m e m.mLastX m.mLastY) with hw | hw <;>
  rcases Bool.eq_false_or_eq_true (inRange env m e x0 y0) with hi | hi
  · have hcode : placeCameraEntity env x0 y0 m e = m := by
      have hw' := hw; have hi' := hi
      simp only [inRange] at hw' hi'
      simp [placeCameraEntity, hw', hi']
    have hcalls : transitionCalls env m x0 y0 e = [] := by simp [transitionCalls, hw, hi]
    rw [hcode, hcalls]
    refine ⟨Keeps.refl m, rfl, rfl, rfl, rfl, by simp, fun x => ?_⟩
    simp [hw, hi]
  · have hcode : placeCameraEntity env x0 y0 m e = m.sceneRemoveEntity (some e) := by
      have hw' := hw; have hi' := hi
      simp only [inRange] at hw' hi'
      simp [placeCameraEntity, hw', hi']
    have hcalls : transitionCalls env m x0 y0 e = [Call.removeEntity (some e)] := by
      simp [transitionCalls, hw, hi]
    rw [hcode, hcalls]
    refine ⟨hk _ _, rfl, rfl, hcam _, rfl, rfl, fun x => ?_⟩
    show x ∈ (m.mScene.removeEntity (some e)).mEntities ↔ _
    rw [Scene.mem_removeEntity]
    simp only [hw, hi, ne_eq, Option.some.injEq, and_self, and_true, Bool.true_eq_false,
      Bool.false_eq_true, false_and, and_false, or_false]
    exact ⟨fun h => ⟨h.1, fun h' => h.2 h'.symm⟩, fun h => ⟨h.1, fun h' => h.2 h'.symm⟩⟩
  · have hcode : placeCameraEntity env x0 y0 m e = m.sceneAddEntity e := by
      have hw' := hw; have hi' := hi
      simp only [inRange] at hw' hi'
      simp [placeCameraEntity, hw', hi']
    have hcalls : transitionCalls env m x0 y0 e = [Call.addEntity e] := by
      simp [transitionCalls, hw, hi]
    rw [hcode, hcalls]
    refine ⟨hk _ _, rfl, rfl, rfl, rfl, rfl, fun x => ?_⟩
    show x ∈ (m.mScene.addEntity e).mEntities ↔ _
    rw [Scene.mem_addEntity]
    simp [hw, hi]
  · have hcode : placeCameraEntity env x0 y0 m e = m := by
      have hw' := hw; have hi' := hi
      simp only [inRange] at hw' hi'
      simp [placeCameraEntity, hw', hi']
    have hcalls : transitionCalls env m x0 y0 e = [] := by simp [transitionCalls, hw, hi]
    rw [hcode, hcalls]
    refine ⟨Keeps.refl m, rfl, rfl, rfl, rfl, by simp, fun x => ?_⟩
    simp [hw, hi]

end GeoSceneManager

end dma

namespace dma

namespace Registry

theorem mem_values_iff (r : Registry) (e : Nat) :
    e ∈ r.entries.filterMap Prod.snd ↔ ∃ k, r.find k = some (some e) := by
  rw [List.mem_filterMap]
  constructor
  · rintro ⟨⟨k, p⟩, hmem, hp⟩
    simp only at hp
    subst hp
    exact ⟨k, (mem_entries_iff r k _).mp hmem⟩
  · rintro ⟨k, hk⟩
    exact ⟨(k, some e), (mem_entries_iff r k _).mpr hk, rfl⟩

theorem no_null_entries_iff (r : Registry) :
    (∀ kv ∈ r.entries, kv.2 ≠ none) ↔ ∀ k, r.find k ≠ some none := by
  constructor
  · intro h k hk
    exact h (k, none) ((mem_entries_iff r k none).mpr hk) rfl
  · rintro h ⟨k, p⟩ hmem hp
    simp only at hp
    subst hp
    exact h k ((mem_entries_iff r k none).mp hmem)

end Registry

namespace GeoSceneManager

variable {D : Type}

/-- The loop of `placeCamera` runs to its end when no visited value is `nullptr`. -/
theorem placeCameraEntities_isSome (env : Env D) (x0 y0 : Int) :
    ∀ (l : List (String × GeoEntityPtr)) (m : GeoSceneManager D),
      (∀ kv ∈ l, kv.2 ≠ none) → (placeCameraEntities env x0 y0 l m).isSome = true := by
  intro l
  induction l with
  | nil => intro m _; rfl
  | cons kv rest ih =>
    obtain ⟨k, p⟩ := kv
    intro m h
    cases p with
    | none => exact absurd rfl (h (k, none) (List.mem_cons_self _ _))
    | some e =>
      simp only [placeCameraEntities]
      exact ih _ (fun kv hkv => h kv (List.mem_cons_of_mem _ hkv))

/-- What the loop of `placeCamera` does when it runs to its end: it writes to the
scene's entities and to the trace only; the calls are the transition calls of the
visited entities, in order; an entity is in the scene afterwards exactly when it
was there and is not a visited entity that left the range, or it is a visited
entity that entered the range. -/
theorem placeCameraEntities_spec (env : Env D) (x0 y0 : Int) :
    ∀ (l : List (String × GeoEntityPtr)) (m m' : GeoSceneManager D),
      placeCameraEntities env x0 y0 l m = some m' →
      Keeps m m' ∧ m'.mOrigin = m.mOrigin ∧ m'.mTileMap = m.mTileMap ∧
      m'.mScene.mCamera = m.mScene.mCamera ∧ m'.heap = m.heap ∧
      m'.trace = m.trace ++ (l.filterMap Prod.snd).flatMap (transitionCalls env m x0 y0) ∧
      (∀ x, x ∈ m'.mScene.mEntities ↔
        (x ∈ m.mScene.mEntities ∧
          ¬ (x ∈ l.filterMap Prod.snd ∧ inRange env m x m.mLastX m.mLastY = true ∧
              inRange env m x x0 y0 = false)) ∨
        (x ∈ l.filterMap Prod.snd ∧ inRange env m x m.mLastX m.mLastY = false ∧
          inRange env m x x0 y0 = true)) := by
  intro l
  induction l with
  | nil =>
    intro m m' h
    simp only [placeCameraEntities, Option.some.injEq] at h
    subst h
    exact ⟨Keeps.refl m, rfl, rfl, rfl, rfl, by simp, fun x => by simp⟩
  | cons kv rest ih =>
    obtain ⟨k, p⟩ := kv
    intro m m' h
    cases p with
    | none => simp [placeCameraEntities] at h
    | some e =>
      simp only [placeCameraEntities] at h
      obtain ⟨hk₁, ho₁, ht₁, hc₁, hh₁, htr₁, hm₁⟩ := placeCameraEntity_spec env x0 y0 m e
      obtain ⟨hk₂, ho₂, ht₂, hc₂, hh₂, htr₂, hm₂⟩ := ih _ m' h
      refine ⟨hk₁.trans hk₂, ho₂.trans ho₁, ht₂.trans ht₁, hc₂.trans hc₁, hh₂.trans hh₁, ?_,
        fun x => ?_⟩
      · rw [htr₂, htr₁]
        have : (fun e' => transitionCalls env (placeCameraEntity env x0 y0 m e) x0 y0 e') =
            fun e' => transitionCalls env m x0 y0 e' :=
          funext (fun e' => hk₁.transitionCalls env x0 y0 e')
        simp only [List.filterMap_cons, List.flatMap_cons, List.append_assoc]
        rw [show transitionCalls env (placeCameraEntity env x0 y0 m e) x0 y0 =
          transitionCalls env m x0 y0 from this]
      · rw [hm₂ x, hm₁ x, hk₁.inRange env x, hk₁.inRange env x, hk₁.mLastX, hk₁.mLastY]
        simp only [List.filterMap_cons, List.mem_cons]
        by_cases hx : x = e
        · subst hx
          cases inRange env m x m.mLastX m.mLastY <;> cases inRange env m x x0 y0 <;> simp
        · simp [hx]

end GeoSceneManager

end dma

namespace dma

namespace GeoSceneManager

variable {D : Type} [LinearOrderedField D]

/-- What the origin-shift block of `placeCamera` does. -/
theorem placeCameraShift_spec (env : Env D) (m : GeoSceneManager D) (coords : LatLngAlt D) :
    Keeps m (placeCameraShift env m coords) ∧
    (placeCameraShift env m coords).mScene.mEntities = m.mScene.mEntities ∧
    (placeCameraShift env m coords).mOrigin =
      (if env.slc ⟨coords.lat, coords.lng⟩ m.mOrigin > (ORIGIN_SHIFTING_TRESHOLD : D) then
        ⟨coords.lat, coords.lng⟩ else m.mOrigin) ∧
    (placeCameraShift env m coords).trace = m.trace ++
      (if env.slc ⟨coords.lat, coords.lng⟩ m.mOrigin > (ORIGIN_SHIFTING_TRESHOLD : D) then
        Call.setOrigin coords.lat coords.lng ::
          (m.mScene.mEntities.map (fun e => Call.setCoords e (m.heap e).mCoords) ++
            [Call.setPosition (env.vector ⟨coords.lat, coords.lng, 0⟩ m.mCameraCoords) none])
      else []) := by
  obtain ⟨hk, ho, hs, _, htr⟩ := setOrigin_spec env m coords.lat coords.lng
  unfold placeCameraShift
  split_ifs with hshift
  · refine ⟨⟨hk.mGeoEntities, hk.mCameraCoords, hk.mLastX, hk.mLastY, hk.mSelected, hk.coords⟩,
      ?_, ho, ?_⟩
    · show (setOrigin env m coords.lat coords.lng).mScene.mEntities = _
      rw [hs]
    · show (setOrigin env m coords.lat coords.lng).trace ++ _ = _
      rw [htr]
      simp [mapPositionCoords, mapPosition, ho, hk.mCameraCoords]
  · exact ⟨Keeps.refl m, rfl, rfl, by simp⟩

/-- What the block `if (x0 != mLastX or y0 != mLastY)` of `placeCamera` does when it
runs to its end. -/
theorem placeCameraMove_spec (env : Env D) (m : GeoSceneManager D) (coords : LatLngAlt D)
    (x0 y0 : Int) (m₃ : GeoSceneManager D) (h : placeCameraMove env m coords x0 y0 = some m₃) :
    Keeps m m₃ ∧
    m₃.mOrigin =
      (if (x0 ≠ m.mLastX ∨ y0 ≠ m.mLastY) ∧
          env.slc ⟨coords.lat, coords.lng⟩ m.mOrigin > (ORIGIN_SHIFTING_TRESHOLD : D) then
        ⟨coords.lat, coords.lng⟩ else m.mOrigin) ∧
    m₃.trace = m.trace ++
      (if x0 ≠ m.mLastX ∨ y0 ≠ m.mLastY then
        (if env.slc ⟨coords.lat, coords.lng⟩ m.mOrigin > (ORIGIN_SHIFTING_TRESHOLD : D) then
          Call.setOrigin coords.lat coords.lng ::
            (m.mScene.mEntities.map (fun e => Call.setCoords e (m.heap e).mCoords) ++
              [Call.setPosition (env.vector ⟨coords.lat, coords.lng, 0⟩ m.mCameraCoords) none])
        else []) ++
        Call.update x0 y0 ::
          (m.mGeoEntities.entries.filterMap Prod.snd).flatMap (transitionCalls env m x0 y0)
      else []) ∧
    (∀ x, x ∈ m₃.mScene.mEntities ↔
      if x0 ≠ m.mLastX ∨ y0 ≠ m.mLastY then
        (x ∈ m.mScene.mEntities ∧
          ¬ (x ∈ m.mGeoEntities.entries.filterMap Prod.snd ∧
              inRange env m x m.mLastX m.mLastY = true ∧ inRange env m x x0 y0 = false)) ∨
        (x ∈ m.mGeoEntities.entries.filterMap Prod.snd ∧
          inRange env m x m.mLastX m.mLastY = false ∧ inRange env m x x0 y0 = true)
      else x ∈ m.mScene.mEntities) := by
  unfold placeCameraMove at h
  split_ifs at h with hmove
  · obtain ⟨hk₁, hs₁, ho₁, htr₁⟩ := placeCameraShift_spec env m coords
    have hk₂ : Keeps (placeCameraShift env m coords)
        (tileMapUpdate env (placeCameraShift env m coords) x0 y0) :=
      ⟨rfl, rfl, rfl, rfl, rfl, fun _ => rfl⟩
    obtain ⟨hk₃, ho₃, _, _, _, htr₃, hm₃⟩ := placeCameraEntities_spec env x0 y0 _ _ m₃ h
    have hk := hk₁.trans hk₂
    have hcalls : transitionCalls env
        (tileMapUpdate env (placeCameraShift env m coords) x0 y0) x0 y0 =
        transitionCalls env m x0 y0 :=
      funext (fun e => hk.transitionCalls env x0 y0 e)
    have hreg : (tileMapUpdate env (placeCameraShift env m coords) x0 y0).mGeoEntities =
        m.mGeoEntities := hk.mGeoEntities
    refine ⟨hk.trans hk₃, ?_, ?_, fun x => ?_⟩
    · rw [ho₃]
      show (placeCameraShift env m coords).mOrigin = _
      rw [ho₁]
      simp [hmove]
    · rw [htr₃, hcalls, hreg]
      show ((placeCameraShift env m coords).trace ++ [Call.update x0 y0]) ++ _ = _
      rw [htr₁]
      simp [hmove]
    · rw [hm₃ x, hk.inRange env x, hk.inRange env x, hk.mLastX, hk.mLastY, hreg]
      show (x ∈ (placeCameraShift env m coords).mScene.mEntities ∧ _) ∨ _ ↔ _
      rw [hs₁]
      simp [hmove]
  · simp only [Option.some.injEq] at h
    subst h
    exact ⟨Keeps.refl m, by simp [hmove], by simp [hmove], fun x => by simp [hmove]⟩

/-- The block `if (x0 != mLastX or y0 != mLastY)` of `placeCamera` runs to its end
when the tile is unchanged or no registry value is `nullptr`. -/
theorem placeCameraMove_isSome (env : Env D) (m : GeoSceneManager D) (coords : LatLngAlt D)
    (x0 y0 : Int)
    (h : (x0 = m.mLastX ∧ y0 = m.mLastY) ∨ ∀ k, m.mGeoEntities.find k ≠ some none) :
    (placeCameraMove env m coords x0 y0).isSome = true := by
  unfold placeCameraMove
  split_ifs with hmove
  · rcases h with h | h
    · exact absurd h.2 (by rcases hmove with h' | h'; exact absurd h.1 h'; exact h')
    · apply placeCameraEntities_isSome
      have hreg : (tileMapUpdate env (placeCameraShift env m coords) x0 y0).mGeoEntities =
          m.mGeoEntities := (placeCameraShift_spec env m coords).1.mGeoEntities
      rw [hreg]
      exact (Registry.no_null_entries_iff _).mpr h
  · rfl

/-- The result of `placeCamera` in terms of the state `m₃` reached before its last
four lines. -/
theorem placeCamera_eq_some (env : Env D) (m : GeoSceneManager D) (coords : LatLngAlt D)
    (d : D) (f : TranslationFunction) (m' : GeoSceneManager D)
    (h : placeCamera env m coords d f = some m') :
    ∃ m₃,
      placeCameraMove env m coords (env.lng2tilex coords.lng ZOOM_LEVEL)
        (env.lat2tiley coords.lat ZOOM_LEVEL) = some m₃ ∧
      m' = { m₃.cameraSetPosition (mapPosition env m₃ coords.lat coords.lng coords.alt)
              (some (d, f)) with
            mCameraCoords := coords
            mLastX := env.lng2tilex coords.lng ZOOM_LEVEL
            mLastY := env.lat2tiley coords.lat ZOOM_LEVEL } := by
  simp only [placeCamera] at h
  split at h
  · exact absurd h (by simp)
  · rename_i m₃ hv
    exact ⟨m₃, hv, (Option.some.inj h).symm⟩

/-- `placeCamera` returns when the tile is unchanged or no registry value is
`nullptr`. -/
theorem placeCamera_isSome (env : Env D) (m : GeoSceneManager D) (coords : LatLngAlt D)
    (d : D) (f : TranslationFunction)
    (h : (env.lng2tilex coords.lng ZOOM_LEVEL = m.mLastX ∧
          env.lat2tiley coords.lat ZOOM_LEVEL = m.mLastY) ∨
        ∀ k, m.mGeoEntities.find k ≠ some none) :
    (placeCamera env m coords d f).isSome = true := by
  have := placeCameraMove_isSome env m coords _ _ h
  obtain ⟨m₃, hm₃⟩ := Option.isSome_iff_exists.mp this
  simp [placeCamera, hm₃]

end GeoSceneManager

end dma

/-! ## The whole of `placeCamera` (geo variant) -/

namespace dma

namespace GeoSceneManager

variable {D : Type}

theorem mem_transitionCalls_removeEntity (env : Env D) (m : GeoSceneManager D) (x0 y0 : Int)
    (e : Nat) (p : GeoEntityPtr) :
    Call.removeEntity p ∈ transitionCalls env m x0 y0 e ↔
      p = some e ∧ inRange env m e m.mLastX m.mLastY = true ∧ inRange env m e x0 y0 = false := by
  unfold transitionCalls
  cases inRange env m e m.mLastX m.mLastY <;> cases inRange env m e x0 y0 <;> simp

theorem mem_transitionCalls_addEntity (env : Env D) (m : GeoSceneManager D) (x0 y0 : Int)
    (e x : Nat) :
    Call.addEntity x ∈ transitionCalls env m x0 y0 e ↔
      x = e ∧ inRange env m e m.mLastX m.mLastY = false ∧ inRange env m e x0 y0 = true := by
  unfold transitionCalls
  cases inRange env m e m.mLastX m.mLastY <;> cases inRange env m e x0 y0 <;> simp

theorem transitionCalls_scene_only (env : Env D) (m : GeoSceneManager D) (x0 y0 : Int)
    (e : Nat) (c : Call D) (h : c ∈ transitionCalls env m x0 y0 e) :
    c = Call.removeEntity (some e) ∨ c = Call.addEntity e := by
  unfold transitionCalls at h
  split_ifs at h <;> simp_all

variable [LinearOrderedField D]

theorem threshold_cast : ((ORIGIN_SHIFTING_TRESHOLD : Nat) : D) = 8000 := by
  simp [ORIGIN_SHIFTING_TRESHOLD]

/-- The whole of `placeCamera` when it returns `m'`: what it keeps, the Origin,
the calls in order, and the scene. -/
theorem placeCamera_spec (env : Env D) (m : GeoSceneManager D) (coords : LatLngAlt D)
    (d : D) (f : TranslationFunction) (m' : GeoSceneManager D)
    (h : placeCamera env m coords d f = some m') :
    m'.mGeoEntities = m.mGeoEntities ∧
    (∀ e, (m'.heap e).mCoords = (m.heap e).mCoords) ∧
    m'.mCameraCoords = coords ∧
    m'.mLastX = env.lng2tilex coords.lng ZOOM_LEVEL ∧
    m'.mLastY = env.lat2tiley coords.lat ZOOM_LEVEL ∧
    m'.mOrigin =
      (if (env.lng2tilex coords.lng ZOOM_LEVEL ≠ m.mLastX ∨
            env.lat2tiley coords.lat ZOOM_LEVEL ≠ m.mLastY) ∧
          env.slc ⟨coords.lat, coords.lng⟩ m.mOrigin > 8000 then
        ⟨coords.lat, coords.lng⟩ else m.mOrigin) ∧
    m'.trace = m.trace ++
      ((if env.lng2tilex coords.lng ZOOM_LEVEL ≠ m.mLastX ∨
            env.lat2tiley coords.lat ZOOM_LEVEL ≠ m.mLastY then
        (if env.slc ⟨coords.lat, coords.lng⟩ m.mOrigin > 8000 then
          Call.setOrigin coords.lat coords.lng ::
            (m.mScene.mEntities.map (fun e => Call.setCoords e (m.heap e).mCoords) ++
              [Call.setPosition (env.vector ⟨coords.lat, coords.lng, 0⟩ m.mCameraCoords) none])
        else []) ++
        Call.update (env.lng2tilex coords.lng ZOOM_LEVEL) (env.lat2tiley coords.lat ZOOM_LEVEL) ::
          (m.mGeoEntities.entries.filterMap Prod.snd).flatMap
            (transitionCalls env m (env.lng2tilex coords.lng ZOOM_LEVEL)
              (env.lat2tiley coords.lat ZOOM_LEVEL))
      else []) ++
      [Call.setPosition (mapPositionCoords env m' coords) (some (d, f))]) ∧
    (∀ x, x ∈ m'.mScene.mEntities ↔
      if env.lng2tilex coords.lng ZOOM_LEVEL ≠ m.mLastX ∨
          env.lat2tiley coords.lat ZOOM_LEVEL ≠ m.mLastY then
        (x ∈ m.mScene.mEntities ∧
          ¬ (x ∈ m.mGeoEntities.entries.filterMap Prod.snd ∧
              inRange env m x m.mLastX m.mLastY = true ∧
              inRange env m x (env.lng2tilex coords.lng ZOOM_LEVEL)
                (env.lat2tiley coords.lat ZOOM_LEVEL) = false)) ∨
        (x ∈ m.mGeoEntities.entries.filterMap Prod.snd ∧
          inRange env m x m.mLastX m.mLastY = false ∧
          inRange env m x (env.lng2tilex coords.lng ZOOM_LEVEL)
            (env.lat2tiley coords.lat ZOOM_LEVEL) = true)
      else x ∈ m.mScene.mEntities) := by
  obtain ⟨m₃, hm₃, rfl⟩ := placeCamera_eq_some env m coords d f m' h
  obtain ⟨hk, ho, htr, hmem⟩ := placeCameraMove_spec env m coords _ _ m₃ hm₃
  rw [threshold_cast] at ho htr
  refine ⟨hk.mGeoEntities, hk.coords, rfl, rfl, rfl, ho, ?_, ?_⟩
  · show m₃.trace ++ [Call.setPosition _ _] = _
    rw [htr, List.append_assoc]
    rfl
  · intro x
    have hcam : ∀ (pos : Vec3 D) (a : Option (D × TranslationFunction)),
        (m₃.cameraSetPosition pos a).mScene.mEntities = m₃.mScene.mEntities := fun _ _ => rfl
    show x ∈ (m₃.cameraSetPosition _ _).mScene.mEntities ↔ _
    rw [hcam]
    exact hmem x

end GeoSceneManager

end dma

/-! ## Frame lemmas for the engine/geo variant -/

namespace dma

namespace geo

namespace GeoSceneManager

open dma.GeoSceneManager

variable {D : Type}

/-- The loop of `placeCamera` (engine/geo variant) runs to its end only when it
erases nothing, and then it changes nothing. -/
theorem engine_placeCameraEntities_eq_some (env : Env D) (x0 y0 : Int) :
    ∀ (l : List (String × GeoEntityPtr)) (m m' : dma.GeoSceneManager D),
      placeCameraEntities env x0 y0 l m = some m' →
      m' = m ∧ ∀ kv ∈ l, ∃ e, kv.2 = some e ∧ inRange env m e x0 y0 = true := by
  intro l
  induction l with
  | nil =>
    intro m m' h
    simp only [placeCameraEntities, Option.some.injEq] at h
    exact ⟨h.symm, fun kv hkv => absurd hkv (List.not_mem_nil _)⟩
  | cons kv rest ih =>
    obtain ⟨k, p⟩ := kv
    intro m m' h
    cases p with
    | none => simp [placeCameraEntities] at h
    | some e =>
      simp only [placeCameraEntities] at h
      split_ifs at h with hr
      obtain ⟨h1, h2⟩ := ih m m' h
      refine ⟨h1, fun kv hkv => ?_⟩
      rcases List.mem_cons.mp hkv with hkv | hkv
      · subst hkv
        exact ⟨e, rfl, by simpa [inRange] using hr⟩
      · exact h2 kv hkv

/-- The loop of `placeCamera` (engine/geo variant) runs to its end when every
visited value is a non-null entity in range of `(x0, y0)`. -/
theorem engine_placeCameraEntities_isSome (env : Env D) (x0 y0 : Int) :
    ∀ (l : List (String × GeoEntityPtr)) (m : dma.GeoSceneManager D),
      (∀ kv ∈ l, ∃ e, kv.2 = some e ∧ inRange env m e x0 y0 = true) →
      placeCameraEntities env x0 y0 l m = some m := by
  intro l
  induction l with
  | nil => intro m _; rfl
  | cons kv rest ih =>
    obtain ⟨k, p⟩ := kv
    intro m h
    obtain ⟨e, he, hr⟩ := h (k, p) (List.mem_cons_self _ _)
    simp only at he
    subst he
    have hr' : env.isInRange (tileIndex env m e).1 (tileIndex env m e).2 x0 y0 = true := hr
    simp only [placeCameraEntities, hr', Bool.true_eq_false, if_false]
    exact ih m (fun kv hkv => h kv (List.mem_cons_of_mem _ hkv))

variable [LinearOrderedField D]

theorem engine_setCoords_own_keeps (env : Env D) (m : dma.GeoSceneManager D) (e : Nat) :
    Keeps m (setCoords env m e (m.heap e).mCoords) := by
  refine ⟨rfl, rfl, rfl, rfl, rfl, fun x => ?_⟩
  by_cases hx : x = e
  · subst hx; simp [setCoords]
  · simp [setCoords, Function.update_noteq hx]

/-- The loop of `setOrigin` over the scene entities `l` (engine/geo variant). -/
theorem engine_setOrigin_loop (env : Env D) :
    ∀ (l : List Nat) (s : dma.GeoSceneManager D),
      Keeps s (l.foldl (fun s e => setCoords env s e (s.heap e).mCoords) s) ∧
      (l.foldl (fun s e => setCoords env s e (s.heap e).mCoords) s).mOrigin = s.mOrigin := by
  intro l
  induction l with
  | nil => intro s; exact ⟨Keeps.refl s, rfl⟩
  | cons e rest ih =>
    intro s
    obtain ⟨hk, ho⟩ := ih (setCoords env s e (s.heap e).mCoords)
    exact ⟨(engine_setCoords_own_keeps env s e).trans hk, ho.trans rfl⟩

theorem engine_setOrigin_spec (env : Env D) (m : dma.GeoSceneManager D) (lat lng : D) :
    Keeps m (setOrigin env m lat lng) ∧ (setOrigin env m lat lng).mOrigin = ⟨lat, lng⟩ := by
  obtain ⟨hk, ho⟩ := engine_setOrigin_loop env m.mScene.mEntities
    { m with mOrigin := ⟨lat, lng⟩, trace := m.trace ++ [Call.setOrigin lat lng] }
  exact ⟨⟨hk.mGeoEntities, hk.mCameraCoords, hk.mLastX, hk.mLastY, hk.mSelected, hk.coords⟩, ho⟩

theorem engine_placeCameraShift_keeps (env : Env D) (m : dma.GeoSceneManager D)
    (coords : LatLngAlt D) : Keeps m (placeCameraShift env m coords) := by
  unfold placeCameraShift
  split_ifs
  · obtain ⟨hk, _⟩ := engine_setOrigin_spec env m coords.lat coords.lng
    exact ⟨hk.mGeoEntities, hk.mCameraCoords, hk.mLastX, hk.mLastY, hk.mSelected, hk.coords⟩
  · exact Keeps.refl m

theorem engine_placeCameraMove_keeps (env : Env D) (m : dma.GeoSceneManager D) (coords : LatLngAlt D)
    (x0 y0 : Int) (m₃ : dma.GeoSceneManager D)
    (h : placeCameraMove env m coords x0 y0 = some m₃) : Keeps m m₃ := by
  unfold placeCameraMove at h
  split_ifs at h
  · obtain ⟨h1, _⟩ := engine_placeCameraEntities_eq_some env x0 y0 _ _ m₃ h
    rw [h1]
    have hk := engine_placeCameraShift_keeps env m coords
    exact ⟨hk.mGeoEntities, hk.mCameraCoords, hk.mLastX, hk.mLastY, hk.mSelected, hk.coords⟩
  · simp only [Option.some.injEq] at h
    exact h ▸ Keeps.refl m

theorem engine_placeCameraMove_isSome (env : Env D) (m : dma.GeoSceneManager D) (coords : LatLngAlt D)
    (x0 y0 : Int)
    (h : (x0 = m.mLastX ∧ y0 = m.mLastY) ∨
      ∀ k p, m.mGeoEntities.find k = some p → ∃ e, p = some e ∧ inRange env m e x0 y0 = true) :
    (placeCameraMove env m coords x0 y0).isSome = true := by
  unfold placeCameraMove
  split_ifs with hmove
  · rcases h with h | h
    · exact absurd h.2 (by rcases hmove with h' | h'; exact absurd h.1 h'; exact h')
    · have hk : Keeps m (tileMapUpdate env (placeCameraShift env m coords) x0 y0) :=
        (engine_placeCameraShift_keeps env m coords).trans ⟨rfl, rfl, rfl, rfl, rfl, fun _ => rfl⟩
      rw [engine_placeCameraEntities_isSome env x0 y0 _ _ ?_]
      · rfl
      · rintro ⟨k, p⟩ hkv
        rw [hk.mGeoEntities] at hkv
        obtain ⟨e, he, hr⟩ := h k p ((Registry.mem_entries_iff _ k p).mp hkv)
        exact ⟨e, he, by rw [hk.inRange env e]; exact hr⟩
  · rfl

/-- The last call `placeCamera` (engine/geo variant) makes. -/
theorem engine_placeCamera_last_call (env : Env D) (m : dma.GeoSceneManager D) (coords : LatLngAlt D)
    (d : D) (f : TranslationFunction) (m' : dma.GeoSceneManager D)
    (h : placeCamera env m coords d f = some m') :
    m'.trace.getLast? =
      some (Call.setPosition (mapPosition env m' coords.lat coords.lng coords.alt)
        (some
          (if env.isInRange m.mLastX m.mLastY (env.lng2tilex coords.lng ZOOM_LEVEL)
              (env.lat2tiley coords.lat ZOOM_LEVEL) = true then d else -1, f))) := by
  simp only [placeCamera] at h
  split at h
  · exact absurd h (by simp)
  · rename_i m₃ hv
    have hk := engine_placeCameraMove_keeps env m coords _ _ m₃ hv
    simp only [Option.some.injEq] at h
    subst h
    simp only [cameraSetPosition, hk.mLastX, hk.mLastY]
    rw [List.getLast?_concat]
    cases env.isInRange m.mLastX m.mLastY (env.lng2tilex coords.lng ZOOM_LEVEL)
        (env.lat2tiley coords.lat ZOOM_LEVEL) <;> simp [mapPosition]

end GeoSceneManager

end geo

end dma

/-! ## The window invariant of the geo variant -/

namespace dma

namespace GeoSceneManager

variable {D : Type}

theorem inRange_of_coords (env : Env D) {m m' : GeoSceneManager D}
    (h : ∀ e, (m'.heap e).mCoords = (m.heap e).mCoords) (e : Nat) (x0 y0 : Int) :
    inRange env m' e x0 y0 = inRange env m e x0 y0 := by
  simp [inRange, tileIndex, h e]

/-- The step of the invariant for a call that registers `e` under `k`, removes
from the scene what `k` was registered with, and adds `e` when it is in range. -/
theorem window_step_add (env : Env D) (m m' : GeoSceneManager D) (k : String) (e : Nat)
    (hs : SceneShowsWindow env m) (hu : Unshared m)
    (hfresh : ∀ k', m.mGeoEntities.find k' = some (some e) → k' = k)
    (hfind : ∀ k', m'.mGeoEntities.find k' =
      if k' = k then some (some e) else m.mGeoEntities.find k')
    (hmem : ∀ x, x ∈ m'.mScene.mEntities ↔
      (x ∈ m.mScene.mEntities ∧ m.mGeoEntities.find k ≠ some (some x)) ∨
      (x = e ∧ inRange env m e m.mLastX m.mLastY = true))
    (hin : ∀ x, inRange env m' x m'.mLastX m'.mLastY = inRange env m x m.mLastX m.mLastY) :
    SceneShowsWindow env m' ∧ Unshared m' := by
  constructor
  · intro x
    rw [hmem x, hin x]
    constructor
    · rintro (⟨hx, hne⟩ | ⟨hx, hr⟩)
      · obtain ⟨⟨k₀, hk₀⟩, hr⟩ := (hs x).mp hx
        have hk : k₀ ≠ k := fun h => hne (h ▸ hk₀)
        exact ⟨⟨k₀, by rw [hfind, if_neg hk]; exact hk₀⟩, hr⟩
      · subst hx
        exact ⟨⟨k, by rw [hfind, if_pos rfl]⟩, hr⟩
    · rintro ⟨⟨k', hk'⟩, hr⟩
      rw [hfind] at hk'
      split_ifs at hk' with hkk
      · have hx : x = e := by simpa using hk'.symm
        subst hx
        exact Or.inr ⟨rfl, hr⟩
      · refine Or.inl ⟨(hs x).mpr ⟨⟨k', hk'⟩, hr⟩, fun h => hkk (hu k' k x hk' h)⟩
  · intro k₁ k₂ x h₁ h₂
    rw [hfind] at h₁ h₂
    split_ifs at h₁ h₂ with hk₁ hk₂ hk₂
    · rw [hk₁, hk₂]
    · have hx : x = e := by simpa using h₁.symm
      subst hx
      exact absurd (hfresh k₂ h₂) hk₂
    · have hx : x = e := by simpa using h₂.symm
      subst hx
      exact absurd (hfresh k₁ h₁) hk₁
    · exact hu k₁ k₂ x h₁ h₂

theorem window_addGeoEntity (env : Env D) (m m' : GeoSceneManager D) (k : String) (e : Nat)
    (hs : SceneShowsWindow env m) (hu : Unshared m)
    (hfresh : ∀ k', m.mGeoEntities.find k' = some (some e) → k' = k)
    (hadd : addGeoEntity env m k (some e) = some m') :
    SceneShowsWindow env m' ∧ Unshared m' := by
  have hinr : inRange env m e m.mLastX m.mLastY =
      env.isInRange (tileIndex env m e).1 (tileIndex env m e).2 m.mLastX m.mLastY := rfl
  cases hf : m.mGeoEntities.find k with
  | none =>
    rw [addGeoEntity_of_unregistered env m k e hf] at hadd
    have hadd := (Option.some.inj hadd).symm
    apply window_step_add env m m' k e hs hu hfresh
    · intro k'
      have : m'.mGeoEntities = m.mGeoEntities.assign k (some e) := by
        rw [hadd]; split_ifs <;> rfl
      rw [this]
      exact Registry.find_assign _ _ _ _
    · intro x
      rw [hf, hinr]
      rcases Bool.eq_false_or_eq_true
          (env.isInRange (tileIndex env m e).1 (tileIndex env m e).2 m.mLastX m.mLastY)
        with hr | hr
      · rw [hadd, hr]
        simp [Scene.mem_addEntity]
      · rw [hadd, hr]
        simp
    · intro x
      rw [hadd]
      split_ifs <;> rfl
  | some old =>
    rw [addGeoEntity_of_registered env m k old e hf] at hadd
    have hadd := (Option.some.inj hadd).symm
    apply window_step_add env m m' k e hs hu hfresh
    · intro k'
      have : m'.mGeoEntities = (m.mGeoEntities.erase k).assign k (some e) := by
        rw [hadd]; split_ifs <;> rfl
      rw [this, Registry.find_assign]
      split_ifs with hk
      · rfl
      · exact Registry.find_erase_ne _ hk
    · intro x
      rw [hf, hinr]
      have hne : (some old ≠ some (some x)) ↔ old ≠ some x := by simp
      rw [hne]
      rcases Bool.eq_false_or_eq_true
          (env.isInRange (tileIndex env m e).1 (tileIndex env m e).2 m.mLastX m.mLastY)
        with hr | hr
      · rw [hadd, hr]
        simp [Scene.mem_addEntity, Scene.mem_removeEntity]
      · rw [hadd, hr]
        simp [Scene.mem_removeEntity]
    · intro x
      rw [hadd]
      split_ifs <;> rfl

theorem window_removeGeoEntity (env : Env D) (m : GeoSceneManager D) (k : String)
    (hs : SceneShowsWindow env m) (hu : Unshared m) :
    SceneShowsWindow env (removeGeoEntity m k) ∧ Unshared (removeGeoEntity m k) := by
  cases hf : m.mGeoEntities.find k with
  | none =>
    have hr : removeGeoEntity m k = { m with mGeoEntities := m.mGeoEntities.assign k none } := by
      simp only [removeGeoEntity, Registry.index_of_absent _ _ hf]
    have hfind : ∀ k' x, (m.mGeoEntities.assign k none).find k' = some (some x) ↔
        m.mGeoEntities.find k' = some (some x) := by
      intro k' x
      rw [Registry.find_assign]
      split_ifs with hk
      · subst hk; simp [hf]
      · rfl
    rw [hr]
    constructor
    · intro x
      show x ∈ m.mScene.mEntities ↔ (∃ k', (m.mGeoEntities.assign k none).find k' = _) ∧ _
      simp only [hfind]
      exact hs x
    · intro k₁ k₂ x h₁ h₂
      exact hu k₁ k₂ x ((hfind k₁ x).mp h₁) ((hfind k₂ x).mp h₂)
  | some p =>
    cases p with
    | none =>
      have hr : removeGeoEntity m k = m := by
        simp only [removeGeoEntity, Registry.index_of_present _ _ _ hf]
      rw [hr]
      exact ⟨hs, hu⟩
    | some e =>
      have hr : removeGeoEntity m k =
          { m with
            mGeoEntities := m.mGeoEntities.erase k
            mScene := m.mScene.removeEntity (some e)
            trace := m.trace ++ [Call.removeEntity (some e)] } := by
        simp only [removeGeoEntity, Registry.index_of_present _ _ _ hf, sceneRemoveEntity]
      have hfind : ∀ k' x, (m.mGeoEntities.erase k).find k' = some (some x) ↔
          k' ≠ k ∧ m.mGeoEntities.find k' = some (some x) := by
        intro k' x
        rw [Registry.find_erase]
        split_ifs with hk
        · simp [hk]
        · simp [hk]
      rw [hr]
      constructor
      · intro x
        show x ∈ (m.mScene.removeEntity (some e)).mEntities ↔
          (∃ k', (m.mGeoEntities.erase k).find k' = _) ∧ inRange env m x m.mLastX m.mLastY = true
        rw [Scene.mem_removeEntity]
        simp only [hfind]
        constructor
        · rintro ⟨hx, hne⟩
          obtain ⟨⟨k₀, hk₀⟩, hr'⟩ := (hs x).mp hx
          refine ⟨⟨k₀, fun h => hne ?_, hk₀⟩, hr'⟩
          rw [h, hf] at hk₀
          exact Option.some.inj hk₀
        · rintro ⟨⟨k', hk', hfk'⟩, hr'⟩
          refine ⟨(hs x).mpr ⟨⟨k', hfk'⟩, hr'⟩, fun h => hk' ?_⟩
          have : e = x := by simpa using h
          subst this
          exact hu k' k e hfk' hf
      · intro k₁ k₂ x h₁ h₂
        exact hu k₁ k₂ x ((hfind k₁ x).mp h₁).2 ((hfind k₂ x).mp h₂).2

theorem window_placeCamera [LinearOrderedField D] (env : Env D) (m m' : GeoSceneManager D)
    (coords : LatLngAlt D) (d : D) (f : TranslationFunction)
    (hs : SceneShowsWindow env m) (hu : Unshared m)
    (h : placeCamera env m coords d f = some m') :
    SceneShowsWindow env m' ∧ Unshared m' := by
  obtain ⟨hreg, hcoords, _, hx, hy, _, _, hmem⟩ := placeCamera_spec env m coords d f m' h
  constructor
  · intro x
    rw [hmem x, hreg, hx, hy, inRange_of_coords env hcoords]
    have hsx := hs x
    rw [← Registry.mem_values_iff] at hsx ⊢
    split_ifs with hmove
    · rw [hsx]
      cases inRange env m x m.mLastX m.mLastY <;>
        cases inRange env m x (env.lng2tilex coords.lng ZOOM_LEVEL)
          (env.lat2tiley coords.lat ZOOM_LEVEL) <;> simp
    · have hsame : env.lng2tilex coords.lng ZOOM_LEVEL = m.mLastX ∧
          env.lat2tiley coords.lat ZOOM_LEVEL = m.mLastY := by
        constructor
        · by_contra hc; exact hmove (Or.inl hc)
        · by_contra hc; exact hmove (Or.inr hc)
      rw [hsame.1, hsame.2]
      exact hsx
  · intro k₁ k₂ x h₁ h₂
    rw [hreg] at h₁ h₂
    exact hu k₁ k₂ x h₁ h₂

end GeoSceneManager

end dma

/-! ## Lemmas on `pick` -/

namespace dma

namespace GeoSceneManager

variable {D : Type}

/-- The hit list holds the non-null registry values that pass the test of the first
loop. -/
theorem mem_pickIntersected (env : Env D) (m : GeoSceneManager D) (ray : Vec3 D) (e : Nat) :
    ∀ l : List (String × GeoEntityPtr),
      e ∈ pickIntersected env m ray l ↔ (∃ k, (k, some e) ∈ l) ∧ isHit env m ray e = true := by
  intro l
  induction l with
  | nil => simp [pickIntersected]
  | cons hd rest ih =>
    obtain ⟨k, p⟩ := hd
    cases p with
    | none => simp [pickIntersected, ih]
    | some x =>
      by_cases hx : isHit env m ray x = true
      · simp only [pickIntersected, hx, if_true, List.mem_cons, ih, Prod.mk.injEq,
          Option.some.injEq]
        constructor
        · rintro (rfl | ⟨⟨k', hk'⟩, h⟩)
          · exact ⟨⟨k, Or.inl ⟨rfl, rfl⟩⟩, hx⟩
          · exact ⟨⟨k', Or.inr hk'⟩, h⟩
        · rintro ⟨⟨k', hk' | hk'⟩, h⟩
          · exact Or.inl hk'.2
          · exact Or.inr ⟨⟨k', hk'⟩, h⟩
      · have hx' : isHit env m ray x = false := Bool.eq_false_iff.mpr hx
        simp only [pickIntersected, hx', Bool.false_eq_true, if_false, List.mem_cons, ih,
          Prod.mk.injEq, Option.some.injEq]
        constructor
        · rintro ⟨⟨k', hk'⟩, h⟩
          exact ⟨⟨k', Or.inr hk'⟩, h⟩
        · rintro ⟨⟨k', hk' | hk'⟩, h⟩
          · exact absurd (hk'.2 ▸ h) hx
          · exact ⟨⟨k', hk'⟩, h⟩

/-- A position in the hit list is the position of an entry in the registry. -/
theorem pickIntersected_eq_append (env : Env D) (m : GeoSceneManager D) (ray : Vec3 D)
    (c : Nat) :
    ∀ (l : List (String × GeoEntityPtr)) (before after : List Nat),
      pickIntersected env m ray l = before ++ c :: after →
      ∃ E₁ k E₂, l = E₁ ++ (k, some c) :: E₂ ∧ isHit env m ray c = true ∧
        pickIntersected env m ray E₁ = before ∧ pickIntersected env m ray E₂ = after := by
  intro l
  induction l with
  | nil => intro before after h; simp [pickIntersected] at h
  | cons hd rest ih =>
    intro before after h
    obtain ⟨k, p⟩ := hd
    cases p with
    | none =>
      simp only [pickIntersected] at h
      obtain ⟨E₁, k', E₂, hl, hc, h₁, h₂⟩ := ih before after h
      exact ⟨(k, none) :: E₁, k', E₂, by simp [hl], hc, by simp [pickIntersected, h₁], h₂⟩
    | some x =>
      by_cases hx : isHit env m ray x = true
      · simp only [pickIntersected, hx, if_true] at h
        cases before with
        | nil =>
          simp only [List.nil_append, List.cons.injEq] at h
          obtain ⟨rfl, h⟩ := h
          exact ⟨[], k, rest, rfl, hx, rfl, h⟩
        | cons b bs =>
          simp only [List.cons_append, List.cons.injEq] at h
          obtain ⟨rfl, h⟩ := h
          obtain ⟨E₁, k', E₂, hl, hc, h₁, h₂⟩ := ih bs after h
          exact ⟨(k, some x) :: E₁, k', E₂, by simp [hl], hc,
            by simp [pickIntersected, hx, h₁], h₂⟩
      · have hx' : isHit env m ray x = false := Bool.eq_false_iff.mpr hx
        simp only [pickIntersected, hx', Bool.false_eq_true, if_false] at h
        obtain ⟨E₁, k', E₂, hl, hc, h₁, h₂⟩ := ih before after h
        exact ⟨(k, some x) :: E₁, k', E₂, by simp [hl], hc,
          by simp [pickIntersected, hx', h₁], h₂⟩

variable [LinearOrderedField D]

/-- The `while` loop of `pick` started on the candidate `cand`: either it keeps the
candidate, which no later object beats, or it leaves an object that is strictly
closer than the candidate and than every object read before it, and not farther
than any object read after it. -/
theorem pickClosest_cases (env : Env D) (m : GeoSceneManager D) :
    ∀ (rest : List Nat) (cand : Nat),
      (pickClosest env m rest cand (env.distanceFromCamera m.mScene (m.heap cand)) = cand ∧
        ∀ x ∈ rest, env.distanceFromCamera m.mScene (m.heap cand) ≤
          env.distanceFromCamera m.mScene (m.heap x)) ∨
      ∃ a b, rest = a ++
          pickClosest env m rest cand (env.distanceFromCamera m.mScene (m.heap cand)) :: b ∧
        env.distanceFromCamera m.mScene (m.heap
            (pickClosest env m rest cand (env.distanceFromCamera m.mScene (m.heap cand)))) <
          env.distanceFromCamera m.mScene (m.heap cand) ∧
        (∀ x ∈ a, env.distanceFromCamera m.mScene (m.heap
            (pickClosest env m rest cand (env.distanceFromCamera m.mScene (m.heap cand)))) <
          env.distanceFromCamera m.mScene (m.heap x)) ∧
        (∀ x ∈ b, env.distanceFromCamera m.mScene (m.heap
            (pickClosest env m rest cand (env.distanceFromCamera m.mScene (m.heap cand)))) ≤
          env.distanceFromCamera m.mScene (m.heap x)) := by
  intro rest
  induction rest with
  | nil => intro cand; left; exact ⟨rfl, by simp⟩
  | cons back rest ih =>
    intro cand
    by_cases hlt : env.distanceFromCamera m.mScene (m.heap back) <
        env.distanceFromCamera m.mScene (m.heap cand)
    · have hcode : pickClosest env m (back :: rest) cand
          (env.distanceFromCamera m.mScene (m.heap cand)) =
          pickClosest env m rest back (env.distanceFromCamera m.mScene (m.heap back)) := by
        simp [pickClosest, hlt]
      rw [hcode]
      right
      rcases ih back with ⟨heq, hall⟩ | ⟨a, b, hrest, hc, ha, hb⟩
      · rw [heq]
        exact ⟨[], rest, rfl, hlt, by simp, hall⟩
      · refine ⟨back :: a, b, by rw [List.cons_append, ← hrest], hc.trans hlt, ?_, hb⟩
        intro x hx
        rcases List.mem_cons.mp hx with rfl | hx
        · exact hc
        · exact ha x hx
    · have hcode : pickClosest env m (back :: rest) cand
          (env.distanceFromCamera m.mScene (m.heap cand)) =
          pickClosest env m rest cand (env.distanceFromCamera m.mScene (m.heap cand)) := by
        simp [pickClosest, hlt]
      rw [hcode]
      rcases ih cand with ⟨heq, hall⟩ | ⟨a, b, hrest, hc, ha, hb⟩
      · left
        refine ⟨heq, ?_⟩
        intro x hx
        rcases List.mem_cons.mp hx with rfl | hx
        · exact not_lt.mp hlt
        · exact hall x hx
      · right
        refine ⟨back :: a, b, by rw [List.cons_append, ← hrest], hc, ?_, hb⟩
        intro x hx
        rcases List.mem_cons.mp hx with rfl | hx
        · exact lt_of_lt_of_le hc (not_lt.mp hlt)
        · exact ha x hx

/-- The object the `while` loop leaves, in the order in which the hits were pushed:
no hit pushed before it is closer, every hit pushed after it is strictly farther. -/
theorem pickClosest_spec (env : Env D) (m : GeoSceneManager D) (back : Nat) (rest : List Nat)
    (hits : List Nat) (h : hits.reverse = back :: rest) :
    ∃ before after,
      hits = before ++
        pickClosest env m rest back (env.distanceFromCamera m.mScene (m.heap back)) :: after ∧
      (∀ x ∈ before, env.distanceFromCamera m.mScene (m.heap
          (pickClosest env m rest back (env.distanceFromCamera m.mScene (m.heap back)))) ≤
        env.distanceFromCamera m.mScene (m.heap x)) ∧
      (∀ x ∈ after, env.distanceFromCamera m.mScene (m.heap
          (pickClosest env m rest back (env.distanceFromCamera m.mScene (m.heap back)))) <
        env.distanceFromCamera m.mScene (m.heap x)) := by
  have hh : hits = (back :: rest).reverse := by rw [← h, List.reverse_reverse]
  rcases pickClosest_cases env m rest back with ⟨heq, hall⟩ | ⟨a, b, hrest, hc, ha, hb⟩
  · refine ⟨rest.reverse, [], ?_, ?_, by simp⟩
    · rw [heq, hh]; simp
    · intro x hx
      rw [heq]
      exact hall x (List.mem_reverse.mp hx)
  · refine ⟨b.reverse, a.reverse ++ [back], ?_, ?_, ?_⟩
    · rw [hh]
      nth_rewrite 1 [hrest]
      simp
    · intro x hx
      exact hb x (List.mem_reverse.mp hx)
    · intro x hx
      rcases List.mem_append.mp hx with hx | hx
      · exact ha x (List.mem_reverse.mp hx)
      · rw [List.mem_singleton.mp hx]; exact hc

/-- With no hit, `pick` is its first block. -/
theorem pick_of_no_hit (env : Env D) (m : GeoSceneManager D) (screenX screenY : Int)
    (h : pickIntersected env m (env.castRay m.mScene screenX screenY) m.mGeoEntities.entries
      = []) :
    pick env m screenX screenY = pickNone m := by
  simp [pick, h]

/-- With a hit, `pick` selects an object `c` of the hit list such that no hit
pushed before it is closer and every hit pushed after it is strictly farther. -/
theorem pick_of_hit (env : Env D) (m : GeoSceneManager D) (screenX screenY : Int)
    (h : pickIntersected env m (env.castRay m.mScene screenX screenY) m.mGeoEntities.entries
      ≠ []) :
    ∃ c before after,
      pickIntersected env m (env.castRay m.mScene screenX screenY) m.mGeoEntities.entries =
        before ++ c :: after ∧
      (∀ x ∈ before, env.distanceFromCamera m.mScene (m.heap c) ≤
        env.distanceFromCamera m.mScene (m.heap x)) ∧
      (∀ x ∈ after, env.distanceFromCamera m.mScene (m.heap c) <
        env.distanceFromCamera m.mScene (m.heap x)) ∧
      pick env m screenX screenY = pickSelect m c := by
  obtain ⟨hits, hhits⟩ : ∃ hits, hits =
      pickIntersected env m (env.castRay m.mScene screenX screenY) m.mGeoEntities.entries :=
    ⟨_, rfl⟩
  rw [← hhits] at h ⊢
  cases hrev : hits.reverse with
  | nil => exact absurd (List.reverse_eq_nil_iff.mp hrev) h
  | cons back rest =>
    obtain ⟨before, after, heq, hb, ha⟩ := pickClosest_spec env m back rest hits hrev
    refine ⟨_, before, after, heq, hb, ha, ?_⟩
    simp only [pick, ← hhits, hrev]

/-- What the first block of `pick` does. -/
theorem pickNone_spec (m : GeoSceneManager D) :
    (pickNone m).1 = none ∧ (pickNone m).2.mSelected = none ∧
    (pickNone m).2.mGeoEntities = m.mGeoEntities ∧ (pickNone m).2.mScene = m.mScene ∧
    (pickNone m).2.heap = m.heap ∧
    (∀ s, m.mSelected = some s →
      (pickNone m).2.trace = m.trace ++
        [Call.setDiffuseColor (m.heap s).mMaterial ⟨0, 0, 0⟩,
          Call.onPoiDeselected (m.heap s).mSid] ∧
      (pickNone m).2.materials =
        Function.update m.materials (m.heap s).mMaterial ⟨⟨0, 0, 0⟩⟩) ∧
    (m.mSelected = none → (pickNone m).2 = m) := by
  cases hs : m.mSelected with
  | none => simp [pickNone, hs]
  | some s =>
    simp [pickNone, hs, setDiffuseColor, onPoiDeselected]

/-- What the statements of `pick` after the loop do. -/
theorem pickSelect_spec (m : GeoSceneManager D) (c : Nat) :
    (pickSelect m c).1 = some c ∧ (pickSelect m c).2.mSelected = some c ∧
    (pickSelect m c).2.mGeoEntities = m.mGeoEntities ∧ (pickSelect m c).2.mScene = m.mScene ∧
    (pickSelect m c).2.heap = m.heap ∧
    (∀ s, m.mSelected = some s → (m.heap s).mSid ≠ (m.heap c).mSid →
      (pickSelect m c).2.trace = m.trace ++
        [Call.setDiffuseColor (m.heap c).mMaterial ⟨0.8, 0.1, 0.3⟩,
          Call.setDiffuseColor (m.heap s).mMaterial ⟨0, 0, 0⟩,
          Call.onPoiDeselected (m.heap s).mSid,
          Call.onPoiSelected (m.heap c).mSid] ∧
      (pickSelect m c).2.materials =
        Function.update
          (Function.update m.materials (m.heap c).mMaterial ⟨⟨0.8, 0.1, 0.3⟩⟩)
          (m.heap s).mMaterial ⟨⟨0, 0, 0⟩⟩) ∧
    ((∀ s, m.mSelected = some s → (m.heap s).mSid = (m.heap c).mSid) →
      (pickSelect m c).2.trace = m.trace ++
        [Call.setDiffuseColor (m.heap c).mMaterial ⟨0.8, 0.1, 0.3⟩,
          Call.onPoiSelected (m.heap c).mSid] ∧
      (pickSelect m c).2.materials =
        Function.update m.materials (m.heap c).mMaterial ⟨⟨0.8, 0.1, 0.3⟩⟩) := by
  cases hs : m.mSelected with
  | none =>
    simp [pickSelect, hs, setDiffuseColor, onPoiSelected]
  | some s =>
    by_cases hsid : (m.heap s).mSid = (m.heap c).mSid
    · simp [pickSelect, hs, hsid, setDiffuseColor, onPoiSelected]
    · simp [pickSelect, hs, hsid, setDiffuseColor, onPoiSelected, onPoiDeselected]

end GeoSceneManager

end dma

/-! ## Lemmas on the positions `setOrigin` and `step` write -/

namespace dma

namespace GeoSceneManager

variable {D : Type} [LinearOrderedField D]

/-- The local position of a point depends on the manager through its Origin only. -/
theorem mapPositionCoords_of_origin (env : Env D) {m m' : GeoSceneManager D}
    (h : m'.mOrigin = m.mOrigin) (coords : LatLngAlt D) :
    mapPositionCoords env m' coords = mapPositionCoords env m coords := by
  simp [mapPositionCoords, mapPosition, h]

/-- The heap after the loop of `setOrigin` over the scene entities `l`: an entity of
`l` has its position recomputed from its coordinates, any other object is
untouched. -/
theorem setOrigin_loop_heap (env : Env D) :
    ∀ (l : List Nat) (s : GeoSceneManager D),
      (∀ e ∈ l, ((l.foldl (fun s e => setCoords env s e (s.heap e).mCoords) s).heap e).mPosition
        = mapPositionCoords env s (s.heap e).mCoords) ∧
      (∀ e, e ∉ l →
        (l.foldl (fun s e => setCoords env s e (s.heap e).mCoords) s).heap e = s.heap e) := by
  intro l
  induction l with
  | nil => intro s; simp
  | cons x rest ih =>
    intro s
    obtain ⟨hin, hout⟩ := ih (setCoords env s x (s.heap x).mCoords)
    have hk := setCoords_own_keeps env s x
    simp only [List.foldl_cons]
    constructor
    · intro e he
      by_cases her : e ∈ rest
      · rw [hin e her, hk.coords e]
        exact mapPositionCoords_of_origin env rfl _
      · have hex : e = x := by
          rcases List.mem_cons.mp he with h | h
          · exact h
          · exact absurd h her
        subst hex
        rw [hout e her]
        simp [setCoords]
    · intro e he
      have hne : e ≠ x := fun h => he (h ▸ List.mem_cons_self _ _)
      have her : e ∉ rest := fun h => he (List.mem_cons_of_mem _ h)
      rw [hout e her]
      simp [setCoords, Function.update_noteq hne]

/-- The heap after `setOrigin`. -/
theorem setOrigin_heap (env : Env D) (m : GeoSceneManager D) (lat lng : D) :
    (∀ e ∈ m.mScene.mEntities, ((setOrigin env m lat lng).heap e).mPosition =
      mapPositionCoords env (setOrigin env m lat lng) (m.heap e).mCoords) ∧
    (∀ e, e ∉ m.mScene.mEntities → (setOrigin env m lat lng).heap e = m.heap e) := by
  obtain ⟨hin, hout⟩ := setOrigin_loop_heap env m.mScene.mEntities
    { m with mOrigin := ⟨lat, lng⟩, trace := m.trace ++ [Call.setOrigin lat lng] }
  refine ⟨fun e he => ?_, hout⟩
  have h := hin e he
  have ho : (setOrigin env m lat lng).mOrigin =
      ({ m with mOrigin := ⟨lat, lng⟩, trace := m.trace ++ [Call.setOrigin lat lng] } :
        GeoSceneManager D).mOrigin := (setOrigin_spec env m lat lng).2.1
  rw [mapPositionCoords_of_origin env ho]
  exact h

end GeoSceneManager

namespace geo

namespace GeoSceneManager

variable {D : Type} [LinearOrderedField D]

/-- What the body of the loop of `step` does to one tile. -/
theorem engine_stepTile_spec (env : Env D) (m : dma.GeoSceneManager D) (tile : Tile D) :
    (stepTile env m tile).mDirty = false ∧
    (stepTile env m tile).mCoords = tile.mCoords ∧
    (stepTile env m tile).width = tile.width ∧
    (stepTile env m tile).height = tile.height ∧
    (tile.mDirty = true → (stepTile env m tile).mPosition =
      ⟨(mapPosition env m tile.mCoords.lat tile.mCoords.lng 0).x + tile.width / 2,
        (mapPosition env m tile.mCoords.lat tile.mCoords.lng 0).y,
        (mapPosition env m tile.mCoords.lat tile.mCoords.lng 0).z + tile.height / 2⟩) ∧
    (tile.mDirty = false → (stepTile env m tile).mPosition = tile.mPosition) := by
  rcases Bool.eq_false_or_eq_true tile.mDirty with h | h <;> simp [stepTile, h]

/-- The tiles after `setOrigin`: all dirty, nothing else changed. -/
theorem engine_setOrigin_tiles (env : Env D) (m : dma.GeoSceneManager D) (lat lng : D) :
    (setOrigin env m lat lng).mTileMap.mTiles =
      m.mTileMap.mTiles.map (fun tile => { tile with mDirty := true }) := by
  have hloop : ∀ (l : List Nat) (s : dma.GeoSceneManager D),
      (l.foldl (fun s e => setCoords env s e (s.heap e).mCoords) s).mTileMap = s.mTileMap := by
    intro l
    induction l with
    | nil => intro s; rfl
    | cons e rest ih => intro s; exact (ih _).trans rfl
  simp only [setOrigin]
  rw [hloop]

end GeoSceneManager

end geo

end dma

/-! ## What the result of `pick` depends on -/

namespace dma

namespace GeoSceneManager

variable {D : Type}

/-- The hit list depends on the test of the first loop on the registry values only. -/
theorem pickIntersected_congr_of_hits (env env' : Env D) (m m' : GeoSceneManager D)
    (ray ray' : Vec3 D) :
    ∀ l : List (String × GeoEntityPtr),
      (∀ k e, (k, some e) ∈ l → isHit env' m' ray' e = isHit env m ray e) →
      pickIntersected env' m' ray' l = pickIntersected env m ray l := by
  intro l
  induction l with
  | nil => intro _; rfl
  | cons hd rest ih =>
    intro h
    obtain ⟨k, p⟩ := hd
    have hrest := ih (fun k' e he => h k' e (List.mem_cons_of_mem _ he))
    cases p with
    | none => simpa [pickIntersected] using hrest
    | some x =>
      have hx := h k x (List.mem_cons_self _ _)
      simp [pickIntersected, hx, hrest]

variable [LinearOrderedField D]

/-- The object the `while` loop leaves depends on the distances of the hits only. -/
theorem pickClosest_congr_of_distances (env env' : Env D) (m m' : GeoSceneManager D) :
    ∀ rest : List Nat,
      (∀ e ∈ rest, env'.distanceFromCamera m'.mScene (m'.heap e) =
        env.distanceFromCamera m.mScene (m.heap e)) →
      ∀ (closest : Nat) (distance : D),
        pickClosest env' m' rest closest distance = pickClosest env m rest closest distance := by
  intro rest
  induction rest with
  | nil => intro _ closest distance; rfl
  | cons back rest ih =>
    intro h closest distance
    have hrest := ih (fun e he => h e (List.mem_cons_of_mem _ he))
    have hback := h back (List.mem_cons_self _ _)
    simp [pickClosest, hback, hrest]

/-- The call of `pick` ends in its first block or in the statements after the
loop. -/
theorem pick_dichotomy (env : Env D) (m : GeoSceneManager D) (screenX screenY : Int) :
    pick env m screenX screenY = pickNone m ∨
    ∃ c, pick env m screenX screenY = pickSelect m c := by
  simp only [pick]
  split
  · exact Or.inl rfl
  · exact Or.inr ⟨_, rfl⟩

/-- The pointer `pick` returns is a function of the registry, of the outcome of
the test of the first loop on the registered objects and of their distances. -/
theorem pick_fst_congr (env env' : Env D) (m m' : GeoSceneManager D)
    (screenX screenY screenX' screenY' : Int)
    (hreg : m'.mGeoEntities = m.mGeoEntities)
    (h : ∀ k e, (k, some e) ∈ m.mGeoEntities.entries →
      isHit env' m' (env'.castRay m'.mScene screenX' screenY') e =
        isHit env m (env.castRay m.mScene screenX screenY) e ∧
      env'.distanceFromCamera m'.mScene (m'.heap e) =
        env.distanceFromCamera m.mScene (m.heap e)) :
    (pick env' m' screenX' screenY').1 = (pick env m screenX screenY).1 := by
  have hhits : pickIntersected env' m' (env'.castRay m'.mScene screenX' screenY')
        m'.mGeoEntities.entries =
      pickIntersected env m (env.castRay m.mScene screenX screenY) m.mGeoEntities.entries := by
    rw [hreg]
    exact pickIntersected_congr_of_hits env env' m m' _ _ _ (fun k e he => (h k e he).1)
  have hdist : ∀ e ∈ pickIntersected env m (env.castRay m.mScene screenX screenY)
        m.mGeoEntities.entries,
      env'.distanceFromCamera m'.mScene (m'.heap e) =
        env.distanceFromCamera m.mScene (m.heap e) := by
    intro e he
    obtain ⟨⟨k, hk⟩, _⟩ := (mem_pickIntersected env m _ e _).mp he
    exact (h k e hk).2
  simp only [pick, hhits]
  cases hrev : (pickIntersected env m (env.castRay m.mScene screenX screenY)
      m.mGeoEntities.entries).reverse with
  | nil =>
    show (pickNone m').1 = (pickNone m).1
    rw [(pickNone_spec m').1, (pickNone_spec m).1]
  | cons back rest =>
    show (pickSelect m' _).1 = (pickSelect m _).1
    rw [(pickSelect_spec m' _).1, (pickSelect_spec m _).1]
    have hmem : ∀ e ∈ back :: rest, e ∈ pickIntersected env m
        (env.castRay m.mScene screenX screenY) m.mGeoEntities.entries := by
      intro e he
      rw [← hrev] at he
      exact List.mem_reverse.mp he
    rw [hdist back (hmem back (List.mem_cons_self _ _)),
      pickClosest_congr_of_distances env env' m m' rest
        (fun e he => hdist e (hmem e (List.mem_cons_of_mem _ he)))]

end GeoSceneManager

end dma

/-! ## Lemmas on the selection -/

namespace dma

namespace GeoSceneManager

variable {D : Type}

theorem removeGeoEntity_mSelected (m : GeoSceneManager D) (sid : String) :
    (removeGeoEntity m sid).mSelected = m.mSelected := by
  simp only [removeGeoEntity]
  split <;> rfl

theorem addGeoEntity_mSelected (env : Env D) (m m' : GeoSceneManager D) (sid : String)
    (geoEntity : GeoEntityPtr) (h : addGeoEntity env m sid geoEntity = some m') :
    m'.mSelected = m.mSelected := by
  cases geoEntity with
  | none => simp [addGeoEntity] at h
  | some e =>
    cases hf : m.mGeoEntities.find sid with
    | none =>
      rw [addGeoEntity_of_unregistered env m sid e hf] at h
      rw [← Option.some.inj h]
      split_ifs <;> rfl
    | some old =>
      rw [addGeoEntity_of_registered env m sid old e hf] at h
      rw [← Option.some.inj h]
      split_ifs <;> rfl

variable [LinearOrderedField D]

theorem placeCamera_mSelected (env : Env D) (m m' : GeoSceneManager D) (coords : LatLngAlt D)
    (d : D) (f : TranslationFunction) (h : placeCamera env m coords d f = some m') :
    m'.mSelected = m.mSelected := by
  obtain ⟨m₃, hm₃, rfl⟩ := placeCamera_eq_some env m coords d f m' h
  exact (placeCameraMove_spec env m coords _ _ m₃ hm₃).1.mSelected

/-- The entity `pick` returns is a registered `Poi` that the ray meets. -/
theorem pick_fst_registered (env : Env D) (m : GeoSceneManager D) (screenX screenY : Int)
    (c : Nat) (h : (pick env m screenX screenY).1 = some c) :
    (∃ k, m.mGeoEntities.find k = some (some c)) ∧
    isHit env m (env.castRay m.mScene screenX screenY) c = true := by
  have hne : pickIntersected env m (env.castRay m.mScene screenX screenY)
      m.mGeoEntities.entries ≠ [] := by
    intro hnil
    rw [pick_of_no_hit env m screenX screenY hnil, (pickNone_spec m).1] at h
    exact absurd h (by simp)
  obtain ⟨c', before, after, hhits, _, _, hpick⟩ := pick_of_hit env m screenX screenY hne
  rw [hpick, (pickSelect_spec m c').1] at h
  obtain rfl := Option.some.inj h
  have hc : c' ∈ pickIntersected env m (env.castRay m.mScene screenX screenY)
      m.mGeoEntities.entries := by
    rw [hhits]; simp
  obtain ⟨⟨k, hk⟩, hhit⟩ := (mem_pickIntersected env m _ c' _).mp hc
  exact ⟨⟨k, (Registry.mem_entries_iff _ _ _).mp hk⟩, hhit⟩

/-- The callbacks of one call of `pick`: `onPoiSelected` is made for the entity
returned, `onPoiDeselected` for the entity that was selected before the call. -/
theorem pick_callbacks (env : Env D) (m : GeoSceneManager D) (screenX screenY : Int) :
    ∃ calls, (pick env m screenX screenY).2.trace = m.trace ++ calls ∧
      (∀ sid, Call.onPoiSelected sid ∈ calls →
        ∃ c, (pick env m screenX screenY).1 = some c ∧ sid = (m.heap c).mSid) ∧
      (∀ sid, Call.onPoiDeselected sid ∈ calls →
        ∃ s, m.mSelected = some s ∧ sid = (m.heap s).mSid) := by
  rcases pick_dichotomy env m screenX screenY with hp | ⟨c, hp⟩
  · rw [hp]
    obtain ⟨_, _, _, _, _, h₆, h₇⟩ := pickNone_spec m
    cases hs : m.mSelected with
    | none =>
      refine ⟨[], by rw [h₇ hs]; simp, ?_, ?_⟩ <;> intro sid hsid <;> simp at hsid
    | some s =>
      refine ⟨_, (h₆ s hs).1, ?_, ?_⟩
      · intro sid hsid; simp at hsid
      · intro sid hsid
        simp only [List.mem_cons, Call.onPoiDeselected.injEq, List.mem_singleton,
          List.mem_nil_iff, or_false, false_or, reduceCtorEq] at hsid
        exact ⟨s, rfl, hsid⟩
  · rw [hp]
    obtain ⟨h₁, _, _, _, _, h₆, h₇⟩ := pickSelect_spec m c
    cases hs : m.mSelected with
    | none =>
      have htr := (h₇ (fun s h => by rw [hs] at h; exact absurd h (by simp))).1
      refine ⟨_, htr, ?_, ?_⟩
      · intro sid hsid
        simp only [List.mem_cons, Call.onPoiSelected.injEq, List.mem_singleton,
          List.mem_nil_iff, or_false, false_or, reduceCtorEq] at hsid
        exact ⟨c, h₁, hsid⟩
      · intro sid hsid; simp at hsid
    | some s =>
      by_cases hsid : (m.heap s).mSid = (m.heap c).mSid
      · have htr := (h₇ (fun s' h => by
          rw [hs] at h
          rw [← Option.some.inj h]; exact hsid)).1
        refine ⟨_, htr, ?_, ?_⟩
        · intro sid hmem
          simp only [List.mem_cons, Call.onPoiSelected.injEq, List.mem_singleton,
            List.mem_nil_iff, or_false, false_or, reduceCtorEq] at hmem
          exact ⟨c, h₁, hmem⟩
        · intro sid hmem; simp at hmem
      · refine ⟨_, (h₆ s hs hsid).1, ?_, ?_⟩
        · intro sid hmem
          simp only [List.mem_cons, Call.onPoiSelected.injEq, List.mem_singleton,
            List.mem_nil_iff, or_false, false_or, reduceCtorEq] at hmem
          exact ⟨c, h₁, hmem⟩
        · intro sid hmem
          simp only [List.mem_cons, Call.onPoiDeselected.injEq, List.mem_singleton,
            List.mem_nil_iff, or_false, false_or, reduceCtorEq] at hmem
          exact ⟨s, rfl, hmem⟩

/-- The selection of a reachable state is what the last `pick` that hit
something returned, and it was registered in the state in which that `pick` was
called; only calls of `addGeoEntity`, `removeGeoEntity` and `placeCamera` have
followed. -/
theorem selection_invariant (env : Env D) (m₀ m : GeoSceneManager D)
    (h₀ : m₀.mSelected = none) (h : ReachablePick env m₀ m) :
    ∀ s, m.mSelected = some s →
      ∃ m₁ screenX screenY,
        ReachablePick env m₀ m₁ ∧
        (pick env m₁ screenX screenY).1 = some s ∧
        (∃ k, m₁.mGeoEntities.find k = some (some s)) ∧
        Reachable env (pick env m₁ screenX screenY).2 m := by
  induction h with
  | start => intro s hs; rw [h₀] at hs; exact absurd hs (by simp)
  | @addGeoEntity a a' sid p _ hadd ih =>
    intro s hs
    rw [addGeoEntity_mSelected env a a' sid p hadd] at hs
    obtain ⟨m₁, x, y, hr, hp, hreg, hsince⟩ := ih s hs
    exact ⟨m₁, x, y, hr, hp, hreg, Reachable.addGeoEntity sid p hsince hadd⟩
  | @removeGeoEntity a sid _ ih =>
    intro s hs
    rw [removeGeoEntity_mSelected] at hs
    obtain ⟨m₁, x, y, hr, hp, hreg, hsince⟩ := ih s hs
    exact ⟨m₁, x, y, hr, hp, hreg, Reachable.removeGeoEntity sid hsince⟩
  | @placeCamera a a' coords d f _ hplace ih =>
    intro s hs
    rw [placeCamera_mSelected env a a' coords d f hplace] at hs
    obtain ⟨m₁, x, y, hr, hp, hreg, hsince⟩ := ih s hs
    exact ⟨m₁, x, y, hr, hp, hreg, Reachable.placeCamera coords d f hsince hplace⟩
  | @pick a x y hra _ =>
    intro s hs
    rcases pick_dichotomy env a x y with hp | ⟨c, hp⟩
    · rw [hp, (pickNone_spec a).2.1] at hs
      exact absurd hs (by simp)
    · have hfst : (pick env a x y).1 = some c := by rw [hp]; exact (pickSelect_spec a c).1
      have hsel : (pick env a x y).2.mSelected = some c := by
        rw [hp]; exact (pickSelect_spec a c).2.1
      rw [hsel] at hs
      obtain rfl := Option.some.inj hs
      exact ⟨a, x, y, hra, hfst, (pick_fst_registered env a x y c hfst).1, Reachable.start⟩

end GeoSceneManager

namespace geo

namespace GeoSceneManager

open dma.GeoSceneManager

variable {D : Type} [LinearOrderedField D]

/-- The entities of the scene after `setOrigin` (engine/geo variant). -/
theorem engine_setOrigin_scene (env : Env D) (m : dma.GeoSceneManager D) (lat lng : D) :
    (setOrigin env m lat lng).mScene = m.mScene := by
  have hloop : ∀ (l : List Nat) (s : dma.GeoSceneManager D),
      (l.foldl (fun s e => setCoords env s e (s.heap e).mCoords) s).mScene = s.mScene := by
    intro l
    induction l with
    | nil => intro s; rfl
    | cons e rest ih => intro s; exact (ih _).trans rfl
  simp only [setOrigin]
  rw [hloop]

theorem engine_placeCameraShift_scene (env : Env D) (m : dma.GeoSceneManager D)
    (coords : LatLngAlt D) :
    (placeCameraShift env m coords).mScene.mEntities = m.mScene.mEntities := by
  unfold placeCameraShift
  split_ifs
  · show (setOrigin env m coords.lat coords.lng).mScene.mEntities = _
    rw [engine_setOrigin_scene]
  · rfl

/-- The block `if (x0 != mLastX or y0 != mLastY)` of `placeCamera` (engine/geo
variant) runs to its end only if the tile is unchanged or every registry value is
a non-null entity in range of `(x0, y0)`; the scene then holds the entities it
held. -/
theorem engine_placeCameraMove_eq_some (env : Env D) (m : dma.GeoSceneManager D)
    (coords : LatLngAlt D) (x0 y0 : Int) (m₃ : dma.GeoSceneManager D)
    (h : placeCameraMove env m coords x0 y0 = some m₃) :
    m₃.mScene.mEntities = m.mScene.mEntities ∧
    ((x0 = m.mLastX ∧ y0 = m.mLastY) ∨
      ∀ k p, m.mGeoEntities.find k = some p →
        ∃ e, p = some e ∧ dma.GeoSceneManager.inRange env m e x0 y0 = true) := by
  unfold placeCameraMove at h
  split_ifs at h with hmove
  · obtain ⟨h1, h2⟩ := engine_placeCameraEntities_eq_some env x0 y0 _ _ m₃ h
    have hk : Keeps m (tileMapUpdate env (placeCameraShift env m coords) x0 y0) :=
      (engine_placeCameraShift_keeps env m coords).trans ⟨rfl, rfl, rfl, rfl, rfl, fun _ => rfl⟩
    refine ⟨?_, Or.inr ?_⟩
    · rw [h1]
      exact engine_placeCameraShift_scene env m coords
    · intro k p hk'
      have hmem : (k, p) ∈ (tileMapUpdate env (placeCameraShift env m coords)
          x0 y0).mGeoEntities.entries := by
        rw [hk.mGeoEntities]
        exact (Registry.mem_entries_iff _ k p).mpr hk'
      obtain ⟨e, he, hr⟩ := h2 (k, p) hmem
      exact ⟨e, he, by rw [← hk.inRange env e]; exact hr⟩
  · simp only [Option.some.injEq] at h
    subst h
    refine ⟨rfl, Or.inl ?_⟩
    constructor
    · by_contra hx; exact hmove (Or.inl hx)
    · by_contra hy; exact hmove (Or.inr hy)

end GeoSceneManager

end geo

end dma

/-! ## The state after an origin shift in `placeCamera` (geo variant) -/

namespace dma

namespace GeoSceneManager

variable {D : Type} [LinearOrderedField D]

/-- The block `if (x0 != mLastX or y0 != mLastY)` of `placeCamera` when it shifts
the Origin and runs to its end: the tile map is the one `update(x0, y0)` returns,
the camera has been set with no animation to `mapPosition` of the recorded camera
coordinates against the new Origin, and the heap is the one `setOrigin` leaves. -/
theorem placeCameraMove_shift_state (env : Env D) (m : GeoSceneManager D)
    (coords : LatLngAlt D) (x0 y0 : Int) (m₃ : GeoSceneManager D)
    (hmove : x0 ≠ m.mLastX ∨ y0 ≠ m.mLastY)
    (hfar : env.slc ⟨coords.lat, coords.lng⟩ m.mOrigin > 8000)
    (h : placeCameraMove env m coords x0 y0 = some m₃) :
    m₃.mTileMap = env.update m.mTileMap x0 y0 ∧
    m₃.mScene.mCamera = m.mScene.mCamera.setPosition
      (mapPositionCoords env (setOrigin env m coords.lat coords.lng) m.mCameraCoords) none ∧
    m₃.heap = (setOrigin env m coords.lat coords.lng).heap := by
  have hfar' : env.slc ⟨coords.lat, coords.lng⟩ m.mOrigin > (ORIGIN_SHIFTING_TRESHOLD : D) := by
    rw [threshold_cast]; exact hfar
  have hshift : placeCameraShift env m coords =
      (setOrigin env m coords.lat coords.lng).cameraSetPosition
        (mapPositionCoords env (setOrigin env m coords.lat coords.lng)
          (setOrigin env m coords.lat coords.lng).mCameraCoords) none := by
    unfold placeCameraShift
    rw [if_pos hfar']
  unfold placeCameraMove at h
  rw [if_pos hmove] at h
  obtain ⟨_, _, ht, hc, hh, _, _⟩ := placeCameraEntities_spec env x0 y0 _ _ m₃ h
  obtain ⟨hk, _, hs, htm, _⟩ := setOrigin_spec env m coords.lat coords.lng
  refine ⟨?_, ?_, ?_⟩
  · rw [ht]
    show env.update (placeCameraShift env m coords).mTileMap x0 y0 = _
    rw [hshift]
    show env.update (setOrigin env m coords.lat coords.lng).mTileMap x0 y0 = _
    rw [htm]
  · rw [hc]
    show (placeCameraShift env m coords).mScene.mCamera = _
    rw [hshift]
    show (setOrigin env m coords.lat coords.lng).mScene.mCamera.setPosition _ none = _
    rw [hs, hk.mCameraCoords]
  · rw [hh]
    show (placeCameraShift env m coords).heap = _
    rw [hshift]
    rfl

end GeoSceneManager

end dma

/-! ## The claims

### Registry operations (C1 to C5) -/

namespace dma

open GeoSceneManager

variable {D : Type}

/-- C1 (as amended). In the geo variant, when key `k` is registered with `old`
and a non-null entity `new` is added under `k`: the call returns; `old` is in
the render scene afterwards only if it is `new` itself and the tile index of
`new` is in range of the last-known centre; `new` is in the render scene
afterwards exactly when its tile index is in range, or it was in the scene
before and is not `old`; the registry maps `k` to `new`; and the number of
registry entries is unchanged. -/
theorem addGeoEntity_replaces_registered (env : Env D) (m : GeoSceneManager D) (k : String)
    (old : GeoEntityPtr) (new : Nat) (h : m.mGeoEntities.find k = some old) :
    ∃ m', addGeoEntity env m k (some new) = some m' ∧
      (∀ o, old = some o →
        (o ∈ m'.mScene.mEntities ↔
          o = new ∧
            inRange env m new m.mLastX m.mLastY = true)) ∧
      (new ∈ m'.mScene.mEntities ↔
        inRange env m new m.mLastX m.mLastY = true
          ∨ (new ∈ m.mScene.mEntities ∧ old ≠ some new)) ∧
      m'.mGeoEntities.find k = some (some new) ∧
      m'.mGeoEntities.size = m.mGeoEntities.size := by
  unfold inRange
  refine ⟨_, addGeoEntity_of_registered env m k old new h, ?_, ?_, ?_, ?_⟩
  · intro o ho
    subst ho
    cases hr : env.isInRange (tileIndex env m new).1 (tileIndex env m new).2 m.mLastX m.mLastY
    · simp [Scene.mem_removeEntity]
    · simp only [if_true, Scene.mem_addEntity, Scene.mem_removeEntity, ne_eq, not_true_eq_false,
        and_false, false_or, and_true]
  · cases hr : env.isInRange (tileIndex env m new).1 (tileIndex env m new).2 m.mLastX m.mLastY
    · simp [Scene.mem_removeEntity]
    · simp [Scene.mem_addEntity]
  · split_ifs <;> exact Registry.find_assign_self _ _ _
  · have h1 := Registry.size_erase_of_present m.mGeoEntities k old h
    have h2 := Registry.size_assign_of_absent (m.mGeoEntities.erase k) k (some new)
      (Registry.find_erase_self _ _)
    split_ifs <;> simp only [] <;> omega

/-- Witness for C1: `"a"` is registered with the entity at `50`; the entity at `51`
(tile `(51, 51)`, in range of `(50, 50)`) replaces it. -/
theorem addGeoEntity_replaces_registered_witness :
    ∃ m', addGeoEntity Example.env Example.registered "a" (some 51) = some m' ∧
      50 ∉ m'.mScene.mEntities ∧ 51 ∈ m'.mScene.mEntities ∧
      m'.mGeoEntities.find "a" = some (some 51) ∧ m'.mGeoEntities.size = 1 := by
  obtain ⟨m', h1, h2, h3, h4, h5⟩ :=
    addGeoEntity_replaces_registered Example.env Example.registered "a" (some 50) 51
      (by decide)
  refine ⟨m', h1, ?_, ?_, h4, h5⟩
  · rw [h2 50 rfl]; decide
  · rw [h3]; exact Or.inl (by decide)

/-- Counterexample to C1 as stated: `"a"` is registered with the entity at `50`, and
the entity at `100` (tile `(100, 100)`, out of range of `(50, 50)`) is added under
`"a"`.  The registry maps `"a"` to the new entity but the scene is empty: the new
entity is not present in it. -/
theorem addGeoEntity_replacement_out_of_range_absent :
    Example.registered.mGeoEntities.find "a" = some (some 50) ∧
    (addGeoEntity Example.env Example.registered "a" (some 100)).map
        (fun m' => (m'.mGeoEntities.entries, m'.mScene.mEntities, decide (100 ∈ m'.mScene.mEntities)))
      = some ([("a", some 100)], [], false) := by
  decide!

/-- C2 (the code at the failing input). In both variants, `removeGeoEntity("a")` on
the freshly constructed manager, whose registry does not hold `"a"`, leaves the
scene as it was but inserts `"a"` with a null pointer: `hasGeoEntity("a")` is
false before the call and true after it, and the registry has one entry. -/
theorem removeGeoEntity_absent_inserts_null :
    hasGeoEntity Example.fresh "a" = false ∧
    hasGeoEntity (removeGeoEntity Example.fresh "a") "a" = true ∧
    (removeGeoEntity Example.fresh "a").mGeoEntities.entries = [("a", none)] ∧
    (removeGeoEntity Example.fresh "a").mScene = Example.fresh.mScene ∧
    (geo.GeoSceneManager.removeGeoEntity Example.fresh "a").mGeoEntities.entries
      = [("a", none)] ∧
    (geo.GeoSceneManager.removeGeoEntity Example.fresh "a").mGeoEntities.contains "a" = true := by
  decide!

/-- C3. When key `k` is registered with a non-null entity `e`, after
`removeGeoEntity(k)`: `hasGeoEntity(k)` is false; `mScene.removeEntity(e)` is the
one call made and `e` is not in the render scene; and the registry is the old one
without the entry of `k`, so the lookup of every other key is unchanged. -/
theorem removeGeoEntity_registered (m : GeoSceneManager D) (k : String) (e : Nat)
    (h : m.mGeoEntities.find k = some (some e)) :
    hasGeoEntity (removeGeoEntity m k) k = false ∧
    (removeGeoEntity m k).trace = m.trace ++ [Call.removeEntity (some e)] ∧
    e ∉ (removeGeoEntity m k).mScene.mEntities ∧
    (removeGeoEntity m k).mGeoEntities.entries
      = m.mGeoEntities.entries.filter (fun kv => decide (kv.1 ≠ k)) ∧
    (∀ k', k' ≠ k → (removeGeoEntity m k).mGeoEntities.find k' = m.mGeoEntities.find k') := by
  have hr : removeGeoEntity m k =
      { m with
        mGeoEntities := m.mGeoEntities.erase k
        mScene := m.mScene.removeEntity (some e)
        trace := m.trace ++ [Call.removeEntity (some e)] } := by
    simp only [removeGeoEntity, Registry.index_of_present _ _ _ h, sceneRemoveEntity]
  rw [hr]
  refine ⟨?_, rfl, ?_, rfl, ?_⟩
  · simp [hasGeoEntity, Registry.contains, Registry.find_erase_self]
  · simp [Scene.mem_removeEntity]
  · intro k' hk'
    exact Registry.find_erase_ne _ hk'

/-- Witness for C3: `"a"` is registered with the entity at `50`. -/
theorem removeGeoEntity_registered_witness :
    hasGeoEntity (removeGeoEntity Example.registered "a") "a" = false ∧
    50 ∉ (removeGeoEntity Example.registered "a").mScene.mEntities := by
  obtain ⟨h1, _, h3, _, _⟩ := removeGeoEntity_registered Example.registered "a" 50 (by decide)
  exact ⟨h1, h3⟩

/-- C4. In the geo variant, when the tile index of the entity `e` is not in range of
the last-known centre `(mLastX, mLastY)`, `addGeoEntity(k, e)` returns and
registers the entity (`hasGeoEntity(k)` is true and `getGeoEntity(k)` returns
`e`), and `mScene.addEntity` is not called: the calls made are none, or the one
`mScene.removeEntity` of the entity `k` was registered with before. -/
theorem addGeoEntity_out_of_range_registered_hidden (env : Env D) (m : GeoSceneManager D)
    (k : String) (e : Nat)
    (h : inRange env m e m.mLastX m.mLastY = false) :
    ∃ m', addGeoEntity env m k (some e) = some m' ∧
      hasGeoEntity m' k = true ∧
      (getGeoEntity m' k).1 = some e ∧
      (∃ calls, m'.trace = m.trace ++ calls ∧ ∀ x, Call.addEntity x ∉ calls) ∧
      (∀ x, x ∈ m'.mScene.mEntities → x ∈ m.mScene.mEntities) := by
  unfold inRange at h
  have key : ∀ (r : Registry), (r.assign k (some e)).contains k = true ∧
      ((r.assign k (some e)).index k).1 = some e := by
    intro r
    have hf := Registry.find_assign_self r k (some e)
    exact ⟨by simp [Registry.contains, hf], by rw [Registry.index_of_present _ _ _ hf]⟩
  cases hf : m.mGeoEntities.find k with
  | none =>
    refine ⟨_, addGeoEntity_of_unregistered env m k e hf, ?_, ?_, ⟨[], ?_, ?_⟩, ?_⟩
    · simp only [h, Bool.false_eq_true, if_false, hasGeoEntity, (key _).1]
    · simp [h, getGeoEntity, (key _).1, (key _).2]
    · simp [h]
    · simp
    · intro x hx
      simpa [h] using hx
  | some old =>
    refine ⟨_, addGeoEntity_of_registered env m k old e hf, ?_, ?_,
      ⟨[Call.removeEntity old], ?_, ?_⟩, ?_⟩
    · simp only [h, Bool.false_eq_true, if_false, hasGeoEntity, (key _).1]
    · simp [h, getGeoEntity, (key _).1, (key _).2]
    · simp [h]
    · simp
    · intro x hx
      simp only [h, Bool.false_eq_true, if_false] at hx
      exact ((Scene.mem_removeEntity _ _ _).mp hx).1

/-- Witness for C4: on the freshly constructed manager (centre `(-1, -1)`) the
entity at `100` has tile index `(100, 100)`, which is out of range. -/
theorem addGeoEntity_out_of_range_registered_hidden_witness :
    ∃ m', addGeoEntity Example.env Example.fresh "a" (some 100) = some m' ∧
      hasGeoEntity m' "a" = true ∧ (getGeoEntity m' "a").1 = some 100 ∧
      100 ∉ m'.mScene.mEntities := by
  obtain ⟨m', h1, h2, h3, _, h5⟩ :=
    addGeoEntity_out_of_range_registered_hidden Example.env Example.fresh "a" 100 (by decide)
  exact ⟨m', h1, h2, h3, fun hx => absurd (h5 100 hx) (by decide)⟩

/-- In the engine/geo variant, when the tile index of the non-null entity `e` is
not in range of the last-known centre, `addGeoEntity(k, e)` returns without
registering `e` or adding it to the scene.  When `k` was not registered, nothing
changes at all.  When `k` was registered with `old`, the replacement step has run
before the range check: `old` has been removed from the scene and the entry of
`k` erased, so `k` is no longer registered. -/
theorem geo_addGeoEntity_out_of_range (env : Env D) (m : GeoSceneManager D) (k : String)
    (e : Nat) (h : inRange env m e m.mLastX m.mLastY = false) :
    (m.mGeoEntities.find k = none → geo.GeoSceneManager.addGeoEntity env m k (some e) = some m) ∧
    (∀ old, m.mGeoEntities.find k = some old →
      ∃ m', geo.GeoSceneManager.addGeoEntity env m k (some e) = some m' ∧
        m'.mGeoEntities = m.mGeoEntities.erase k ∧
        m'.mGeoEntities.contains k = false ∧
        m'.mScene = m.mScene.removeEntity old ∧
        m'.trace = m.trace ++ [Call.removeEntity old]) := by
  unfold inRange at h
  constructor
  · intro hf
    have hc : m.mGeoEntities.contains k = false := by simp [Registry.contains, hf]
    simp [geo.GeoSceneManager.addGeoEntity, hc, h]
  · intro old hf
    have hc : m.mGeoEntities.contains k = true := by simp [Registry.contains, hf]
    refine ⟨{ m with
        mGeoEntities := m.mGeoEntities.erase k
        mScene := m.mScene.removeEntity old
        trace := m.trace ++ [Call.removeEntity old] }, ?_, rfl, ?_, rfl, rfl⟩
    · simp only [geo.GeoSceneManager.addGeoEntity, hc, if_true,
        Registry.index_of_present _ _ _ hf, sceneRemoveEntity, tileIndex] at h ⊢
      simp [h]
    · simp [Registry.contains, Registry.find_erase_self]

/-- On the freshly constructed manager of the engine/geo variant, adding the entity
at `100` (out of range of the centre `(-1, -1)`) under the unregistered key `"a"`
changes nothing. -/
theorem geo_addGeoEntity_out_of_range_witness :
    geo.GeoSceneManager.addGeoEntity Example.env Example.fresh "a" (some 100)
      = some Example.fresh :=
  (geo_addGeoEntity_out_of_range Example.env Example.fresh "a" 100 (by decide)).1 (by decide)

/-- C5 (the code at the failing input). In the engine/geo variant, `"a"` is
registered with the entity at `50`, which is in the scene; `addGeoEntity("a", e)`
for the entity `e` at `100`, out of range of the centre `(50, 50)`, is rejected,
yet the registry and the scene are both empty afterwards: the replacement block
has removed the old entity before the range check rejected the new one. -/
theorem geo_addGeoEntity_rejected_replacement_changes_state :
    Example.registered.mGeoEntities.entries = [("a", some 50)] ∧
    Example.registered.mScene.mEntities = [50] ∧
    inRange Example.env Example.registered 100 Example.registered.mLastX
      Example.registered.mLastY = false ∧
    (geo.GeoSceneManager.addGeoEntity Example.env Example.registered "a" (some 100)).map
        (fun m' => (m'.mGeoEntities.entries, m'.mScene.mEntities)) = some ([], []) := by
  decide!

variable [LinearOrderedField D]

/-! ### Camera placement (C7 to C10) -/

/-- C7 (as amended). `placeCamera(coords, duration, function)` returns whenever no
registry value is null, and when it returns it has called
`setOrigin(coords.lat, coords.lng)` if and only if the target tile differs from
the last-known centre and the distance `slc` from the target to the current Origin
is strictly greater than 8000.  In that case the Origin is the target afterwards;
otherwise `setOrigin` is not called at all and the Origin is unchanged, in
particular at a distance of exactly 8000. -/
theorem placeCamera_shifts_origin_iff (env : Env D) (m : GeoSceneManager D)
    (coords : LatLngAlt D) (d : D) (f : TranslationFunction) :
    ((∀ k, m.mGeoEntities.find k ≠ some none) → (placeCamera env m coords d f).isSome = true) ∧
    ∀ m', placeCamera env m coords d f = some m' →
      ∃ calls, m'.trace = m.trace ++ calls ∧
        (Call.setOrigin coords.lat coords.lng ∈ calls ↔
          (env.lng2tilex coords.lng ZOOM_LEVEL ≠ m.mLastX ∨
              env.lat2tiley coords.lat ZOOM_LEVEL ≠ m.mLastY) ∧
            env.slc ⟨coords.lat, coords.lng⟩ m.mOrigin > 8000) ∧
        (Call.setOrigin coords.lat coords.lng ∈ calls → m'.mOrigin = ⟨coords.lat, coords.lng⟩) ∧
        (Call.setOrigin coords.lat coords.lng ∉ calls →
          m'.mOrigin = m.mOrigin ∧ ∀ lat lng, Call.setOrigin lat lng ∉ calls) ∧
        (env.slc ⟨coords.lat, coords.lng⟩ m.mOrigin = 8000 →
          ∀ lat lng, Call.setOrigin lat lng ∉ calls) := by
  refine ⟨fun hreg => placeCamera_isSome env m coords d f (Or.inr hreg), fun m' h => ?_⟩
  obtain ⟨_, _, _, _, _, ho, htr, _⟩ := placeCamera_spec env m coords d f m' h
  refine ⟨_, htr, ?_⟩
  have hnone : ∀ (l : List Nat) (lat lng : D),
      Call.setOrigin lat lng ∉ (l.flatMap (transitionCalls env m
        (env.lng2tilex coords.lng ZOOM_LEVEL) (env.lat2tiley coords.lat ZOOM_LEVEL))) := by
    intro l lat lng hmem
    obtain ⟨e, _, he⟩ := List.mem_flatMap.mp hmem
    rcases transitionCalls_scene_only env m _ _ e _ he with h' | h' <;> cases h'
  by_cases hmove : env.lng2tilex coords.lng ZOOM_LEVEL ≠ m.mLastX ∨
      env.lat2tiley coords.lat ZOOM_LEVEL ≠ m.mLastY
  · by_cases hfar : env.slc ⟨coords.lat, coords.lng⟩ m.mOrigin > 8000
    · have hne : env.slc ⟨coords.lat, coords.lng⟩ m.mOrigin ≠ 8000 := ne_of_gt hfar
      simp [hmove, hfar, ho, hne]
    · simp [hmove, hfar, ho, hnone]
  · by_cases hfar : env.slc ⟨coords.lat, coords.lng⟩ m.mOrigin > 8000
    · simp [hmove, hfar, ho]
    · simp [hmove, hfar, ho]

/-- Witness for C7: from the freshly constructed manager (Origin `(0, 0)`, centre
`(-1, -1)`) the camera is placed at `(100, 100)`, on another tile and 200000 m
from the Origin: the call returns and the Origin is the target. -/
theorem placeCamera_shifts_origin_iff_witness :
    ∃ m', placeCamera Example.env Example.fresh ⟨100, 100, 5⟩ 1 TranslationFunction.LINEAR
        = some m' ∧ m'.mOrigin = ⟨100, 100⟩ := by
  obtain ⟨htotal, hspec⟩ := placeCamera_shifts_origin_iff Example.env Example.fresh
    ⟨100, 100, 5⟩ 1 TranslationFunction.LINEAR
  obtain ⟨m', hm'⟩ := Option.isSome_iff_exists.mp (htotal (fun k => by
    simp [Example.fresh, construct, Registry.find, Registry.empty, Registry.findRaw]))
  obtain ⟨calls, _, hiff, hthen, _, _⟩ := hspec m' hm'
  exact ⟨m', hm', hthen (hiff.mpr (by decide!))⟩

/-- Counterexample to C7 as stated: from the freshly constructed manager the camera
is placed at `(4, 3)` (tile `(3, 4)`, 7000 m from the Origin `(0, 0)`: no shift)
and then at `(19/4, 15/4)`, on the same tile and 8500 m from the Origin.  The
distance is greater than 8000, yet the second call makes one call only, the final
`setPosition`: `setOrigin` is not called and the Origin is still `(0, 0)`. -/
theorem placeCamera_same_tile_beyond_threshold_no_shift :
    ((placeCamera Example.env Example.fresh ⟨4, 3, 0⟩ (-1) TranslationFunction.LINEAR).bind
      (fun m₁ =>
        (placeCamera Example.env m₁ ⟨19/4, 15/4, 0⟩ (-1) TranslationFunction.LINEAR).map
          (fun m₂ =>
            (m₁.mOrigin, decide (Example.env.slc ⟨19/4, 15/4⟩ m₁.mOrigin > 8000),
              m₂.trace.drop m₁.trace.length, m₂.mOrigin))))
      = some (⟨0, 0⟩, true,
          [Call.setPosition ⟨15/4, 0, 19/4⟩ (some (-1, TranslationFunction.LINEAR))],
          ⟨0, 0⟩) := by
  decide!

/-- C8. In the geo variant, when `placeCamera` moves the centre from
`(mLastX, mLastY)` to a different tile `(x0, y0)`, the call returns whenever no
registry value is null, and when it returns: the registry is unchanged, and for
every registered entity `e`, `mScene.removeEntity(e)` is among the calls made if
and only if `e` was in range of the old centre and is not in range of the new
one, and `mScene.addEntity(e)` is among them if and only if `e` was not in range
of the old centre and is in range of the new one; so neither is called for an
entity whose range membership is the same for both centres. -/
theorem placeCamera_visibility_transitions (env : Env D) (m : GeoSceneManager D)
    (coords : LatLngAlt D) (d : D) (f : TranslationFunction)
    (hmove : env.lng2tilex coords.lng ZOOM_LEVEL ≠ m.mLastX ∨
      env.lat2tiley coords.lat ZOOM_LEVEL ≠ m.mLastY) :
    ((∀ k, m.mGeoEntities.find k ≠ some none) → (placeCamera env m coords d f).isSome = true) ∧
    ∀ m', placeCamera env m coords d f = some m' →
      m'.mGeoEntities = m.mGeoEntities ∧
      ∃ calls, m'.trace = m.trace ++ calls ∧
        ∀ k e, m.mGeoEntities.find k = some (some e) →
          (Call.removeEntity (some e) ∈ calls ↔
            inRange env m e m.mLastX m.mLastY = true ∧
              inRange env m e (env.lng2tilex coords.lng ZOOM_LEVEL)
                (env.lat2tiley coords.lat ZOOM_LEVEL) = false) ∧
          (Call.addEntity e ∈ calls ↔
            inRange env m e m.mLastX m.mLastY = false ∧
              inRange env m e (env.lng2tilex coords.lng ZOOM_LEVEL)
                (env.lat2tiley coords.lat ZOOM_LEVEL) = true) ∧
          (inRange env m e m.mLastX m.mLastY =
              inRange env m e (env.lng2tilex coords.lng ZOOM_LEVEL)
                (env.lat2tiley coords.lat ZOOM_LEVEL) →
            Call.removeEntity (some e) ∉ calls ∧ Call.addEntity e ∉ calls) := by
  refine ⟨fun hreg => placeCamera_isSome env m coords d f (Or.inr hreg), fun m' h => ?_⟩
  obtain ⟨hreg, _, _, _, _, _, htr, _⟩ := placeCamera_spec env m coords d f m' h
  obtain ⟨calls, hcalls, htr'⟩ : ∃ calls, calls = _ ∧ m'.trace = m.trace ++ calls :=
    ⟨_, rfl, htr⟩
  refine ⟨hreg, calls, htr', fun k e hk => ?_⟩
  have hval : e ∈ m.mGeoEntities.entries.filterMap Prod.snd :=
    (Registry.mem_values_iff _ e).mpr ⟨k, hk⟩
  have hrem : Call.removeEntity (some e) ∈
      (m.mGeoEntities.entries.filterMap Prod.snd).flatMap (transitionCalls env m
        (env.lng2tilex coords.lng ZOOM_LEVEL) (env.lat2tiley coords.lat ZOOM_LEVEL)) ↔
      inRange env m e m.mLastX m.mLastY = true ∧
        inRange env m e (env.lng2tilex coords.lng ZOOM_LEVEL)
          (env.lat2tiley coords.lat ZOOM_LEVEL) = false := by
    rw [List.mem_flatMap]
    constructor
    · rintro ⟨e', _, he'⟩
      obtain ⟨he, h1, h2⟩ := (mem_transitionCalls_removeEntity env m _ _ e' _).mp he'
      cases he
      exact ⟨h1, h2⟩
    · intro h'
      exact ⟨e, hval, (mem_transitionCalls_removeEntity env m _ _ e _).mpr ⟨rfl, h'⟩⟩
  have hadd : Call.addEntity e ∈
      (m.mGeoEntities.entries.filterMap Prod.snd).flatMap (transitionCalls env m
        (env.lng2tilex coords.lng ZOOM_LEVEL) (env.lat2tiley coords.lat ZOOM_LEVEL)) ↔
      inRange env m e m.mLastX m.mLastY = false ∧
        inRange env m e (env.lng2tilex coords.lng ZOOM_LEVEL)
          (env.lat2tiley coords.lat ZOOM_LEVEL) = true := by
    rw [List.mem_flatMap]
    constructor
    · rintro ⟨e', _, he'⟩
      obtain ⟨he, h1, h2⟩ := (mem_transitionCalls_addEntity env m _ _ e' _).mp he'
      cases he
      exact ⟨h1, h2⟩
    · intro h'
      exact ⟨e, hval, (mem_transitionCalls_addEntity env m _ _ e _).mpr ⟨rfl, h'⟩⟩
  have h1 : Call.removeEntity (some e) ∈ calls ↔
      inRange env m e m.mLastX m.mLastY = true ∧
        inRange env m e (env.lng2tilex coords.lng ZOOM_LEVEL)
          (env.lat2tiley coords.lat ZOOM_LEVEL) = false := by
    rw [hcalls, List.mem_append]
    simp only [hmove, if_true]
    rw [List.mem_append, List.mem_cons, hrem]
    constructor
    · rintro ((h' | h' | h') | h')
      · split_ifs at h' <;> simp at h'
      · cases h'
      · exact h'
      · simp at h'
    · exact fun h' => Or.inl (Or.inr (Or.inr h'))
  have h2 : Call.addEntity e ∈ calls ↔
      inRange env m e m.mLastX m.mLastY = false ∧
        inRange env m e (env.lng2tilex coords.lng ZOOM_LEVEL)
          (env.lat2tiley coords.lat ZOOM_LEVEL) = true := by
    rw [hcalls, List.mem_append]
    simp only [hmove, if_true]
    rw [List.mem_append, List.mem_cons, hadd]
    constructor
    · rintro ((h' | h' | h') | h')
      · split_ifs at h' <;> simp at h'
      · cases h'
      · exact h'
      · simp at h'
    · exact fun h' => Or.inl (Or.inr (Or.inr h'))
  refine ⟨h1, h2, fun heq => ?_⟩
  rw [h1, h2, heq]
  constructor <;> rintro ⟨ha, hb⟩ <;> rw [ha] at hb <;> cases hb

/-- Witness for C8: `"a"` is registered with the entity at `50`, in range of the
centre `(50, 50)`; the camera is placed on tile `(100, 100)`, of which it is out
of range: the call returns, the registry is unchanged and
`mScene.removeEntity` is called for the entity. -/
theorem placeCamera_visibility_transitions_witness :
    ∃ m' calls,
      placeCamera Example.env Example.registered ⟨100, 100, 0⟩ (-1) TranslationFunction.LINEAR
        = some m' ∧
      m'.mGeoEntities = Example.registered.mGeoEntities ∧
      m'.trace = Example.registered.trace ++ calls ∧
      Call.removeEntity (some 50) ∈ calls ∧ Call.addEntity 50 ∉ calls := by
  obtain ⟨htotal, hspec⟩ := placeCamera_visibility_transitions Example.env Example.registered
    ⟨100, 100, 0⟩ (-1) TranslationFunction.LINEAR (by decide!)
  obtain ⟨m', hm'⟩ := Option.isSome_iff_exists.mp (htotal (by
    intro k
    simp only [Example.registered, Registry.find, Registry.findRaw]
    split_ifs <;> simp))
  obtain ⟨hreg, calls, htr, hcalls⟩ := hspec m' hm'
  obtain ⟨h1, h2, _⟩ := hcalls "a" 50 (by decide)
  exact ⟨m', calls, hm', hreg, htr, h1.mpr (by decide!), fun h => absurd (h2.mp h) (by decide!)⟩

/-- C9. When `placeCamera(coords, d, f)` performs an origin shift (the target tile
differs from the last-known centre and the target is more than 8000 m from the
Origin), the call returns whenever no registry value is null, and when it returns
the Origin is the target and the calls made are, in this order: `setOrigin` with
the target; the `setCoords` of every scene entity; `camera.setPosition`, with no
animation, to `mapPosition` of the previously recorded camera coordinates against
the new Origin; `mTileMap.update(x0, y0)`; the `removeEntity` and `addEntity`
calls of the visibility transitions; and last `camera.setPosition` to
`mapPosition(coords)` against the new Origin with the caller's `d` and `f`.  The
state after the call carries these effects: the tile map is the one
`update(x0, y0)` returns for the tile map before the call; the camera is the one
before the call with the two `setPosition` calls applied in this order; every
entity that was in the scene has the local position `mapPosition` of its
coordinates against the new Origin and any other object is untouched; the scene
holds the entities the visibility transitions leave; the recorded camera
coordinates are `coords` and the last-known centre is `(x0, y0)`; the registry is
unchanged. -/
theorem placeCamera_origin_shift_order (env : Env D) (m : GeoSceneManager D)
    (coords : LatLngAlt D) (d : D) (f : TranslationFunction)
    (hmove : env.lng2tilex coords.lng ZOOM_LEVEL ≠ m.mLastX ∨
      env.lat2tiley coords.lat ZOOM_LEVEL ≠ m.mLastY)
    (hfar : env.slc ⟨coords.lat, coords.lng⟩ m.mOrigin > 8000) :
    ((∀ k, m.mGeoEntities.find k ≠ some none) → (placeCamera env m coords d f).isSome = true) ∧
    ∀ m', placeCamera env m coords d f = some m' →
      m'.mOrigin = ⟨coords.lat, coords.lng⟩ ∧
      (∃ transitions,
        (∀ c ∈ transitions, (∃ e, c = Call.removeEntity (some e)) ∨ (∃ e, c = Call.addEntity e)) ∧
        m'.trace = m.trace ++
          ([Call.setOrigin coords.lat coords.lng] ++
            m.mScene.mEntities.map (fun e => Call.setCoords e (m.heap e).mCoords) ++
            [Call.setPosition (mapPositionCoords env m' m.mCameraCoords) none,
              Call.update (env.lng2tilex coords.lng ZOOM_LEVEL)
                (env.lat2tiley coords.lat ZOOM_LEVEL)] ++
            transitions ++
            [Call.setPosition (mapPositionCoords env m' coords) (some (d, f))])) ∧
      m'.mTileMap = env.update m.mTileMap (env.lng2tilex coords.lng ZOOM_LEVEL)
        (env.lat2tiley coords.lat ZOOM_LEVEL) ∧
      m'.mScene.mCamera =
        (m.mScene.mCamera.setPosition (mapPositionCoords env m' m.mCameraCoords) none).setPosition
          (mapPositionCoords env m' coords) (some (d, f)) ∧
      (∀ e ∈ m.mScene.mEntities,
        (m'.heap e).mCoords = (m.heap e).mCoords ∧
        (m'.heap e).mPosition = mapPositionCoords env m' (m.heap e).mCoords) ∧
      (∀ e, e ∉ m.mScene.mEntities → m'.heap e = m.heap e) ∧
      (∀ x, x ∈ m'.mScene.mEntities ↔
        (x ∈ m.mScene.mEntities ∧
          ¬ (x ∈ m.mGeoEntities.entries.filterMap Prod.snd ∧
              inRange env m x m.mLastX m.mLastY = true ∧
              inRange env m x (env.lng2tilex coords.lng ZOOM_LEVEL)
                (env.lat2tiley coords.lat ZOOM_LEVEL) = false)) ∨
        (x ∈ m.mGeoEntities.entries.filterMap Prod.snd ∧
          inRange env m x m.mLastX m.mLastY = false ∧
          inRange env m x (env.lng2tilex coords.lng ZOOM_LEVEL)
            (env.lat2tiley coords.lat ZOOM_LEVEL) = true)) ∧
      m'.mCameraCoords = coords ∧
      m'.mLastX = env.lng2tilex coords.lng ZOOM_LEVEL ∧
      m'.mLastY = env.lat2tiley coords.lat ZOOM_LEVEL ∧
      m'.mGeoEntities = m.mGeoEntities := by
  refine ⟨fun hreg => placeCamera_isSome env m coords d f (Or.inr hreg), fun m' h => ?_⟩
  obtain ⟨hreg, hcoords, hcc, hlx, hly, ho, htr, hscene⟩ := placeCamera_spec env m coords d f m' h
  have ho' : m'.mOrigin = ⟨coords.lat, coords.lng⟩ := by
    rw [ho, if_pos ⟨hmove, hfar⟩]
  obtain ⟨m₃, hm₃, hm'⟩ := placeCamera_eq_some env m coords d f m' h
  obtain ⟨htile, hcam, hheap⟩ := placeCameraMove_shift_state env m coords _ _ m₃ hmove hfar hm₃
  obtain ⟨hin, hout⟩ := setOrigin_heap env m coords.lat coords.lng
  have hso : (setOrigin env m coords.lat coords.lng).mOrigin = m'.mOrigin := by
    rw [ho', (setOrigin_spec env m coords.lat coords.lng).2.1]
  have hm₃o : m₃.mOrigin = m'.mOrigin := by rw [hm']; rfl
  have hm'heap : m'.heap = (setOrigin env m coords.lat coords.lng).heap := by
    rw [hm']; exact hheap
  refine ⟨ho', ⟨(m.mGeoEntities.entries.filterMap Prod.snd).flatMap (transitionCalls env m
      (env.lng2tilex coords.lng ZOOM_LEVEL) (env.lat2tiley coords.lat ZOOM_LEVEL)), ?_, ?_⟩,
    ?_, ?_, ?_, ?_, ?_, hcc, hlx, hly, hreg⟩
  · intro c hc
    obtain ⟨e, _, he⟩ := List.mem_flatMap.mp hc
    rcases transitionCalls_scene_only env m _ _ e c he with h' | h'
    · exact Or.inl ⟨e, h'⟩
    · exact Or.inr ⟨e, h'⟩
  · rw [htr, if_pos hmove, if_pos hfar]
    simp [mapPositionCoords, mapPosition, ho']
  · rw [hm']; exact htile
  · rw [← mapPositionCoords_of_origin env hso m.mCameraCoords,
      ← mapPositionCoords_of_origin env hm₃o coords]
    rw [hm']
    show (m₃.mScene.mCamera.setPosition _ (some (d, f))) = _
    rw [hcam]
    rfl
  · intro e he
    refine ⟨hcoords e, ?_⟩
    rw [hm'heap, hin e he]
    exact mapPositionCoords_of_origin env hso _
  · intro e he
    rw [hm'heap]
    exact hout e he
  · intro x
    have := hscene x
    rw [if_pos hmove] at this
    exact this

/-- Witness for C9: from the freshly constructed manager (Origin `(0, 0)`, camera
coordinates `(0, 0, 0)`, centre `(-1, -1)`, empty scene and registry, no tile) the
camera is placed at `(100, 100, 5)` with no animation.  The tile map ends
recentred on the tile `(100, 100)` and the camera at `(0, 5, 0)`, the position of
the target against the new Origin. -/
theorem placeCamera_origin_shift_order_witness :
    ∃ m', placeCamera Example.recentring Example.fresh ⟨100, 100, 5⟩ (-1)
        TranslationFunction.LINEAR = some m' ∧
      m'.mOrigin = ⟨100, 100⟩ ∧
      m'.trace = [Call.setOrigin 100 100, Call.setPosition ⟨-100, 0, -100⟩ none,
        Call.update 100 100,
        Call.setPosition ⟨0, 5, 0⟩ (some (-1, TranslationFunction.LINEAR))] ∧
      m'.mTileMap = ⟨[⟨⟨100, 100, 0⟩, true, ⟨0, 0, 0⟩, 1, 1⟩]⟩ ∧
      m'.mScene.mCamera.mPosition = ⟨0, 5, 0⟩ ∧
      m'.mCameraCoords = ⟨100, 100, 5⟩ ∧ m'.mLastX = 100 ∧ m'.mLastY = 100 := by
  obtain ⟨htotal, hspec⟩ := placeCamera_origin_shift_order Example.recentring Example.fresh
    ⟨100, 100, 5⟩ (-1) TranslationFunction.LINEAR (by decide!) (by decide!)
  obtain ⟨m', hm'⟩ := Option.isSome_iff_exists.mp (htotal (fun k => by
    simp [Example.fresh, construct, Registry.find, Registry.empty, Registry.findRaw]))
  refine ⟨m', hm', (hspec m' hm').1, ?_⟩
  have hval₁ : (placeCamera Example.recentring Example.fresh ⟨100, 100, 5⟩ (-1)
      TranslationFunction.LINEAR).map (fun s => (s.trace, s.mTileMap)) =
      some ([Call.setOrigin 100 100, Call.setPosition ⟨-100, 0, -100⟩ none,
        Call.update 100 100,
        Call.setPosition ⟨0, 5, 0⟩ (some (-1, TranslationFunction.LINEAR))],
        ⟨[⟨⟨100, 100, 0⟩, true, ⟨0, 0, 0⟩, 1, 1⟩]⟩) := by
    decide!
  have hval₂ : (placeCamera Example.recentring Example.fresh ⟨100, 100, 5⟩ (-1)
      TranslationFunction.LINEAR).map
        (fun s => (s.mScene.mCamera.mPosition, s.mCameraCoords, s.mLastX, s.mLastY)) =
      some (⟨0, 5, 0⟩, ⟨100, 100, 5⟩, 100, 100) := by
    decide!
  rw [hm'] at hval₁ hval₂
  have h₁ := Option.some.inj hval₁
  have h₂ := Option.some.inj hval₂
  simp only [Prod.mk.injEq] at h₁ h₂
  exact ⟨h₁.1, h₁.2, h₂⟩

/-- C10 (as amended). In the engine/geo variant, `placeCamera(coords, d, f)` returns
when the target tile is the last-known centre, or every registry value is a
non-null entity in range of the target tile.  When it returns, its last call is
`camera.setPosition` with `mapPosition(coords.lat, coords.lng, coords.alt)`
against the Origin after the call and the caller's function `f`; the duration is
the caller's `d` if the last-known centre `(mLastX, mLastY)` is in range of the
target tile `(x0, y0)`, and `-1` otherwise.  The overloads without a duration
pass `-1` and `LINEAR`. -/
theorem geo_placeCamera_final_setPosition (env : Env D) (m : GeoSceneManager D)
    (coords : LatLngAlt D) (d : D) (f : TranslationFunction) :
    (((env.lng2tilex coords.lng ZOOM_LEVEL = m.mLastX ∧
          env.lat2tiley coords.lat ZOOM_LEVEL = m.mLastY) ∨
        ∀ k p, m.mGeoEntities.find k = some p →
          ∃ e, p = some e ∧
            inRange env m e (env.lng2tilex coords.lng ZOOM_LEVEL)
              (env.lat2tiley coords.lat ZOOM_LEVEL) = true) →
      (geo.GeoSceneManager.placeCamera env m coords d f).isSome = true) ∧
    (∀ m', geo.GeoSceneManager.placeCamera env m coords d f = some m' →
      m'.trace.getLast? =
        some (Call.setPosition
          (geo.GeoSceneManager.mapPosition env m' coords.lat coords.lng coords.alt)
          (some
            (if env.isInRange m.mLastX m.mLastY (env.lng2tilex coords.lng ZOOM_LEVEL)
                (env.lat2tiley coords.lat ZOOM_LEVEL) = true then d else -1, f)))) ∧
    (∀ m', geo.GeoSceneManager.placeCameraLatLngAlt env m coords = some m' →
      m'.trace.getLast? =
        some (Call.setPosition
          (geo.GeoSceneManager.mapPosition env m' coords.lat coords.lng coords.alt)
          (some (-1, TranslationFunction.LINEAR)))) ∧
    (∀ m', geo.GeoSceneManager.placeCameraLatLng env m ⟨coords.lat, coords.lng⟩ = some m' →
      m'.trace.getLast? =
        some (Call.setPosition
          (geo.GeoSceneManager.mapPosition env m' coords.lat coords.lng
            m.mScene.mCamera.mPosition.y)
          (some (-1, TranslationFunction.LINEAR)))) := by
  refine ⟨fun h => ?_, fun m' h => geo.GeoSceneManager.engine_placeCamera_last_call env m coords d f m' h,
    fun m' h => ?_, fun m' h => ?_⟩
  · obtain ⟨m₃, hm₃⟩ := Option.isSome_iff_exists.mp
      (geo.GeoSceneManager.engine_placeCameraMove_isSome env m coords _ _ h)
    simp [geo.GeoSceneManager.placeCamera, hm₃]
  · have := geo.GeoSceneManager.engine_placeCamera_last_call env m _ _ _ m' h
    simpa using this
  · have := geo.GeoSceneManager.engine_placeCamera_last_call env m _ _ _ m' h
    simpa using this

/-- Witness for C10: the centre is `(50, 50)` and nothing is registered; the camera
is placed at `(51, 51, 5)` with duration `1`.  The old centre is in range of the
new one, so the final call carries the caller's duration. -/
theorem geo_placeCamera_final_setPosition_witness :
    ∃ m', geo.GeoSceneManager.placeCamera Example.env Example.placed ⟨51, 51, 5⟩ 1
        TranslationFunction.EASE = some m' ∧
      m'.trace.getLast? =
        some (Call.setPosition ⟨2000, 5, 0⟩ (some (1, TranslationFunction.EASE))) := by
  obtain ⟨htotal, hlast, _, _⟩ := geo_placeCamera_final_setPosition Example.env Example.placed
    ⟨51, 51, 5⟩ 1 TranslationFunction.EASE
  obtain ⟨m', hm'⟩ := Option.isSome_iff_exists.mp (htotal (Or.inr (fun k p hk => by
    simp [Example.placed, Example.fresh, construct, Registry.find, Registry.empty,
      Registry.findRaw] at hk)))
  refine ⟨m', hm', ?_⟩
  have hval : (geo.GeoSceneManager.placeCamera Example.env Example.placed ⟨51, 51, 5⟩ 1
      TranslationFunction.EASE).map (fun s => s.trace.getLast?) =
      some (some (Call.setPosition ⟨2000, 5, 0⟩ (some (1, TranslationFunction.EASE)))) := by
    decide!
  rw [hm'] at hval
  exact Option.some.inj hval

/-- Counterexample to C10 as stated: on the freshly constructed manager (centre
`(-1, -1)`, nothing registered) the three-argument `placeCamera` is called with
the duration `1 ≥ 0`, for the target `(3, 3, 5)` on tile `(3, 3)`.  The centre
`(-1, -1)` is not in range of `(3, 3)`, and the final `camera.setPosition` call
receives the duration `-1`, not `1`. -/
theorem geo_placeCamera_far_target_not_animated :
    (0 : ℚ) ≤ 1 ∧
    (geo.GeoSceneManager.placeCamera Example.env Example.fresh ⟨3, 3, 5⟩ 1
        TranslationFunction.EASE).map (fun s => s.trace)
      = some [Call.update 3 3,
          Call.setPosition ⟨6000, 5, 0⟩ (some (-1, TranslationFunction.EASE))] := by
  decide!

/-! ### The window invariant (C6) -/

/-- C6 (as amended). In the geo variant, start from the freshly constructed manager
(centre `(-1, -1)`, empty registry, no entity in the scene) and make any sequence
of `addGeoEntity`, `removeGeoEntity` and `placeCamera` calls that return, in
which `addGeoEntity` is never given an entity that is registered under another
key at that time.  In every state so reached the coordinates of every entity are
the initial ones, and an entity is present in the render scene if and only if it
is registered and its tile index is in range of the last-known centre
`(mLastX, mLastY)`. -/
theorem window_invariant_of_unshared (env : Env D) (origin : LatLng D)
    (cameraCoords : LatLngAlt D) (camera : Camera D) (tileMap : TileMap D)
    (heap : Nat → GeoEntity D) (materials : Nat → Material D) (m : GeoSceneManager D)
    (h : ReachableUnshared env
      (construct origin cameraCoords ⟨[], camera⟩ tileMap heap materials) m) :
    (∀ e, (m.heap e).mCoords = (heap e).mCoords) ∧
    ∀ e, e ∈ m.mScene.mEntities ↔
      (∃ k, m.mGeoEntities.find k = some (some e)) ∧
        inRange env m e m.mLastX m.mLastY = true := by
  suffices hj : (∀ e, (m.heap e).mCoords = (heap e).mCoords) ∧ SceneShowsWindow env m ∧
      Unshared m from ⟨hj.1, hj.2.1⟩
  induction h with
  | start =>
    refine ⟨fun _ => rfl, fun e => ?_, fun k₁ k₂ e h₁ _ => ?_⟩
    · simp [construct, Registry.find, Registry.empty, Registry.findRaw]
    · simp [construct, Registry.find, Registry.empty, Registry.findRaw] at h₁
  | @addGeoEntity s s' sid e _ hfresh hadd ih =>
    obtain ⟨hc, hs, hu⟩ := ih
    refine ⟨?_, window_addGeoEntity env s s' sid e hs hu hfresh hadd⟩
    have hheap : s'.heap = s.heap := by
      cases hf : s.mGeoEntities.find sid with
      | none =>
        rw [addGeoEntity_of_unregistered env s sid e hf] at hadd
        rw [← Option.some.inj hadd]
        split_ifs <;> rfl
      | some old =>
        rw [addGeoEntity_of_registered env s sid old e hf] at hadd
        rw [← Option.some.inj hadd]
        split_ifs <;> rfl
    intro x
    rw [hheap]
    exact hc x
  | @removeGeoEntity s sid _ ih =>
    obtain ⟨hc, hs, hu⟩ := ih
    refine ⟨?_, window_removeGeoEntity env s sid hs hu⟩
    have hheap : (removeGeoEntity s sid).heap = s.heap := by
      simp only [removeGeoEntity]
      split <;> rfl
    intro x
    rw [hheap]
    exact hc x
  | @placeCamera s s' coords d f _ hplace ih =>
    obtain ⟨hc, hs, hu⟩ := ih
    refine ⟨?_, window_placeCamera env s s' coords d f hs hu hplace⟩
    obtain ⟨_, hcoords, _⟩ := placeCamera_spec env s coords d f s' hplace
    intro x
    rw [hcoords x]
    exact hc x

theorem some_getD_of_isSome {α : Type} (x : Option α) (d : α) (h : x.isSome = true) :
    x = some (x.getD d) := by
  cases x with
  | none => simp at h
  | some a => rfl

/-- Witness for C6: in the state reached from the freshly constructed manager by
`placeCamera((50, 50, 0))` and `addGeoEntity("a", e)` for the entity `e` at address
`50`, the entity is in the scene, and so it is registered and in range. -/
theorem window_invariant_of_unshared_witness :
    50 ∈ Example.centredA.mScene.mEntities ∧
    (∃ k, Example.centredA.mGeoEntities.find k = some (some 50)) ∧
    inRange Example.env Example.centredA 50 Example.centredA.mLastX
      Example.centredA.mLastY = true := by
  have h := (window_invariant_of_unshared Example.env ⟨0, 0⟩ ⟨0, 0, 0⟩ ⟨⟨0, 0, 0⟩⟩ ⟨[]⟩
    Example.heap Example.materials Example.centredA
    (ReachableUnshared.addGeoEntity "a" 50
      (ReachableUnshared.placeCamera ⟨50, 50, 0⟩ (-1) TranslationFunction.LINEAR
        ReachableUnshared.start
        (some_getD_of_isSome _ _ (by decide!)))
      (fun k hk => by
        have hk' : Example.centred.mGeoEntities.find k = some (some 50) := hk
        have hent : Example.centred.mGeoEntities.entries = [] := by decide!
        rw [Registry.find, hent] at hk'
        simp [Registry.findRaw] at hk')
      (some_getD_of_isSome _ _ (by decide!)))).2 50
  have hin : 50 ∈ Example.centredA.mScene.mEntities := by decide!
  exact ⟨hin, h.mp hin⟩

/-- Counterexample to C6 as stated: from the freshly constructed manager, call
`placeCamera((50, 50, 0))`, `addGeoEntity("a", e)` and `addGeoEntity("b", e)` for
the same entity `e` at address `50` (tile `(50, 50)`), then
`removeGeoEntity("a")`.  In the state reached `e` is registered under `"b"` and
its tile index is in range of the centre `(50, 50)`, but it is not in the render
scene. -/
theorem window_invariant_fails_for_shared_entity :
    Reachable Example.env Example.fresh Example.centredB ∧
    Example.centredB.mGeoEntities.find "b" = some (some 50) ∧
    inRange Example.env Example.centredB 50 Example.centredB.mLastX Example.centredB.mLastY
      = true ∧
    50 ∉ Example.centredB.mScene.mEntities := by
  refine ⟨?_, by decide!, by decide!, by decide!⟩
  exact Reachable.removeGeoEntity "a"
    (Reachable.addGeoEntity "b" (some 50)
      (Reachable.addGeoEntity "a" (some 50)
        (Reachable.placeCamera ⟨50, 50, 0⟩ (-1) TranslationFunction.LINEAR Reachable.start
          (some_getD_of_isSome _ _ (by decide!)))
        (some_getD_of_isSome _ _ (by decide!)))
      (some_getD_of_isSome _ _ (by decide!)))

/-! ### Further properties of the registry and of `placeCamera` -/

omit [LinearOrderedField D] in
/-- In both variants, for every state and every key `k` that is not in the
registry, `removeGeoEntity(k)` makes no call and leaves the scene and the lookup
of every other key as they were, but leaves one more entry in the registry: `k`
with a null pointer, so that `hasGeoEntity(k)` is true and `getGeoEntity(k)`
returns null. -/
theorem removeGeoEntity_of_unregistered (m : GeoSceneManager D) (k : String)
    (h : m.mGeoEntities.find k = none) :
    geo.GeoSceneManager.removeGeoEntity m k = removeGeoEntity m k ∧
    (removeGeoEntity m k).mScene = m.mScene ∧
    (removeGeoEntity m k).trace = m.trace ∧
    hasGeoEntity (removeGeoEntity m k) k = true ∧
    (getGeoEntity (removeGeoEntity m k) k).1 = none ∧
    (removeGeoEntity m k).mGeoEntities.size = m.mGeoEntities.size + 1 ∧
    (∀ k', k' ≠ k → (removeGeoEntity m k).mGeoEntities.find k' = m.mGeoEntities.find k') := by
  have hr : removeGeoEntity m k = { m with mGeoEntities := m.mGeoEntities.assign k none } := by
    simp only [removeGeoEntity, Registry.index_of_absent _ _ h]
  have hf := Registry.find_assign_self m.mGeoEntities k none
  refine ⟨rfl, ?_, ?_, ?_, ?_, ?_, ?_⟩
  · rw [hr]
  · rw [hr]
  · rw [hr]; simp [hasGeoEntity, Registry.contains, hf]
  · rw [hr]; simp [getGeoEntity, Registry.contains, hf, Registry.index_of_present _ _ _ hf]
  · rw [hr]; exact Registry.size_assign_of_absent _ _ _ h
  · intro k' hk'
    rw [hr]
    exact Registry.find_assign_ne _ hk' _

/-- The freshly constructed manager does not hold the key `"a"`. -/
theorem removeGeoEntity_of_unregistered_witness :
    hasGeoEntity (removeGeoEntity Example.fresh "a") "a" = true ∧
    (removeGeoEntity Example.fresh "a").mGeoEntities.size = Example.fresh.mGeoEntities.size + 1 := by
  obtain ⟨_, _, _, h4, _, h6, _⟩ := removeGeoEntity_of_unregistered Example.fresh "a" (by decide)
  exact ⟨h4, h6⟩

omit [LinearOrderedField D] in
/-- The loop of `placeCamera` (geo variant) dereferences every registry value: it
does not run to its end when one of the entries to visit holds a null pointer. -/
theorem placeCameraEntities_null (env : Env D) (x0 y0 : Int) :
    ∀ (l : List (String × GeoEntityPtr)) (m : GeoSceneManager D) (k : String),
      (k, none) ∈ l → placeCameraEntities env x0 y0 l m = none := by
  intro l
  induction l with
  | nil => intro m k hk; exact absurd hk (List.not_mem_nil _)
  | cons kv rest ih =>
    obtain ⟨k', p⟩ := kv
    intro m k hk
    cases p with
    | none => rfl
    | some e =>
      rcases List.mem_cons.mp hk with hk | hk
      · cases hk
      · simp only [placeCameraEntities]
        exact ih _ k hk

/-- In the geo variant, when the registry holds a null pointer under some key (as
`removeGeoEntity` of an unregistered key leaves it) and the target tile differs
from the last-known centre, `placeCamera` dereferences the null pointer in its
loop over the registry: the call has no defined result. -/
theorem placeCamera_null_entry (env : Env D) (m : GeoSceneManager D) (coords : LatLngAlt D)
    (d : D) (f : TranslationFunction) (k : String)
    (hnull : m.mGeoEntities.find k = some none)
    (hmove : env.lng2tilex coords.lng ZOOM_LEVEL ≠ m.mLastX ∨
      env.lat2tiley coords.lat ZOOM_LEVEL ≠ m.mLastY) :
    placeCamera env m coords d f = none := by
  have hreg : (tileMapUpdate env (placeCameraShift env m coords)
      (env.lng2tilex coords.lng ZOOM_LEVEL)
      (env.lat2tiley coords.lat ZOOM_LEVEL)).mGeoEntities = m.mGeoEntities :=
    (placeCameraShift_spec env m coords).1.mGeoEntities
  have hloop : placeCameraMove env m coords (env.lng2tilex coords.lng ZOOM_LEVEL)
      (env.lat2tiley coords.lat ZOOM_LEVEL) = none := by
    simp only [placeCameraMove, hmove, if_true]
    apply placeCameraEntities_null env _ _ _ _ k
    rw [hreg]
    exact (Registry.mem_entries_iff _ k none).mpr hnull
  simp [placeCamera, hloop]

/-- On the freshly constructed manager, `removeGeoEntity("a")` followed by
`placeCamera((50, 50, 0))` has no defined result. -/
theorem placeCamera_null_entry_witness :
    placeCamera Example.env (removeGeoEntity Example.fresh "a") ⟨50, 50, 0⟩ (-1)
      TranslationFunction.LINEAR = none :=
  placeCamera_null_entry Example.env (removeGeoEntity Example.fresh "a") ⟨50, 50, 0⟩ (-1)
    TranslationFunction.LINEAR "a" (by decide) (by decide!)

/-! ### Origin recomputation and the local plane (C11, C12, C18, C19) -/

/-- In the geo variant, for every manager state, after `setOrigin(lat, lng)` the
Origin is `(lat, lng)`, the registry and the coordinates of every entity are as
before, and every entity held by the render scene has been given the local
position `mapPosition` of its own coordinates against the new Origin; the loop
visits no other object. -/
theorem setOrigin_recomputes_scene_entities (env : Env D) (m : GeoSceneManager D)
    (lat lng : D) :
    (setOrigin env m lat lng).mOrigin = ⟨lat, lng⟩ ∧
    (setOrigin env m lat lng).mGeoEntities = m.mGeoEntities ∧
    (setOrigin env m lat lng).mScene = m.mScene ∧
    (∀ e, ((setOrigin env m lat lng).heap e).mCoords = (m.heap e).mCoords) ∧
    (∀ e ∈ m.mScene.mEntities, ((setOrigin env m lat lng).heap e).mPosition =
      mapPositionCoords env (setOrigin env m lat lng)
        ((setOrigin env m lat lng).heap e).mCoords) ∧
    (∀ e, e ∉ m.mScene.mEntities → (setOrigin env m lat lng).heap e = m.heap e) := by
  obtain ⟨hk, ho, hs, _, _⟩ := setOrigin_spec env m lat lng
  obtain ⟨hin, hout⟩ := setOrigin_heap env m lat lng
  refine ⟨ho, hk.mGeoEntities, hs, hk.coords, fun e he => ?_, hout⟩
  rw [hk.coords e]
  exact hin e he

/-- C11 (the code at the failing input). In the geo variant, the entity at address
`100` has an up-to-date local position and is registered under `"a"` while the
centre is `(50, 50)`, out of its range, so that it is withheld from the render
scene.  After `setOrigin(0, 0)` its local position is still `(50, 0, 50)`, the one
against the old Origin `(50, 50)`, and not `mapPosition` of its coordinates
against the new Origin, which is `(100, 0, 100)`.  Likewise
`placeCamera((100, 100, 0))` shifts the Origin to `(100, 100)` and then adds the
entity to the render scene with no `setCoords`: it is in the scene at
`(50, 0, 50)`, while `mapPosition` of its coordinates against the new Origin is
`(0, 0, 0)`. -/
theorem setOrigin_skips_withheld_entity :
    Example.withheld.mGeoEntities.find "a" = some (some 100) ∧
    100 ∉ Example.withheld.mScene.mEntities ∧
    (Example.withheld.heap 100).mPosition =
      mapPositionCoords Example.env Example.withheld (Example.withheld.heap 100).mCoords ∧
    ((setOrigin Example.env Example.withheld 0 0).heap 100).mPosition = ⟨50, 0, 50⟩ ∧
    mapPositionCoords Example.env (setOrigin Example.env Example.withheld 0 0)
      ((setOrigin Example.env Example.withheld 0 0).heap 100).mCoords = ⟨100, 0, 100⟩ ∧
    ((setOrigin Example.env Example.withheld 0 0).heap 100).mPosition ≠
      mapPositionCoords Example.env (setOrigin Example.env Example.withheld 0 0)
        ((setOrigin Example.env Example.withheld 0 0).heap 100).mCoords ∧
    (placeCamera Example.env Example.withheld ⟨100, 100, 0⟩ (-1)
        TranslationFunction.LINEAR).map
      (fun m' => (m'.mOrigin, m'.mScene.mEntities, (m'.heap 100).mPosition,
        mapPositionCoords Example.env m' (m'.heap 100).mCoords)) =
      some (⟨100, 100⟩, [100], ⟨50, 0, 50⟩, ⟨0, 0, 0⟩) := by
  decide!

/-- C12: in the engine/geo variant, for every Origin and every altitude `alt`,
when the distance `slc` of the Origin to itself is `0`, `mapPosition(origin.lat,
origin.lng, alt)` is `(0, alt, 0)`; `destinationPoint` at distance `0` has `x = 0`
and `z = 0` for every bearing. -/
theorem geo_mapPosition_of_origin (env : Env D) (m : GeoSceneManager D) (alt : D)
    (h : env.slc m.mOrigin m.mOrigin = 0) :
    geo.GeoSceneManager.mapPosition env m m.mOrigin.lat m.mOrigin.lng alt = ⟨0, alt, 0⟩ ∧
    ∀ bearing, geo.GeoSceneManager.destinationPoint env bearing 0 = ⟨0, 0, 0⟩ := by
  have hd : ∀ bearing, geo.GeoSceneManager.destinationPoint env bearing 0 = ⟨0, 0, 0⟩ := by
    intro bearing
    simp [geo.GeoSceneManager.destinationPoint]
  have hslc : env.slc ⟨m.mOrigin.lat, m.mOrigin.lng⟩ m.mOrigin = 0 := h
  refine ⟨?_, hd⟩
  simp only [geo.GeoSceneManager.mapPosition, hslc, hd]

/-- Witness for C12: with the Origin `(50, 50)` and the taxicab distance of
`Example.env`, `mapPosition(50, 50, 7)` is `(0, 7, 0)`. -/
theorem geo_mapPosition_of_origin_witness :
    Example.env.slc Example.placed.mOrigin Example.placed.mOrigin = 0 ∧
    geo.GeoSceneManager.mapPosition Example.env Example.placed 50 50 7 = ⟨0, 7, 0⟩ :=
  ⟨by decide!, (geo_mapPosition_of_origin Example.env Example.placed 7 (by decide!)).1⟩

/-- C18: in the engine/geo variant, after `step()` no resident tile is dirty; tile
by tile, in the order of `getTiles()`, a tile that was dirty has the position
`mapPosition(tile.lat, tile.lng, 0)` against the current Origin with half the
width of its quad added to `x` and half the height added to `z`, and a tile that
was not dirty keeps its position; coordinates and quad are kept, and so is the
rest of the manager.  After `setOrigin(lat, lng)` followed by `step()`, every
resident tile has that position against the new Origin `(lat, lng)`. -/
theorem geo_step_repositions_dirty_tiles (env : Env D) (m : GeoSceneManager D) :
    (∀ tile ∈ (geo.GeoSceneManager.step env m).mTileMap.mTiles, tile.mDirty = false) ∧
    List.Forall₂
      (fun tile tile' =>
        tile'.mCoords = tile.mCoords ∧ tile'.width = tile.width ∧
        tile'.height = tile.height ∧
        (tile.mDirty = true → tile'.mPosition =
          ⟨(geo.GeoSceneManager.mapPosition env m tile.mCoords.lat tile.mCoords.lng 0).x
              + tile.width / 2,
            (geo.GeoSceneManager.mapPosition env m tile.mCoords.lat tile.mCoords.lng 0).y,
            (geo.GeoSceneManager.mapPosition env m tile.mCoords.lat tile.mCoords.lng 0).z
              + tile.height / 2⟩) ∧
        (tile.mDirty = false → tile'.mPosition = tile.mPosition))
      m.mTileMap.mTiles (geo.GeoSceneManager.step env m).mTileMap.mTiles ∧
    (geo.GeoSceneManager.step env m).mOrigin = m.mOrigin ∧
    (geo.GeoSceneManager.step env m).mGeoEntities = m.mGeoEntities ∧
    (geo.GeoSceneManager.step env m).mScene = m.mScene ∧
    (geo.GeoSceneManager.step env m).heap = m.heap ∧
    (geo.GeoSceneManager.step env m).trace = m.trace ∧
    ∀ lat lng,
      (geo.GeoSceneManager.setOrigin env m lat lng).mOrigin = ⟨lat, lng⟩ ∧
      List.Forall₂
        (fun tile tile' =>
          tile'.mDirty = false ∧ tile'.mCoords = tile.mCoords ∧
          tile'.mPosition =
            ⟨(geo.GeoSceneManager.mapPosition env (geo.GeoSceneManager.setOrigin env m lat lng)
                tile.mCoords.lat tile.mCoords.lng 0).x + tile.width / 2,
              (geo.GeoSceneManager.mapPosition env (geo.GeoSceneManager.setOrigin env m lat lng)
                tile.mCoords.lat tile.mCoords.lng 0).y,
              (geo.GeoSceneManager.mapPosition env (geo.GeoSceneManager.setOrigin env m lat lng)
                tile.mCoords.lat tile.mCoords.lng 0).z + tile.height / 2⟩)
        m.mTileMap.mTiles
        (geo.GeoSceneManager.step env
          (geo.GeoSceneManager.setOrigin env m lat lng)).mTileMap.mTiles := by
  refine ⟨?_, ?_, rfl, rfl, rfl, rfl, rfl, ?_⟩
  · intro tile htile
    obtain ⟨t, _, rfl⟩ := List.mem_map.mp htile
    exact (geo.GeoSceneManager.engine_stepTile_spec env m t).1
  · show List.Forall₂ _ m.mTileMap.mTiles
      (m.mTileMap.mTiles.map (geo.GeoSceneManager.stepTile env m))
    rw [List.forall₂_map_right_iff, List.forall₂_same]
    intro t _
    exact (geo.GeoSceneManager.engine_stepTile_spec env m t).2
  · intro lat lng
    refine ⟨(geo.GeoSceneManager.engine_setOrigin_spec env m lat lng).2, ?_⟩
    show List.Forall₂ _ m.mTileMap.mTiles
      ((geo.GeoSceneManager.setOrigin env m lat lng).mTileMap.mTiles.map
        (geo.GeoSceneManager.stepTile env (geo.GeoSceneManager.setOrigin env m lat lng)))
    rw [geo.GeoSceneManager.engine_setOrigin_tiles, List.map_map,
      List.forall₂_map_right_iff, List.forall₂_same]
    intro t _
    obtain ⟨h₁, h₂, _, _, h₅, _⟩ := geo.GeoSceneManager.engine_stepTile_spec env
      (geo.GeoSceneManager.setOrigin env m lat lng) { t with mDirty := true }
    exact ⟨h₁, h₂, h₅ rfl⟩

/-- C19 (corrected): over the reals, with `glm::half_pi`, `glm::radians`, `cos` and
`sin` the real ones, for every bearing in degrees and every distance,
`destinationPoint(bearing, distance)` is `distance * (cos θ, 0, -sin θ)` for
`θ = π/2 - bearing * π/180`, which is `distance * (sin b, 0, -cos b)` for the
bearing `b = bearing * π/180` in radians; `mapPosition` returns this vector for the
bearing and distance of the point from the Origin, with `y` replaced by `alt`. -/
theorem geo_destinationPoint_real (env : Env ℝ) (m : GeoSceneManager ℝ)
    (hpi : env.half_pi = Real.pi / 2) (hrad : ∀ x, env.radians x = x * (Real.pi / 180))
    (hcos : env.cos = Real.cos) (hsin : env.sin = Real.sin)
    (bearing distance lat lon alt : ℝ) :
    geo.GeoSceneManager.destinationPoint env bearing distance =
      ⟨distance * Real.cos (Real.pi / 2 - bearing * (Real.pi / 180)), 0,
        -(distance * Real.sin (Real.pi / 2 - bearing * (Real.pi / 180)))⟩ ∧
    geo.GeoSceneManager.destinationPoint env bearing distance =
      ⟨distance * Real.sin (bearing * (Real.pi / 180)), 0,
        -(distance * Real.cos (bearing * (Real.pi / 180)))⟩ ∧
    geo.GeoSceneManager.mapPosition env m lat lon alt =
      ⟨(geo.GeoSceneManager.destinationPoint env (env.bearing ⟨lat, lon⟩ m.mOrigin)
          (env.slc ⟨lat, lon⟩ m.mOrigin)).x, alt,
        (geo.GeoSceneManager.destinationPoint env (env.bearing ⟨lat, lon⟩ m.mOrigin)
          (env.slc ⟨lat, lon⟩ m.mOrigin)).z⟩ := by
  refine ⟨?_, ?_, rfl⟩
  · simp [geo.GeoSceneManager.destinationPoint, hpi, hrad, hcos, hsin]
  · simp [geo.GeoSceneManager.destinationPoint, hpi, hrad, hcos, hsin, Real.cos_pi_div_two_sub,
      Real.sin_pi_div_two_sub]

/-- Witness for C19: the bearing 90 degrees (due east of the Origin) at distance 2
gives `(2 * sin(90 * π/180), 0, -(2 * cos(90 * π/180)))`. -/
theorem geo_destinationPoint_real_witness :
    geo.GeoSceneManager.destinationPoint
        (Example.trig (Real.pi / 2) (fun x => x * (Real.pi / 180)) Real.cos Real.sin) 90 2 =
      ⟨2 * Real.sin (90 * (Real.pi / 180)), 0, -(2 * Real.cos (90 * (Real.pi / 180)))⟩ :=
  (geo_destinationPoint_real
    (Example.trig (Real.pi / 2) (fun x => x * (Real.pi / 180)) Real.cos Real.sin)
    (GeoSceneManager.construct ⟨0, 0⟩ ⟨0, 0, 0⟩ ⟨[], ⟨⟨0, 0, 0⟩⟩⟩ ⟨[]⟩
      (fun _ => ⟨⟨0, 0, 0⟩, ⟨0, 0, 0⟩, false, "", 0⟩) (fun _ => ⟨⟨0, 0, 0⟩⟩))
    rfl (fun _ => rfl) rfl rfl 90 2 0 0 0).2.1

/-- Counterexample to C19 as stated: for the bearing 0 (due north) and the distance
1, `θ = π/2` and `destinationPoint` is `(0, 0, -1)`, while
`distance * (sin θ, 0, -cos θ)` is `(1, 0, 0)`. -/
theorem geo_destinationPoint_not_sin_cos_of_theta :
    geo.GeoSceneManager.destinationPoint
        (Example.trig (Real.pi / 2) (fun x => x * (Real.pi / 180)) Real.cos Real.sin) 0 1 =
      ⟨0, 0, -1⟩ ∧
    (⟨1 * Real.sin (Real.pi / 2 - 0 * (Real.pi / 180)), 0,
        -(1 * Real.cos (Real.pi / 2 - 0 * (Real.pi / 180)))⟩ : Vec3 ℝ) = ⟨1, 0, 0⟩ ∧
    geo.GeoSceneManager.destinationPoint
        (Example.trig (Real.pi / 2) (fun x => x * (Real.pi / 180)) Real.cos Real.sin) 0 1 ≠
      ⟨1 * Real.sin (Real.pi / 2 - 0 * (Real.pi / 180)), 0,
        -(1 * Real.cos (Real.pi / 2 - 0 * (Real.pi / 180)))⟩ := by
  have h₁ : geo.GeoSceneManager.destinationPoint
      (Example.trig (Real.pi / 2) (fun x => x * (Real.pi / 180)) Real.cos Real.sin) 0 1 =
      ⟨0, 0, -1⟩ := by
    simp [geo.GeoSceneManager.destinationPoint, Example.trig]
  have h₂ : (⟨1 * Real.sin (Real.pi / 2 - 0 * (Real.pi / 180)), 0,
      -(1 * Real.cos (Real.pi / 2 - 0 * (Real.pi / 180)))⟩ : Vec3 ℝ) = ⟨1, 0, 0⟩ := by
    simp
  refine ⟨h₁, h₂, ?_⟩
  rw [h₁, h₂]
  intro h
  have hx := congrArg Vec3.x h
  norm_num at hx

/-! ### Picking (C13 to C16, C20) -/

/-- C13: for every state and every screen point whose ray meets at least one
registered `Poi`, `pick` returns a registered `Poi` that the ray meets and whose
`distanceFromCamera` is at most that of every registered `Poi` the ray meets, and
the selection after the call is the entity returned. -/
theorem pick_returns_closest_hit (env : Env D) (m : GeoSceneManager D) (screenX screenY : Int)
    (h : ∃ k e, m.mGeoEntities.find k = some (some e) ∧
      isHit env m (env.castRay m.mScene screenX screenY) e = true) :
    ∃ c, (pick env m screenX screenY).1 = some c ∧
      (∃ k, m.mGeoEntities.find k = some (some c)) ∧
      (m.heap c).isPoi = true ∧
      env.intersects (m.heap c) (env.castRay m.mScene screenX screenY)
        m.mScene.mCamera.mPosition = true ∧
      (∀ k e, m.mGeoEntities.find k = some (some e) →
        isHit env m (env.castRay m.mScene screenX screenY) e = true →
        env.distanceFromCamera m.mScene (m.heap c) ≤
          env.distanceFromCamera m.mScene (m.heap e)) ∧
      (pick env m screenX screenY).2.mSelected = some c := by
  obtain ⟨k₀, e₀, hk₀, he₀⟩ := h
  have hmem₀ : e₀ ∈ pickIntersected env m (env.castRay m.mScene screenX screenY)
      m.mGeoEntities.entries :=
    (mem_pickIntersected env m _ e₀ _).mpr
      ⟨⟨k₀, (Registry.mem_entries_iff _ _ _).mpr hk₀⟩, he₀⟩
  obtain ⟨c, before, after, hhits, hb, ha, hpick⟩ :=
    pick_of_hit env m screenX screenY (List.ne_nil_of_mem hmem₀)
  have hc : c ∈ pickIntersected env m (env.castRay m.mScene screenX screenY)
      m.mGeoEntities.entries := by
    rw [hhits]; simp
  obtain ⟨⟨k, hk⟩, hhit⟩ := (mem_pickIntersected env m _ c _).mp hc
  have hhit' := hhit
  simp only [isHit, Bool.and_eq_true] at hhit'
  refine ⟨c, ?_, ⟨k, (Registry.mem_entries_iff _ _ _).mp hk⟩, hhit'.1, hhit'.2, ?_, ?_⟩
  · rw [hpick]; exact (pickSelect_spec m c).1
  · intro k' e hk' he
    have hmem : e ∈ before ++ c :: after := by
      rw [← hhits]
      exact (mem_pickIntersected env m _ e _).mpr
        ⟨⟨k', (Registry.mem_entries_iff _ _ _).mpr hk'⟩, he⟩
    rcases List.mem_append.mp hmem with hin | hin
    · exact hb e hin
    · rcases List.mem_cons.mp hin with rfl | hin
      · exact le_refl _
      · exact le_of_lt (ha e hin)
  · rw [hpick]; exact (pickSelect_spec m c).2.1

/-- Witness for C13: with the `Poi`s `"p1"` at distance 5 and `"p2"` at distance 3
registered and both on the ray of the screen point `(7, 7)`, `pick(7, 7)` returns
the one at distance 3. -/
theorem pick_returns_closest_hit_witness :
    (pick Example.env Example.twoPois 7 7).1 = some 2 ∧
    Example.env.distanceFromCamera Example.twoPois.mScene (Example.twoPois.heap 1) = 5 ∧
    Example.env.distanceFromCamera Example.twoPois.mScene (Example.twoPois.heap 2) = 3 ∧
    ∃ c, (pick Example.env Example.twoPois 7 7).1 = some c ∧
      (∃ k, Example.twoPois.mGeoEntities.find k = some (some c)) ∧
      (Example.twoPois.heap c).isPoi = true ∧
      Example.env.intersects (Example.twoPois.heap c)
        (Example.env.castRay Example.twoPois.mScene 7 7)
        Example.twoPois.mScene.mCamera.mPosition = true ∧
      (∀ k e, Example.twoPois.mGeoEntities.find k = some (some e) →
        isHit Example.env Example.twoPois (Example.env.castRay Example.twoPois.mScene 7 7) e
          = true →
        Example.env.distanceFromCamera Example.twoPois.mScene (Example.twoPois.heap c) ≤
          Example.env.distanceFromCamera Example.twoPois.mScene (Example.twoPois.heap e)) ∧
      (pick Example.env Example.twoPois 7 7).2.mSelected = some c :=
  ⟨by decide!, by decide!, by decide!,
    pick_returns_closest_hit Example.env Example.twoPois 7 7
      ⟨"a", 1, by decide!, by decide!⟩⟩

/-- C14: for every state in which the ray meets no registered `Poi`, `pick` returns
null and the selection is empty afterwards; if an entity `s` was selected, the
calls made are the reset of the diffuse colour of `s` to `(0, 0, 0)` and the one
callback `onPoiDeselected(s.sid)`; if nothing was selected the manager is as
before, no call is made. -/
theorem pick_without_hit (env : Env D) (m : GeoSceneManager D) (screenX screenY : Int)
    (h : ∀ k e, m.mGeoEntities.find k = some (some e) →
      isHit env m (env.castRay m.mScene screenX screenY) e = false) :
    (pick env m screenX screenY).1 = none ∧
    (pick env m screenX screenY).2.mSelected = none ∧
    (∀ s, m.mSelected = some s →
      (pick env m screenX screenY).2.trace = m.trace ++
        [Call.setDiffuseColor (m.heap s).mMaterial ⟨0, 0, 0⟩,
          Call.onPoiDeselected (m.heap s).mSid]) ∧
    (m.mSelected = none → (pick env m screenX screenY).2 = m) := by
  have hhits : pickIntersected env m (env.castRay m.mScene screenX screenY)
      m.mGeoEntities.entries = [] := by
    apply List.eq_nil_iff_forall_not_mem.mpr
    intro e he
    obtain ⟨⟨k, hk⟩, hhit⟩ := (mem_pickIntersected env m _ e _).mp he
    rw [h k e ((Registry.mem_entries_iff _ _ _).mp hk)] at hhit
    exact Bool.false_ne_true hhit
  rw [pick_of_no_hit env m screenX screenY hhits]
  obtain ⟨h₁, h₂, _, _, _, h₆, h₇⟩ := pickNone_spec m
  exact ⟨h₁, h₂, fun s hs => (h₆ s hs).1, h₇⟩

/-- Witness for C14: with `"p1"` selected and the screen point `(0, 0)`, whose ray
meets no registered `Poi`, `pick(0, 0)` returns null, empties the selection and
makes the one callback `onPoiDeselected("p1")`. -/
theorem pick_without_hit_witness :
    Example.sharedMaterial.mSelected = some 1 ∧
    (pick Example.env Example.sharedMaterial 0 0).1 = none ∧
    (pick Example.env Example.sharedMaterial 0 0).2.mSelected = none ∧
    (pick Example.env Example.sharedMaterial 0 0).2.trace =
      Example.sharedMaterial.trace ++
        [Call.setDiffuseColor 1 ⟨0, 0, 0⟩, Call.onPoiDeselected "p1"] := by
  have hno : ∀ k e, Example.sharedMaterial.mGeoEntities.find k = some (some e) →
      isHit Example.env Example.sharedMaterial
        (Example.env.castRay Example.sharedMaterial.mScene 0 0) e = false := by
    intro k e hk
    have hmem := (Registry.mem_entries_iff _ _ _).mpr hk
    have hent : Example.sharedMaterial.mGeoEntities.entries =
        [("a", some 1), ("d", some 4)] := rfl
    rw [hent] at hmem
    simp only [List.mem_cons, Prod.mk.injEq, Option.some.injEq, List.mem_nil_iff,
      or_false] at hmem
    rcases hmem with ⟨_, rfl⟩ | ⟨_, rfl⟩ <;> decide!
  have h := pick_without_hit Example.env Example.sharedMaterial 0 0 hno
  exact ⟨rfl, h.1, h.2.1, h.2.2.1 1 rfl⟩

/-- C15 (corrected): for every state, if `pick(x, y)` has just returned the entity
`e`, a second `pick(x, y)` returns `e` again and leaves it selected; it makes no
`onPoiDeselected` callback, but it sets the diffuse colour of `e` to the highlight
again and makes the callback `onPoiSelected(e.sid)` once more. -/
theorem pick_repeated_selects_again (env : Env D) (m : GeoSceneManager D)
    (screenX screenY : Int) (e : Nat) (h : (pick env m screenX screenY).1 = some e) :
    (pick env (pick env m screenX screenY).2 screenX screenY).1 = some e ∧
    (pick env (pick env m screenX screenY).2 screenX screenY).2.mSelected = some e ∧
    (pick env (pick env m screenX screenY).2 screenX screenY).2.trace =
      (pick env m screenX screenY).2.trace ++
        [Call.setDiffuseColor (m.heap e).mMaterial ⟨0.8, 0.1, 0.3⟩,
          Call.onPoiSelected (m.heap e).mSid] := by
  have hfirst : pick env m screenX screenY = pickSelect m e := by
    rcases pick_dichotomy env m screenX screenY with hp | ⟨c, hp⟩
    · rw [hp, (pickNone_spec m).1] at h
      exact absurd h (by simp)
    · rw [hp, (pickSelect_spec m c).1] at h
      rw [hp, Option.some.inj h]
  obtain ⟨_, hsel, hreg, hscene, hheap, _, _⟩ := pickSelect_spec m e
  rw [← hfirst] at hsel hreg hscene hheap
  have hfst : (pick env (pick env m screenX screenY).2 screenX screenY).1 = some e := by
    rw [pick_fst_congr env env m (pick env m screenX screenY).2 screenX screenY screenX screenY
      hreg (fun k x _ => ⟨by simp [isHit, hheap, hscene], by rw [hheap, hscene]⟩)]
    exact h
  have hsecond : pick env (pick env m screenX screenY).2 screenX screenY =
      pickSelect (pick env m screenX screenY).2 e := by
    rcases pick_dichotomy env (pick env m screenX screenY).2 screenX screenY with hp | ⟨c, hp⟩
    · rw [hp, (pickNone_spec _).1] at hfst
      exact absurd hfst (by simp)
    · rw [hp, (pickSelect_spec _ c).1] at hfst
      rw [hp, Option.some.inj hfst]
  obtain ⟨h₁, h₂, _, _, _, _, h₇⟩ := pickSelect_spec (pick env m screenX screenY).2 e
  rw [← hsecond] at h₁ h₂ h₇
  refine ⟨h₁, h₂, ?_⟩
  have htr := (h₇ (fun s hs => by
    rw [hsel] at hs
    rw [Option.some.inj hs])).1
  rw [hheap] at htr
  exact htr

/-- Witness for C15: `pick(7, 7)` on the two registered `Poi`s returns `"p2"`, and
so does a second `pick(7, 7)`, which makes the callback `onPoiSelected("p2")`
again. -/
theorem pick_repeated_selects_again_witness :
    (pick Example.env Example.twoPois 7 7).1 = some 2 ∧
    (pick Example.env (pick Example.env Example.twoPois 7 7).2 7 7).1 = some 2 ∧
    (pick Example.env (pick Example.env Example.twoPois 7 7).2 7 7).2.trace =
      (pick Example.env Example.twoPois 7 7).2.trace ++
        [Call.setDiffuseColor 2 ⟨0.8, 0.1, 0.3⟩, Call.onPoiSelected "p2"] :=
  have h := pick_repeated_selects_again Example.env Example.twoPois 7 7 2 (by decide!)
  ⟨by decide!, h.1, h.2.2⟩

/-- Counterexample to C15 as stated: after `pick(7, 7)` has returned `"p2"`, the
second `pick(7, 7)` returns `"p2"` again and the calls it adds contain the
callback `onPoiSelected("p2")`. -/
theorem pick_repeated_emits_onPoiSelected :
    (pick Example.env Example.twoPois 7 7).1 = some 2 ∧
    (pick Example.env (pick Example.env Example.twoPois 7 7).2 7 7).1 = some 2 ∧
    Call.onPoiSelected "p2" ∈
      (pick Example.env (pick Example.env Example.twoPois 7 7).2 7 7).2.trace.drop
        (pick Example.env Example.twoPois 7 7).2.trace.length := by
  decide!

/-- C16 (corrected): for every state with the selection `s` and a `pick` that
returns `c` with a sid other than that of `s`, the calls made are, in this order,
the highlight `(0.8, 0.1, 0.3)` of the material of `c`, the reset to `(0, 0, 0)` of
the material of `s`, the callback `onPoiDeselected(s.sid)` and the callback
`onPoiSelected(c.sid)`; the selection becomes `c`; the diffuse colour of `s` ends
as `(0, 0, 0)`; that of `c` ends as the highlight when `c` and `s` hold different
materials, and as `(0, 0, 0)` when they hold the same material; no other material
is touched. -/
theorem pick_changes_selection (env : Env D) (m : GeoSceneManager D) (screenX screenY : Int)
    (s c : Nat) (hs : m.mSelected = some s) (hc : (pick env m screenX screenY).1 = some c)
    (hsid : (m.heap s).mSid ≠ (m.heap c).mSid) :
    (pick env m screenX screenY).2.trace = m.trace ++
      [Call.setDiffuseColor (m.heap c).mMaterial ⟨0.8, 0.1, 0.3⟩,
        Call.setDiffuseColor (m.heap s).mMaterial ⟨0, 0, 0⟩,
        Call.onPoiDeselected (m.heap s).mSid,
        Call.onPoiSelected (m.heap c).mSid] ∧
    (pick env m screenX screenY).2.mSelected = some c ∧
    ((pick env m screenX screenY).2.materials (m.heap s).mMaterial).mDiffuseColor
      = ⟨0, 0, 0⟩ ∧
    ((m.heap c).mMaterial ≠ (m.heap s).mMaterial →
      ((pick env m screenX screenY).2.materials (m.heap c).mMaterial).mDiffuseColor
        = ⟨0.8, 0.1, 0.3⟩) ∧
    ((m.heap c).mMaterial = (m.heap s).mMaterial →
      ((pick env m screenX screenY).2.materials (m.heap c).mMaterial).mDiffuseColor
        = ⟨0, 0, 0⟩) ∧
    (∀ i, i ≠ (m.heap c).mMaterial → i ≠ (m.heap s).mMaterial →
      (pick env m screenX screenY).2.materials i = m.materials i) := by
  have hpick : pick env m screenX screenY = pickSelect m c := by
    rcases pick_dichotomy env m screenX screenY with hp | ⟨c', hp⟩
    · rw [hp, (pickNone_spec m).1] at hc
      exact absurd hc (by simp)
    · rw [hp, (pickSelect_spec m c').1] at hc
      rw [hp, Option.some.inj hc]
  obtain ⟨_, hsel, _, _, _, h₆, _⟩ := pickSelect_spec m c
  obtain ⟨htr, hmat⟩ := h₆ s hs hsid
  rw [hpick]
  refine ⟨htr, hsel, ?_, ?_, ?_, ?_⟩
  · rw [hmat]; simp
  · intro hne
    rw [hmat, Function.update_noteq hne]; simp
  · intro heq
    rw [hmat, heq]; simp
  · intro i hic his
    rw [hmat, Function.update_noteq his, Function.update_noteq hic]

/-- Witness for C16: with `"p1"` selected, `pick(7, 7)` on the two registered `Poi`s
returns `"p2"`, which holds another material; the callbacks are
`onPoiDeselected("p1")` then `onPoiSelected("p2")`, and the material of `"p2"` ends
highlighted. -/
theorem pick_changes_selection_witness :
    (pick Example.env { Example.twoPois with mSelected := some 1 } 7 7).1 = some 2 ∧
    (pick Example.env { Example.twoPois with mSelected := some 1 } 7 7).2.trace =
      [Call.setDiffuseColor 2 ⟨0.8, 0.1, 0.3⟩, Call.setDiffuseColor 1 ⟨0, 0, 0⟩,
        Call.onPoiDeselected "p1", Call.onPoiSelected "p2"] ∧
    ((pick Example.env { Example.twoPois with mSelected := some 1 } 7 7).2.materials
      2).mDiffuseColor = ⟨0.8, 0.1, 0.3⟩ :=
  have h := pick_changes_selection Example.env { Example.twoPois with mSelected := some 1 }
    7 7 1 2 rfl (by decide!) (by decide!)
  ⟨by decide!, h.1, h.2.2.2.1 (by decide!)⟩

/-- Counterexample to C16 as stated: `"p1"` is selected and holds the same material
as `"p4"`; `pick(7, 7)` returns `"p4"`, whose sid differs, and the diffuse colour
of `"p4"` after the call is `(0, 0, 0)`, not the highlight. -/
theorem pick_shared_material_not_highlighted :
    Example.sharedMaterial.mSelected = some 1 ∧
    (pick Example.env Example.sharedMaterial 7 7).1 = some 4 ∧
    (Example.sharedMaterial.heap 1).mSid ≠ (Example.sharedMaterial.heap 4).mSid ∧
    ((pick Example.env Example.sharedMaterial 7 7).2.materials
      (Example.sharedMaterial.heap 4).mMaterial).mDiffuseColor = ⟨0, 0, 0⟩ ∧
    ((pick Example.env Example.sharedMaterial 7 7).2.materials
      (Example.sharedMaterial.heap 4).mMaterial).mDiffuseColor ≠ ⟨0.8, 0.1, 0.3⟩ := by
  decide!

/-- C20: when `pick` returns `c`, the registry in its iteration order splits at an
entry of `c` such that the ray meets `c`, no `Poi` met by the ray in an earlier
entry is closer to the camera than `c`, and every `Poi` met by the ray in a later
entry is strictly farther: among the hits at the least distance `c` is the last
one.  The result is the same for any other collaborators, manager and screen
point with the same registry, the same hits among the registered objects and the
same distances of them. -/
theorem pick_breaks_ties_by_registry_order (env : Env D) (m : GeoSceneManager D)
    (screenX screenY : Int) (c : Nat) (h : (pick env m screenX screenY).1 = some c) :
    (∃ E₁ k E₂, m.mGeoEntities.entries = E₁ ++ (k, some c) :: E₂ ∧
      isHit env m (env.castRay m.mScene screenX screenY) c = true ∧
      (∀ k' e, (k', some e) ∈ E₁ →
        isHit env m (env.castRay m.mScene screenX screenY) e = true →
        env.distanceFromCamera m.mScene (m.heap c) ≤
          env.distanceFromCamera m.mScene (m.heap e)) ∧
      (∀ k' e, (k', some e) ∈ E₂ →
        isHit env m (env.castRay m.mScene screenX screenY) e = true →
        env.distanceFromCamera m.mScene (m.heap c) <
          env.distanceFromCamera m.mScene (m.heap e))) ∧
    (∀ (env' : Env D) (m' : GeoSceneManager D) (screenX' screenY' : Int),
      m'.mGeoEntities = m.mGeoEntities →
      (∀ k e, m.mGeoEntities.find k = some (some e) →
        isHit env' m' (env'.castRay m'.mScene screenX' screenY') e =
          isHit env m (env.castRay m.mScene screenX screenY) e ∧
        env'.distanceFromCamera m'.mScene (m'.heap e) =
          env.distanceFromCamera m.mScene (m.heap e)) →
      (pick env' m' screenX' screenY').1 = some c) := by
  constructor
  · have hne : pickIntersected env m (env.castRay m.mScene screenX screenY)
        m.mGeoEntities.entries ≠ [] := by
      intro hnil
      rw [pick_of_no_hit env m screenX screenY hnil, (pickNone_spec m).1] at h
      exact absurd h (by simp)
    obtain ⟨c', before, after, hhits, hb, ha, hpick⟩ := pick_of_hit env m screenX screenY hne
    rw [hpick, (pickSelect_spec m c').1] at h
    obtain rfl := Option.some.inj h
    obtain ⟨E₁, k, E₂, hent, hhit, h₁, h₂⟩ :=
      pickIntersected_eq_append env m _ c' _ before after hhits
    refine ⟨E₁, k, E₂, hent, hhit, ?_, ?_⟩
    · intro k' e he hhe
      exact hb e (h₁ ▸ (mem_pickIntersected env m _ e E₁).mpr ⟨⟨k', he⟩, hhe⟩)
    · intro k' e he hhe
      exact ha e (h₂ ▸ (mem_pickIntersected env m _ e E₂).mpr ⟨⟨k', he⟩, hhe⟩)
  · intro env' m' screenX' screenY' hreg hsame
    rw [pick_fst_congr env env' m m' screenX screenY screenX' screenY' hreg
      (fun k e he => hsame k e ((Registry.mem_entries_iff _ _ _).mp he))]
    exact h

/-- Witness for C20: `"p2"` under key `"a"` and `"p3"` under key `"b"` are both at
the least distance 3, `"p1"` under key `"c"` at distance 5; `pick(7, 7)` returns
`"p3"`, the later of the two in the order of the keys. -/
theorem pick_breaks_ties_by_registry_order_witness :
    (pick Example.env Example.tiedPois 7 7).1 = some 3 ∧
    Example.tiedPois.mGeoEntities.entries =
      [("a", some 2), ("b", some 3), ("c", some 1), ("d", some 5)] ∧
    Example.env.distanceFromCamera Example.tiedPois.mScene (Example.tiedPois.heap 2) = 3 ∧
    Example.env.distanceFromCamera Example.tiedPois.mScene (Example.tiedPois.heap 3) = 3 ∧
    ∃ E₁ k E₂, Example.tiedPois.mGeoEntities.entries = E₁ ++ (k, some 3) :: E₂ ∧
      isHit Example.env Example.tiedPois (Example.env.castRay Example.tiedPois.mScene 7 7) 3
        = true ∧
      (∀ k' e, (k', some e) ∈ E₁ →
        isHit Example.env Example.tiedPois (Example.env.castRay Example.tiedPois.mScene 7 7) e
          = true →
        Example.env.distanceFromCamera Example.tiedPois.mScene (Example.tiedPois.heap 3) ≤
          Example.env.distanceFromCamera Example.tiedPois.mScene (Example.tiedPois.heap e)) ∧
      (∀ k' e, (k', some e) ∈ E₂ →
        isHit Example.env Example.tiedPois (Example.env.castRay Example.tiedPois.mScene 7 7) e
          = true →
        Example.env.distanceFromCamera Example.tiedPois.mScene (Example.tiedPois.heap 3) <
          Example.env.distanceFromCamera Example.tiedPois.mScene (Example.tiedPois.heap e)) :=
  ⟨by decide!, rfl, by decide!, by decide!,
    (pick_breaks_ties_by_registry_order Example.env Example.tiedPois 7 7 3 (by decide!)).1⟩

/-! ### The lookups (C17) -/

/-- C17 (code defect, the one of C2): from the freshly constructed manager the call
`removeGeoEntity("a")` reaches a state in which `hasGeoEntity("a")` is true while
`getGeoEntity("a")` returns null: the two lookups disagree.  Neither lookup
changes the registry. -/
theorem lookups_disagree_after_removeGeoEntity_of_absent_key :
    Reachable Example.env Example.fresh (removeGeoEntity Example.fresh "a") ∧
    hasGeoEntity (removeGeoEntity Example.fresh "a") "a" = true ∧
    (getGeoEntity (removeGeoEntity Example.fresh "a") "a").1 = none ∧
    (getGeoEntity (removeGeoEntity Example.fresh "a") "a").2.mGeoEntities.entries =
      [("a", none)] ∧
    (removeGeoEntity Example.fresh "a").mGeoEntities.entries = [("a", none)] :=
  ⟨Reachable.removeGeoEntity "a" Reachable.start, by decide!, by decide!, by decide!,
    by decide!⟩

omit [LinearOrderedField D] in
/-- For every state and key, `getGeoEntity` and `hasGeoEntity` leave the manager as
it was; `hasGeoEntity(k)` is true exactly when the registry has an entry for `k`,
and `getGeoEntity(k)` returns the pointer of that entry, null when there is none:
for a registered key the lookups agree exactly when the entry is not null. -/
theorem lookups_pure (m : GeoSceneManager D) (k : String) :
    (getGeoEntity m k).2 = m ∧
    (hasGeoEntity m k = true ↔ ∃ p, m.mGeoEntities.find k = some p) ∧
    (∀ e, (getGeoEntity m k).1 = some e ↔ m.mGeoEntities.find k = some (some e)) ∧
    ((getGeoEntity m k).1 = none ↔
      m.mGeoEntities.find k = none ∨ m.mGeoEntities.find k = some none) := by
  have hhas : hasGeoEntity m k = true ↔ ∃ p, m.mGeoEntities.find k = some p :=
    Registry.contains_eq_true_iff _ _
  cases hf : m.mGeoEntities.find k with
  | none =>
    have hc : m.mGeoEntities.contains k = false := (Registry.contains_eq_false_iff _ _).mpr hf
    have hg : getGeoEntity m k = (none, m) := by simp [getGeoEntity, hc]
    rw [hg]
    refine ⟨rfl, ?_, ?_, ?_⟩
    · rw [hhas, hf]
    · intro e; simp
    · simp
  | some p =>
    have hc : m.mGeoEntities.contains k = true :=
      (Registry.contains_eq_true_iff _ _).mpr ⟨p, hf⟩
    have hg : getGeoEntity m k = (p, m) := by
      simp [getGeoEntity, hc, Registry.index_of_present _ _ _ hf]
    rw [hg]
    refine ⟨rfl, ?_, ?_, ?_⟩
    · rw [hhas, hf]
    · intro e; simp
    · simp

/-! ### A scenario for `step` -/

/-- In the engine/geo variant, with one resident tile at `(51, 52)` that is not
dirty and whose quad is 4 wide and 6 high: `step()` alone leaves the tile where it
was, at `(9, 9, 9)`; after `setOrigin(51, 52)` and `step()` the tile is not dirty
and lies at `(2, 0, 3)`, the local position `(0, 0, 0)` of the Origin shifted by
half the quad. -/
theorem geo_step_after_setOrigin_scenario :
    (geo.GeoSceneManager.step Example.env Example.oneTile).mTileMap.mTiles =
      [⟨⟨51, 52, 0⟩, false, ⟨9, 9, 9⟩, 4, 6⟩] ∧
    (geo.GeoSceneManager.step Example.env
      (geo.GeoSceneManager.setOrigin Example.env Example.oneTile 51 52)).mTileMap.mTiles =
      [⟨⟨51, 52, 0⟩, false, ⟨2, 0, 3⟩, 4, 6⟩] := by
  decide!

/-! ### The selection and the registry (C21) -/

/-- C21 (corrected): in every state reachable from the freshly constructed manager
by calls of `addGeoEntity`, `removeGeoEntity`, `placeCamera` and `pick`, the
selection, if any, is the entity returned by an earlier `pick`, it was held in the
registry in the state in which that `pick` was called, and only calls of
`addGeoEntity`, `removeGeoEntity` and `placeCamera` have followed;
`removeGeoEntity` leaves the selection as it is.  A callback `onPoiSelected` of a
`pick` is for the sid of an entity held in the registry when `pick` is called; a
callback `onPoiDeselected` is for the sid of the entity selected before the
call. -/
theorem selection_registered_when_picked (env : Env D) (origin : LatLng D)
    (cameraCoords : LatLngAlt D) (scene : Scene D) (tileMap : TileMap D)
    (heap : Nat → GeoEntity D) (materials : Nat → Material D) (m : GeoSceneManager D)
    (h : ReachablePick env (construct origin cameraCoords scene tileMap heap materials) m) :
    (∀ s, m.mSelected = some s →
      ∃ m₁ screenX screenY,
        ReachablePick env (construct origin cameraCoords scene tileMap heap materials) m₁ ∧
        (pick env m₁ screenX screenY).1 = some s ∧
        (∃ k, m₁.mGeoEntities.find k = some (some s)) ∧
        Reachable env (pick env m₁ screenX screenY).2 m) ∧
    (∀ sid, (removeGeoEntity m sid).mSelected = m.mSelected) ∧
    (∀ screenX screenY sid,
      Call.onPoiSelected sid ∈ (pick env m screenX screenY).2.trace.drop m.trace.length →
      ∃ c k, m.mGeoEntities.find k = some (some c) ∧ sid = (m.heap c).mSid) ∧
    (∀ screenX screenY sid,
      Call.onPoiDeselected sid ∈ (pick env m screenX screenY).2.trace.drop m.trace.length →
      ∃ s, m.mSelected = some s ∧ sid = (m.heap s).mSid) := by
  refine ⟨selection_invariant env _ m rfl h, removeGeoEntity_mSelected m, ?_, ?_⟩
  · intro x y sid hmem
    obtain ⟨calls, htr, hsel, _⟩ := pick_callbacks env m x y
    rw [htr, List.drop_left] at hmem
    obtain ⟨c, hc, hsid⟩ := hsel sid hmem
    obtain ⟨k, hk⟩ := (pick_fst_registered env m x y c hc).1
    exact ⟨c, k, hk, hsid⟩
  · intro x y sid hmem
    obtain ⟨calls, htr, _, hdes⟩ := pick_callbacks env m x y
    rw [htr, List.drop_left] at hmem
    exact hdes sid hmem

/-- Witness for C21: after `addGeoEntity("a", p)` for the `Poi` `"p1"` and
`pick(7, 7)` on the freshly constructed manager, `"p1"` is selected, and it was
registered when it was picked. -/
theorem selection_registered_when_picked_witness :
    Example.poiPicked.mSelected = some 1 ∧
    ∃ m₁ screenX screenY,
      ReachablePick Example.env Example.freshPois m₁ ∧
      (pick Example.env m₁ screenX screenY).1 = some 1 ∧
      (∃ k, m₁.mGeoEntities.find k = some (some 1)) ∧
      Reachable Example.env (pick Example.env m₁ screenX screenY).2 Example.poiPicked :=
  ⟨by decide!,
    (selection_registered_when_picked Example.env ⟨0, 0⟩ ⟨0, 0, 0⟩ ⟨[], ⟨⟨0, 0, 0⟩⟩⟩ ⟨[]⟩
      Example.poiHeap Example.materials Example.poiPicked
      (ReachablePick.pick 7 7
        (ReachablePick.addGeoEntity "a" (some 1) ReachablePick.start
          (some_getD_of_isSome _ _ (by decide!))))).1 1 (by decide!)⟩

/-- Counterexample to C21 as stated: from the freshly constructed manager, call
`addGeoEntity("a", p)` for the `Poi` `"p1"`, `pick(7, 7)`, which selects it, and
`removeGeoEntity("a")`.  In the state reached the registry is empty and `"p1"` is
still selected; a further `pick(7, 7)` hits nothing and makes the callback
`onPoiDeselected("p1")`. -/
theorem selection_survives_removeGeoEntity :
    ReachablePick Example.env Example.freshPois Example.poiRemoved ∧
    Example.poiRemoved.mSelected = some 1 ∧
    Example.poiRemoved.mGeoEntities.entries = [] ∧
    (∀ k, Example.poiRemoved.mGeoEntities.find k ≠ some (some 1)) ∧
    (Example.poiRemoved.heap 1).mSid = "p1" ∧
    Call.onPoiDeselected "p1" ∈
      (pick Example.env Example.poiRemoved 7 7).2.trace.drop
        Example.poiRemoved.trace.length := by
  have hent : Example.poiRemoved.mGeoEntities.entries = [] := by decide!
  refine ⟨?_, by decide!, hent, ?_, by decide!, by decide!⟩
  · exact ReachablePick.removeGeoEntity "a"
      (ReachablePick.pick 7 7
        (ReachablePick.addGeoEntity "a" (some 1) ReachablePick.start
          (some_getD_of_isSome _ _ (by decide!))))
  · intro k hk
    have hmem := (Registry.mem_entries_iff _ _ _).mpr hk
    rw [hent] at hmem
    exact absurd hmem (List.not_mem_nil _)

/-! ### Eviction in the engine/geo variant (C22) -/

/-- C22 (code defect): in the engine/geo variant, with the entity at address `50`
registered under `"a"`, present in the scene and in range of the centre
`(50, 50)`, the call `placeCamera((60, 60, 0))` moves the centre to the tile
`(60, 60)`, of which the entity is out of range: the loop erases the entry the
iteration stands on and steps the invalidated iterator, so that the call has no
defined result.  A move to the tile `(51, 51)`, of which the entity is in range,
returns. -/
theorem geo_placeCamera_eviction_undefined :
    Example.engineCentredA.mGeoEntities.find "a" = some (some 50) ∧
    50 ∈ Example.engineCentredA.mScene.mEntities ∧
    Example.engineCentredA.mLastX = 50 ∧ Example.engineCentredA.mLastY = 50 ∧
    inRange Example.env Example.engineCentredA 50 50 50 = true ∧
    inRange Example.env Example.engineCentredA 50 60 60 = false ∧
    geo.GeoSceneManager.placeCamera Example.env Example.engineCentredA ⟨60, 60, 0⟩ (-1)
      TranslationFunction.LINEAR = none ∧
    (geo.GeoSceneManager.placeCamera Example.env Example.engineCentredA ⟨51, 51, 0⟩ (-1)
      TranslationFunction.LINEAR).isSome = true :=
  ⟨by decide!, by decide!, by decide!, by decide!, by decide!, by decide!,
    Option.isNone_iff_eq_none.mp (by decide!), by decide!⟩

/-- In the engine/geo variant `placeCamera` returns exactly when the target tile is
the last-known centre or every registry value is a non-null entity whose tile
index is in range of the target tile; when it returns, the registry is the one
before the call, the scene holds the entities it held, and the last-known centre
is the target tile. -/
theorem geo_placeCamera_returns_iff_nothing_to_evict (env : Env D) (m : GeoSceneManager D)
    (coords : LatLngAlt D) (translationDuration : D)
    (translationFunction : TranslationFunction) :
    ((geo.GeoSceneManager.placeCamera env m coords translationDuration
        translationFunction).isSome = true ↔
      (env.lng2tilex coords.lng ZOOM_LEVEL = m.mLastX ∧
        env.lat2tiley coords.lat ZOOM_LEVEL = m.mLastY) ∨
      ∀ k p, m.mGeoEntities.find k = some p →
        ∃ e, p = some e ∧
          inRange env m e (env.lng2tilex coords.lng ZOOM_LEVEL)
            (env.lat2tiley coords.lat ZOOM_LEVEL) = true) ∧
    (∀ m', geo.GeoSceneManager.placeCamera env m coords translationDuration
        translationFunction = some m' →
      m'.mGeoEntities = m.mGeoEntities ∧
      m'.mScene.mEntities = m.mScene.mEntities ∧
      m'.mLastX = env.lng2tilex coords.lng ZOOM_LEVEL ∧
      m'.mLastY = env.lat2tiley coords.lat ZOOM_LEVEL) := by
  constructor
  · constructor
    · intro h
      obtain ⟨m', hm'⟩ := Option.isSome_iff_exists.mp h
      simp only [geo.GeoSceneManager.placeCamera] at hm'
      split at hm'
      · exact absurd hm' (by simp)
      · rename_i m₃ hv
        exact (geo.GeoSceneManager.engine_placeCameraMove_eq_some env m coords _ _ m₃ hv).2
    · intro h
      have hs := geo.GeoSceneManager.engine_placeCameraMove_isSome env m coords _ _ h
      obtain ⟨m₃, hm₃⟩ := Option.isSome_iff_exists.mp hs
      simp [geo.GeoSceneManager.placeCamera, hm₃]
  · intro m' hm'
    simp only [geo.GeoSceneManager.placeCamera] at hm'
    split at hm'
    · exact absurd hm' (by simp)
    · rename_i m₃ hv
      have hk := geo.GeoSceneManager.engine_placeCameraMove_keeps env m coords _ _ m₃ hv
      have hsc := (geo.GeoSceneManager.engine_placeCameraMove_eq_some env m coords _ _ m₃ hv).1
      simp only [Option.some.injEq] at hm'
      subst hm'
      exact ⟨hk.mGeoEntities, hsc, rfl, rfl⟩

end dma
